import Mathlib

/-!
# pro-km command tunnel: executor, command manager, connection registry, utilities

A shallow embedding of `pkg/component/cmd` (executor.go, cmdmanager.go,
cmdserver.go, cmdclient.go, types.go, utils.go), `pkg/component/conns`
(connmanager.go), `pkg/component/storage` (cas/cas.go, filedb/db.go) and
`pkg/util` (res/res.go, time/time.go, net/ip.go).

Conventions of the embedding

* A Go `string` is a Lean `String`; a Go `[]byte` is a `List Char`, one
  character per unit, so `[]byte(s)` is `s.data` and `string(b)` is
  `String.mk b`.
* A Go `map` and a `sync.Map` are association lists (`GoMap`) with `load`,
  `store` and `delete`.
* `int` is `Int`, `uint32` is a `Nat` below `2^32`; the conversion
  `uint32(x)` is `x % 2^32`.
* A `float64` is an exact rational, an infinity or NaN: the rounding of the
  float operations is left out.
* A function that can crash returns `Run _`; `Run.panic` is a panic. A Go
  result pair `(value, error)` is an `Except String _`.
* A recursion that need not end takes the depth of the stack as an argument
  and answers `none` when no call has returned within it.
* Callbacks handed to the manager (`sendCmd`, `respCmd`) are scripts: the list
  of results of the upcoming calls (`none` is a nil error), an exhausted
  script answering nil.
* Goroutines are run as atomic steps in an order given by explicit schedule
  arguments (the packages the receive loop routes, the timer ticks).
-/

namespace ProKm

/-- Equality of Go result pairs is decidable. -/
instance instDecidableEqResult {ε α : Type} [DecidableEq ε] [DecidableEq α] :
    DecidableEq (Except ε α) := fun a b =>
  match a, b with
  | Except.ok x, Except.ok y =>
    if h : x = y then isTrue (by rw [h]) else isFalse (fun h1 => h (Except.ok.inj h1))
  | Except.error x, Except.error y =>
    if h : x = y then isTrue (by rw [h]) else isFalse (fun h1 => h (Except.error.inj h1))
  | Except.ok _, Except.error _ => isFalse (fun h => Except.noConfusion h)
  | Except.error _, Except.ok _ => isFalse (fun h => Except.noConfusion h)

/-! ## Maps -/

/-- Go maps and `sync.Map`s, as association lists. -/
abbrev GoMap (κ ν : Type) := List (κ × ν)

namespace GoMap

variable {κ ν : Type} [DecidableEq κ]

/-- Lookup `m[k]` / `m.Load(k)`. -/
def load : GoMap κ ν → κ → Option ν
  | [], _ => none
  | (k', v) :: rest, k => if k' = k then some v else load rest k

/-- Removal `delete(m, k)` / `m.Delete(k)`. -/
def delete (m : GoMap κ ν) (k : κ) : GoMap κ ν :=
  m.filter (fun p => decide (p.1 ≠ k))

/-- Assignment `m[k] = v` / `m.Store(k, v)`. -/
def store (m : GoMap κ ν) (k : κ) (v : ν) : GoMap κ ν :=
  (k, v) :: delete m k

/-- The keys of the map. -/
def keys (m : GoMap κ ν) : List κ := m.map Prod.fst

end GoMap

/-! ## Data model (types.go, v1.CmdPackage) -/

/-- SuccessCode defined success response code. -/
def SuccessCode : Int := 200
/-- SuccessMsg is default success response message. -/
def SuccessMsg : String := "ok"
/-- FailCode defined failed response code. -/
def FailCode : Int := 500
/-- FailMsg is default failed message. -/
def FailMsg : String := "error"
/-- NotFoundCode is code of not found. -/
def NotFoundCode : Int := 400
/-- NotFoundMsg is msg of not found. -/
def NotFoundMsg : String := "not found"

/-- Reserved command name `Register`. -/
def Register : String := "register"
/-- Reserved command name `CloseStream`. -/
def CloseStream : String := "close"

/-- MaxReadLinesNum max number of send lines once from resp stream. -/
def MaxReadLinesNum : Nat := 100
/-- MaxBufferSize max size of cmd package buffer and lines buffer. -/
def MaxBufferSize : Nat := 200

/-- The `Type` tag of a wire message, an enum of the wire format: REQUEST,
RESPONSE, or a value that names neither. -/
inductive CmdType where
  | REQUEST
  | RESPONSE
  | other (value : Int)
deriving DecidableEq, Repr

/-- The wire message `pb.CmdPackage`. -/
structure CmdPackage where
  UUID : String
  Name : String
  Args : List (String × String)
  Caller : String
  Executor : String
  Type_ : CmdType
  RespCode : Nat
  RespMsg : String
  RespData : List Char
  Stream : Bool
deriving DecidableEq, Repr

/-- Req defined the request content of cmd. -/
structure Req where
  UUID : String
  Name : String
  Args : List (String × String)
  Caller : String
  Executor : String
deriving DecidableEq, Repr

/-- The stream of a Resp: what each of its readers yields before it ends (the
reader of the internal pipe is the last one), and whether `close` was called. -/
structure streamer where
  readers : List (List Char)
  closed : Bool
deriving DecidableEq, Repr

/-- Resp defined response content of cmd. `close` tells whether the `close`
channel has been made. -/
structure Resp where
  Code : Int
  Msg : String
  Data : String
  stream : Option streamer
  close : Bool
deriving DecidableEq, Repr

/-- The constructor `newStreamer(readers...)`: the pipe reader is appended. -/
def newStreamer (readers : List (List Char)) : streamer :=
  { readers := readers ++ [[]], closed := false }

/-- The method `Resp.IsStream`: `resp.stream != nil`. -/
def Resp.IsStream (resp : Resp) : Bool := resp.stream.isSome

/-- A write to the pipe of the stream, whose reader is the last reader. -/
def streamer.write (st : streamer) (data : List Char) : streamer :=
  { st with readers := st.readers.dropLast ++ [st.readers.getLastD [] ++ data] }

/-- Everything `Resp.Read` yields until the stream ends. -/
def streamer.content (st : streamer) : List Char := st.readers.flatten

/-- The method `streamer.close`. -/
def streamer.close (st : streamer) : streamer := { st with closed := true }

/-- RespSucceed build a succeed cmd resp. -/
def RespSucceed (data : String) : Resp :=
  { Code := SuccessCode, Msg := SuccessMsg, Data := data, stream := none, close := false }

/-- The conversion `uint32(x)` of an `int`. -/
def uint32 (x : Int) : Nat := (x % 4294967296).toNat

/-- The result of running code that may crash. -/
inductive Run (α : Type) where
  | done (a : α)
  | panic (msg : String)

/-- The method `Resp.Write`; it reads `resp.stream.writer`, also of a Resp that
has no stream. -/
def Resp.Write (resp : Resp) (data : List Char) : Run Resp :=
  match resp.stream with
  | none => Run.panic "invalid memory address or nil pointer dereference"
  | some st => Run.done { resp with stream := some (st.write data) }

/-! ## Executor (executor.go) -/

/-- OnComplete handle the result when complete handler response; a callback is
known by its label. -/
abbrev OnComplete := String

/-- Handler handle func to do cmd, return response and onComplete. The built-in
handler of the `close` command reads the executor, the others are functions of
the request. -/
inductive Handler where
  | closeSteamHandler
  | user (f : Req → Option Resp × Option OnComplete)

/-- The struct `executor`. -/
structure executor where
  name : String
  cmdHandlers : GoMap String Handler
  streams : GoMap String streamer

/-- The method `executor.addHandler`. -/
def executor.addHandler (e : executor) (name : String) (handler : Handler) : executor :=
  { e with cmdHandlers := GoMap.store e.cmdHandlers name handler }

/-- The constructor `newExecutor`. -/
def newExecutor (name : String) : executor :=
  executor.addHandler { name := name, cmdHandlers := [], streams := [] }
    CloseStream Handler.closeSteamHandler

/-- The method `executor.closeSteamHandler`. -/
def executor.closeSteamHandler (e : executor) (req : Req) :
    executor × Option Resp × Option OnComplete :=
  match GoMap.load e.streams req.UUID with
  | some stream =>
    ({ e with streams := GoMap.store e.streams req.UUID stream.close },
      some (RespSucceed "ok"), none)
  | none => (e, some (RespSucceed "ok"), none)

/-- A call of a handler. -/
def Handler.call (h : Handler) (e : executor) (req : Req) :
    executor × Option Resp × Option OnComplete :=
  match h with
  | Handler.closeSteamHandler => e.closeSteamHandler req
  | Handler.user f => (e, f req)

/-- What `executor.exec` leaves behind: the executor, the package (its Type is
now RESPONSE), the two values returned, and the requests handed to handlers. -/
structure ExecResult where
  e : executor
  cmd : CmdPackage
  resp : Option Resp
  onComplete : Option OnComplete
  invoked : List Req

/-- The method `executor.exec`. A handler that returns a nil Resp makes
`resp.IsStream()` dereference nil. -/
def executor.exec (e : executor) (cmd : CmdPackage) : Run ExecResult :=
  let cmd := { cmd with Type_ := CmdType.RESPONSE }
  match GoMap.load e.cmdHandlers cmd.Name with
  | none =>
    Run.done
      { e := e, cmd := cmd,
        resp := some
          { Code := FailCode,
            Msg := "cmd " ++ cmd.Name ++ " not supported at executor " ++ e.name,
            Data := "", stream := none, close := false },
        onComplete := none, invoked := [] }
  | some handler =>
    let req : Req :=
      { UUID := cmd.UUID, Name := cmd.Name, Args := cmd.Args,
        Caller := cmd.Caller, Executor := cmd.Executor }
    match handler.call e req with
    | (_, none, _) => Run.panic "invalid memory address or nil pointer dereference"
    | (e1, some resp, onComplete) =>
      match resp.stream with
      | some st =>
        Run.done
          { e := { e1 with streams := GoMap.store e1.streams cmd.UUID st },
            cmd := cmd, resp := some resp, onComplete := onComplete, invoked := [req] }
      | none =>
        Run.done
          { e := e1, cmd := cmd, resp := some resp, onComplete := onComplete,
            invoked := [req] }

/-! ## Command manager (cmdmanager.go, utils.go) -/

/-- A `sync.Mutex` of `bufferLocks`; it is held by a goroutine that waits. -/
structure Mutex where
  held : Bool
deriving DecidableEq, Repr

/-- The struct `cmdManager`: the executor and the three tables. The callbacks
`sendCmd` and `respCmd` are arguments of the methods that call them. -/
structure cmdManager where
  executor : executor
  respBuffers : GoMap String (List CmdPackage)
  bufferLocks : GoMap String Mutex
  callbacks : GoMap String String

/-- The constructor `newCmdManager`. -/
def newCmdManager (name : String) : cmdManager :=
  { executor := newExecutor name, respBuffers := [], bufferLocks := [], callbacks := [] }

/-- The method `cmdManager.Name`. -/
def cmdManager.Name (cm : cmdManager) : String := cm.executor.name

/-! ## Command manager: the responder side -/

/-- One call of the callback `respCmd`: the package handed over, the lines it
carries (empty for a non-stream response) and the error returned. -/
structure Flush where
  env : CmdPackage
  lines : List String
  err : Option String
deriving DecidableEq, Repr

/-- The variables captured by the closure `send` of `processReq`: the package,
the results of the upcoming `respCmd` calls and the calls made so far. -/
structure Sender where
  cmd : CmdPackage
  results : List (Option String)
  log : List Flush
deriving DecidableEq, Repr

/-- One call `cm.respCmd(cmd)` of the closure state for a batch of lines. -/
def Sender.respCmd (s : Sender) (lines : List String) : Option String × Sender :=
  (s.results.headD none,
    { s with results := s.results.tail,
             log := s.log ++ [{ env := s.cmd, lines := lines, err := s.results.headD none }] })

/-- The closure `send` of `processReq`: the error returned, the closure state
and the slice `lines` it leaves. -/
def Sender.send (s : Sender) (lines : List String) :
    Option String × Sender × List String :=
  if lines.length > 0 then
    let s1 := { s with cmd := { s.cmd with RespData := (String.join lines).data } }
    match s1.respCmd lines with
    | (some err, s2) => (some err, s2, lines)
    | (none, s2) => (none, s2, [])
  else (none, s, lines)

/-- What the `select` of the consumer loop of `processReq` receives: the timer
firing, or a value from the channel `buffer`. -/
inductive StreamEvent where
  | tick
  | line (l : String)
deriving DecidableEq, Repr

/-- The consumer loop of `processReq` over the events its `select` receives;
when the events are used up the channel `buffer` is closed and yields the empty
string. Resetting the timer only changes when it fires. -/
def consume (s : Sender) (lines : List String) :
    List StreamEvent → Option String × Sender
  | [] => ((s.send lines).1, (s.send lines).2.1)
  | StreamEvent.tick :: evs =>
    match s.send lines with
    | (some err, s1, _) => (some err, s1)
    | (none, s1, lines1) => consume s1 lines1 evs
  | StreamEvent.line l :: evs =>
    if l = "" then ((s.send lines).1, (s.send lines).2.1)
    else if (lines ++ [l]).length ≥ MaxReadLinesNum then
      match s.send (lines ++ [l]) with
      | (some err, s1, _) => (some err, s1)
      | (none, s1, lines1) => consume s1 lines1 evs
    else consume s (lines ++ [l]) evs

/-- The lines `reader.ReadBytes` returns one after the other until the reader
ends, `acc` being the part of the current line already read; the producer
drops an empty last line. -/
def readLinesFrom : List Char → List Char → List (List Char)
  | acc, [] => if acc = [] then [] else [acc]
  | acc, c :: cs =>
    if c = '\n' then (acc ++ [c]) :: readLinesFrom [] cs
    else readLinesFrom (acc ++ [c]) cs

/-- The strings the producer goroutine of `processReq` writes to the channel
`buffer` for a stream with the given content. -/
def readLines (content : List Char) : List String :=
  (readLinesFrom [] content).map String.mk

/-- The order in which the consumer receives: `ticks[i]` firings of the timer
before the line number `i`, then the remaining firings. -/
def interleave : List Nat → List String → List StreamEvent
  | [], ls => ls.map StreamEvent.line
  | n :: _, [] => List.replicate n StreamEvent.tick
  | n :: ns, l :: ls =>
    List.replicate n StreamEvent.tick ++ StreamEvent.line l :: interleave ns ls

/-- The lines among the events received. -/
def linesOf : List StreamEvent → List String
  | [] => []
  | StreamEvent.tick :: evs => linesOf evs
  | StreamEvent.line l :: evs => l :: linesOf evs

/-- A text of lines: each of `bodies` followed by a newline, then `rest`, the
part after the last newline. -/
def textOf (bodies : List (List Char)) (rest : List Char) : List Char :=
  (bodies.map (fun b => b ++ ['\n'])).flatten ++ rest

/-- The lines of the text `textOf bodies rest`: one for each of `bodies`, with
its newline, and one for `rest` when it is not empty. -/
def textLines (bodies : List (List Char)) (rest : List Char) : List String :=
  bodies.map (fun b => String.mk (b ++ ['\n'])) ++ (if rest = [] then [] else [String.mk rest])

/-- What `send` may hand to `respCmd` for the package `cmd`: the package with
the joined lines as RespData, for at least one and at most MaxReadLinesNum
lines. -/
def Flush.Batch (cmd : CmdPackage) (f : Flush) : Prop :=
  f.env = { cmd with RespData := (String.join f.lines).data } ∧
  1 ≤ f.lines.length ∧ f.lines.length ≤ MaxReadLinesNum

/-- Whether a call is such a batch can be computed. -/
instance Flush.decidableBatch (cmd : CmdPackage) (f : Flush) : Decidable (Flush.Batch cmd f) := by
  unfold Flush.Batch
  exact inferInstance

/-- What `processReq` leaves behind: the manager, the calls of `respCmd`, the
error returned and the calls of the completion callback. -/
structure ReqResult where
  cm : cmdManager
  log : List Flush
  err : Option String
  completions : List (OnComplete × Option String)

/-- The envelopes `processReq` emitted: the packages of the `respCmd` calls
that returned nil. -/
def ReqResult.emitted (r : ReqResult) : List Flush :=
  r.log.filter (fun f => f.err.isNone)

/-- The return of `processReq` with its deferred call; `e` is the executor
that `exec` leaves. -/
def ReqResult.finish (cm : cmdManager) (e : executor) (onComplete : Option OnComplete)
    (err : Option String) (log : List Flush) : ReqResult :=
  { cm := { cm with executor := e }, log := log, err := err,
    completions := match onComplete with
      | some f => [(f, err)]
      | none => [] }

/-- The method `cmdManager.processReq`, for a handler stream that ends;
`results` are the results of the `respCmd` calls and `ticks` the firings of the
timer between the lines. -/
def cmdManager.processReq (cm : cmdManager) (cmd : CmdPackage)
    (results : List (Option String)) (ticks : List Nat) : Run ReqResult :=
  match cm.executor.exec cmd with
  | Run.panic msg => Run.panic msg
  | Run.done r =>
    match r.resp with
    | none => Run.done (ReqResult.finish cm r.e r.onComplete (some "exec resp is nil") [])
    | some resp =>
      let cmd1 := { r.cmd with
        RespCode := uint32 resp.Code, RespMsg := resp.Msg, Stream := resp.IsStream }
      let s : Sender := { cmd := cmd1, results := results, log := [] }
      match resp.stream with
      | none =>
        let s1 := { s with cmd := { cmd1 with RespData := resp.Data.data } }
        Run.done (ReqResult.finish cm r.e r.onComplete (s1.respCmd []).1 (s1.respCmd []).2.log)
      | some st =>
        let out := consume s [] (interleave ticks (readLines st.content))
        Run.done (ReqResult.finish cm r.e r.onComplete out.1 out.2.log)

/-! ## Command manager: the caller side -/

/-- The function `genReqCmdPackage`. -/
def genReqCmdPackage (cmd : Req) (caller : String) : Except String CmdPackage :=
  if cmd.Name = "" then Except.error "cmd request name can't be empty"
  else Except.ok
    { UUID := cmd.UUID, Name := cmd.Name, Args := cmd.Args, Caller := caller,
      Executor := cmd.Executor, Type_ := CmdType.REQUEST,
      RespCode := 0, RespMsg := "", RespData := [], Stream := false }

/-- How a guarded write ends. -/
inductive WriteResult where
  | skipped
  | notFound
  | written
  | blocked
deriving DecidableEq, Repr

/-- The method `cmdManager.safeWriteBuffer`. A write to a full channel waits
with the lock held. -/
def cmdManager.safeWriteBuffer (cm : cmdManager) (respPKG : CmdPackage) :
    cmdManager × WriteResult :=
  match GoMap.load cm.bufferLocks respPKG.UUID with
  | none => (cm, WriteResult.skipped)
  | some lock =>
    if lock.held then (cm, WriteResult.blocked)
    else
      match GoMap.load cm.respBuffers respPKG.UUID with
      | none => (cm, WriteResult.notFound)
      | some ch =>
        if ch.length < MaxBufferSize then
          ({ cm with respBuffers := GoMap.store cm.respBuffers respPKG.UUID (ch ++ [respPKG]) },
            WriteResult.written)
        else
          ({ cm with bufferLocks := GoMap.store cm.bufferLocks respPKG.UUID { held := true } },
            WriteResult.blocked)

/-- The method `cmdManager.processResp`. -/
def cmdManager.processResp (cm : cmdManager) (respPKG : CmdPackage) : cmdManager :=
  (cm.safeWriteBuffer respPKG).1

/-- The method `cmdManager.safeCloseBuffer`; the flag tells whether it
returned (it waits when the lock is held). -/
def cmdManager.safeCloseBuffer (cm : cmdManager) (c : CmdPackage) : cmdManager × Bool :=
  match GoMap.load cm.bufferLocks c.UUID with
  | none => (cm, true)
  | some lock =>
    if lock.held then (cm, false)
    else
      ({ cm with respBuffers := GoMap.delete cm.respBuffers c.UUID,
                 bufferLocks := GoMap.delete cm.bufferLocks c.UUID }, true)

/-- How a call that waits ends: a Resp and a nil error, a nil Resp and an
error, or no return. -/
inductive WaitOutcome where
  | resp (r : Resp)
  | err (e : String)
  | blocked
deriving DecidableEq, Repr

/-- The first lines of `waitForResp`: the channel and the mutex are stored. -/
def cmdManager.register (cm : cmdManager) (id : String) : cmdManager :=
  { cm with respBuffers := GoMap.store cm.respBuffers id [],
            bufferLocks := GoMap.store cm.bufferLocks id { held := false } }

/-- The Resp the reader goroutine of `waitForResp` builds from the first
package it receives, with the data of that package written to its stream. -/
def firstResp (cb : CmdPackage) : Resp :=
  if cb.Stream then
    { Code := (cb.RespCode : Int), Msg := cb.RespMsg, Data := "",
      stream := some ((newStreamer []).write cb.RespData), close := true }
  else
    { Code := (cb.RespCode : Int), Msg := cb.RespMsg, Data := String.mk cb.RespData,
      stream := none, close := false }

/-- The receive loop routes the packages one by one while the reader goroutine
of `waitForResp` waits on the channel of `id`; the first package that reaches
the channel is received by the reader. -/
def cmdManager.awaitFirst (cm : cmdManager) (id : String) :
    List CmdPackage → cmdManager × Option CmdPackage
  | [] => (cm, none)
  | p :: ps =>
    match GoMap.load (cm.processResp p).respBuffers id with
    | some (cb :: rest) =>
      ({ cm.processResp p with
          respBuffers := GoMap.store (cm.processResp p).respBuffers id rest }, some cb)
    | _ => cmdManager.awaitFirst (cm.processResp p) id ps

/-- The method `cmdManager.waitForResp`; `delivered` are the RESPONSE packages
the receive loop routes before the deadline, in order. With no first package
the deadline passes, which never happens for `timeout <= 0`. -/
def cmdManager.waitForResp (cm : cmdManager) (c : CmdPackage) (timeout : Int)
    (delivered : List CmdPackage) : cmdManager × WaitOutcome :=
  match (cm.register c.UUID).awaitFirst c.UUID delivered with
  | (cm2, some cb) =>
    if (firstResp cb).IsStream then (cm2, WaitOutcome.resp (firstResp cb))
    else
      match cm2.safeCloseBuffer c with
      | (cm3, true) => (cm3, WaitOutcome.resp (firstResp cb))
      | (cm3, false) => (cm3, WaitOutcome.blocked)
  | (cm2, none) =>
    if timeout ≤ 0 then (cm2, WaitOutcome.blocked)
    else
      match cm2.safeCloseBuffer c with
      | (cm3, true) => (cm3, WaitOutcome.err ("execute cmd " ++ c.Name ++ " timeout"))
      | (cm3, false) => (cm3, WaitOutcome.blocked)

/-- What surrounds one call of `SendSync`: the result of its `sendCmd` call,
the RESPONSE packages the receive loop routes after `sendCmd` has returned and
before `waitForResp` starts, and those it routes while `waitForResp` waits. -/
structure SendEnv where
  sendResult : Option String
  early : List CmdPackage
  delivered : List CmdPackage
deriving DecidableEq, Repr

/-- What `SendSync` leaves behind: the manager, the calls of `sendCmd` (the
package, and the manager as it is when the call is made) and the outcome. -/
structure SendResult where
  cm : cmdManager
  sent : List (CmdPackage × cmdManager)
  out : WaitOutcome

/-- The method `cmdManager.SendSync`. -/
def cmdManager.SendSync (cm : cmdManager) (cmd : Req) (timeoutSecond : Int)
    (env : SendEnv) : SendResult :=
  match genReqCmdPackage cmd cm.Name with
  | Except.error err => { cm := cm, sent := [], out := WaitOutcome.err err }
  | Except.ok c =>
    match env.sendResult with
    | some err => { cm := cm, sent := [(c, cm)], out := WaitOutcome.err err }
    | none =>
      let r := (env.early.foldl cmdManager.processResp cm).waitForResp c timeoutSecond
        env.delivered
      { cm := r.1, sent := [(c, cm)], out := r.2 }

/-! ## Connection registry (connmanager.go) -/

/-- The key `*stats.ConnTagInfo` of the registry, a pointer. -/
abbrev Tag := Nat

/-- Conn is a map to hold grpc connection; the value is an interface, nil or a
handle. -/
structure Conn where
  Key : String
  Info : List (String × String)
  Value : Option Nat
deriving DecidableEq, Repr

/-- ConnManager hold all grpc connections; a callback is known by its label. -/
structure ConnManager where
  conns : GoMap Tag Conn
  onReadyFuncs : List String
  onNotReadyFuncs : List String
deriving DecidableEq, Repr

/-- The function `getConnTagFromContext`; a context carries a tag or none. -/
def getConnTagFromContext (ctx : Option Tag) : Except String Tag :=
  match ctx with
  | some tag => Except.ok tag
  | none => Except.error "conn tag not found in context"

/-- The verb `%q` of `fmt`, for a string with no character to escape. -/
def quoted (s : String) : String := "\"" ++ s ++ "\""

/-- The connections a `range` over `mgr.conns` meets when it visits the keys
in the order `visit`. The order of a `range` over a map is not specified: it is
some permutation of the keys, chosen by the runtime for each loop. -/
def ConnManager.range (cm : ConnManager) (visit : List Tag) : List Conn :=
  visit.filterMap (GoMap.load cm.conns)

/-- GetConnValue return the connection of grpc stream by the key. -/
def ConnManager.GetConnValue (cm : ConnManager) (visit : List Tag) (key : String) :
    Except String (Option Nat) :=
  match (cm.range visit).find? (fun conn => decide (conn.Key = key)) with
  | some conn => Except.ok conn.Value
  | none => Except.error ("conn of Key " ++ quoted key ++ " not found")

/-- GetConnInfo return the connection info data of grpc stream by the key. -/
def ConnManager.GetConnInfo (cm : ConnManager) (visit : List Tag) (key : String) :
    Except String (List (String × String)) :=
  match (cm.range visit).find? (fun conn => decide (conn.Key = key)) with
  | some conn => Except.ok conn.Info
  | none => Except.error ("conn of Key " ++ key ++ " not found")

/-- SaveConn save the connection of grpc: the manager, the error returned and
the calls of the ready callbacks its goroutine makes. -/
def ConnManager.SaveConn (cm : ConnManager) (ctx : Option Tag) (key : String)
    (infoData : List (String × String)) (value : Option Nat) :
    ConnManager × Option String × List (String × Conn) :=
  match getConnTagFromContext ctx with
  | Except.error err => (cm, some err, [])
  | Except.ok tag =>
    let conn : Conn := { Key := key, Info := infoData, Value := value }
    ({ cm with conns := GoMap.store cm.conns tag conn }, none,
      cm.onReadyFuncs.map (fun f => (f, conn)))

/-- The event types of `stats.ConnStats` that `HandleConn` tells apart. -/
inductive ConnStats where
  | ConnBegin
  | ConnEnd
  | other
deriving DecidableEq, Repr

/-- HandleConn handle connection event, such as begin, end: the manager and
the calls of the not-ready callbacks its goroutine makes. The end of a
connection whose tag is not in the map reads the Key of a nil Conn. The gauge
`GRPCConnNumber` that the method sets at the end is left out. -/
def ConnManager.HandleConn (cm : ConnManager) (ctx : Option Tag) (s : ConnStats) :
    Run (ConnManager × List (String × Conn)) :=
  match getConnTagFromContext ctx with
  | Except.error _ => Run.done (cm, [])
  | Except.ok tag =>
    match s with
    | ConnStats.ConnBegin =>
      Run.done ({ cm with conns := GoMap.store cm.conns tag (Conn.mk "" [] none) }, [])
    | ConnStats.ConnEnd =>
      match GoMap.load cm.conns tag with
      | none => Run.panic "invalid memory address or nil pointer dereference"
      | some conn =>
        Run.done ({ cm with conns := GoMap.delete cm.conns tag },
          cm.onNotReadyFuncs.map (fun f => (f, conn)))
    | ConnStats.other => Run.done (cm, [])

/-- The manager `mgr` that `init` builds. -/
def initConnManager : ConnManager :=
  { conns := [], onReadyFuncs := [], onNotReadyFuncs := [] }

/-- The method `ConnManager.OnReady`. -/
def ConnManager.OnReady (cm : ConnManager) (f : String) : ConnManager :=
  { cm with onReadyFuncs := cm.onReadyFuncs ++ [f] }

/-- The method `ConnManager.OnNotReady`. -/
def ConnManager.OnNotReady (cm : ConnManager) (f : String) : ConnManager :=
  { cm with onNotReadyFuncs := cm.onNotReadyFuncs ++ [f] }

/-- A call that changes the registry. -/
inductive RegistryCall where
  | handle (ctx : Option Tag) (s : ConnStats)
  | save (ctx : Option Tag) (key : String) (infoData : List (String × String))
      (value : Option Nat)
deriving DecidableEq, Repr

/-- The registry after a sequence of `HandleConn` and `SaveConn` calls. -/
def ConnManager.run (cm : ConnManager) : List RegistryCall → Run ConnManager
  | [] => Run.done cm
  | RegistryCall.handle ctx s :: calls =>
    match cm.HandleConn ctx s with
    | Run.panic msg => Run.panic msg
    | Run.done r => ConnManager.run r.1 calls
  | RegistryCall.save ctx key infoData value :: calls =>
    ConnManager.run (cm.SaveConn ctx key infoData value).1 calls

/-- The connections saved by a sequence of calls and still registered: a
`SaveConn` for a tag saves one, an event of begin or end for the tag removes
it. -/
def savedConns (saved : GoMap Tag Conn) : List RegistryCall → GoMap Tag Conn
  | [] => saved
  | RegistryCall.handle (some tag) ConnStats.ConnBegin :: calls =>
    savedConns (GoMap.delete saved tag) calls
  | RegistryCall.handle (some tag) ConnStats.ConnEnd :: calls =>
    savedConns (GoMap.delete saved tag) calls
  | RegistryCall.handle _ _ :: calls => savedConns saved calls
  | RegistryCall.save (some tag) key infoData value :: calls =>
    savedConns (GoMap.store saved tag (Conn.mk key infoData value)) calls
  | RegistryCall.save none _ _ _ :: calls => savedConns saved calls

/-- The tags of the connections that have begun and are neither saved nor
ended after a sequence of calls. -/
def begunTags (begun : List Tag) : List RegistryCall → List Tag
  | [] => begun
  | RegistryCall.handle (some tag) ConnStats.ConnBegin :: calls =>
    begunTags (tag :: begun) calls
  | RegistryCall.handle (some tag) ConnStats.ConnEnd :: calls =>
    begunTags (begun.filter (fun t => decide (t ≠ tag))) calls
  | RegistryCall.handle _ _ :: calls => begunTags begun calls
  | RegistryCall.save (some tag) _ _ _ :: calls =>
    begunTags (begun.filter (fun t => decide (t ≠ tag))) calls
  | RegistryCall.save none _ _ _ :: calls => begunTags begun calls

/-- The tags `begun` are those whose entry is the empty record of a connection
that has begun and is not saved. -/
def Begun (cm : ConnManager) (saved : GoMap Tag Conn) (begun : List Tag) : Prop :=
  ∀ t, t ∈ begun ↔
    (GoMap.load cm.conns t = some (Conn.mk "" [] none) ∧ GoMap.load saved t = none)

/-- Each entry of the registry is a saved connection, or the empty record of a
connection that has begun and is not saved. -/
def Tracks (cm : ConnManager) (saved : GoMap Tag Conn) : Prop :=
  ∀ t, GoMap.load cm.conns t = GoMap.load saved t ∨
    (GoMap.load cm.conns t = some (Conn.mk "" [] none) ∧ GoMap.load saved t = none)

/-! ## Server tunnel (cmdserver.go) -/

/-- The struct `cmdServer`. -/
structure cmdServer where
  cmdManager : cmdManager
  connManager : ConnManager

/-- One call of `Send` on the stream with the given handle. -/
structure SendCall where
  handle : Nat
  pkg : CmdPackage
  err : Option String
deriving DecidableEq, Repr

/-- The loop of `respCmd` with `n` attempts left; `sends` are the results of the
upcoming `Send` calls and `last` the error of the last attempt. It returns the
error the variable `err` holds when the loop is left by its condition, or none
when a `Send` succeeded. -/
def respAttempts (handle : Nat) (c : CmdPackage) :
    Nat → List (Option String) → String → Option String × List SendCall
  | 0, _, last => (some last, [])
  | n + 1, sends, _ =>
    match sends.headD none with
    | none => (none, [{ handle := handle, pkg := c, err := none }])
    | some err =>
      ((respAttempts handle c n sends.tail err).1,
        { handle := handle, pkg := c, err := some err } ::
          (respAttempts handle c n sends.tail err).2)

/-- The number of `Send` calls that fail before the first that succeeds; a
call beyond the end of the script succeeds. -/
def leadingFailures (sends : List (Option String)) : Nat :=
  (sends.takeWhile Option.isSome).length

/-- The method `cmdServer.respCmd`: the error returned and the `Send` calls
made; `visit` is the order of the lookup in the registry. -/
def cmdServer.respCmd (cs : cmdServer) (visit : List Tag) (c : CmdPackage)
    (sends : List (Option String)) : Run (Option String × List SendCall) :=
  match cs.connManager.GetConnValue visit c.Caller with
  | Except.error err =>
    Run.done (some ("agent " ++ quoted c.Caller ++ " connection is lost: " ++ err), [])
  | Except.ok none =>
    Run.done (some ("agent " ++ quoted c.Caller ++ " connection is lost: <nil>"), [])
  | Except.ok (some handle) =>
    match respAttempts handle c 3 sends "" with
    | (none, calls) => Run.done (none, calls)
    | (some err, calls) =>
      Run.done (some ("retry 3 times response cmd to agent " ++ c.Caller ++ " failed: " ++ err),
        calls)

/-- The method `cmdServer.reqCmd`. The value found is asserted to be a stream,
which fails for a nil value. -/
def cmdServer.reqCmd (cs : cmdServer) (visit : List Tag) (c : CmdPackage)
    (sends : List (Option String)) : Run (Option String × List SendCall) :=
  match cs.connManager.GetConnValue visit c.Executor with
  | Except.error _ =>
    Run.done (some ("no available executors " ++ quoted c.Executor ++
      ", please check executor"), [])
  | Except.ok none =>
    Run.panic "interface conversion: interface is nil, not v1.CmdManager_ExecuteServer"
  | Except.ok (some handle) =>
    Run.done (sends.headD none, [{ handle := handle, pkg := c, err := sends.headD none }])

/-! ## Command manager: closing a stream, receiving (cmdmanager.go, types.go) -/

/-- NewResp build a cmd resp. -/
def NewResp (code : Int) (msg : String) (data : String) (reader : List (List Char)) : Resp :=
  { Code := code, Msg := msg, Data := data, stream := some (newStreamer reader),
    close := false }

/-- RespNotFound build a succeed cmd resp. -/
def RespNotFound : Resp :=
  { Code := NotFoundCode, Msg := NotFoundMsg, Data := "", stream := none, close := false }

/-- RespFailed build a failed cmd resp. -/
def RespFailed : Resp :=
  { Code := FailCode, Msg := FailMsg, Data := "", stream := none, close := false }

/-- RespError build a error cmd resp. -/
def RespError (err : String) : Resp :=
  { Code := FailCode, Msg := err, Data := "", stream := none, close := false }

/-- RespStream build a reader succeed response. -/
def RespStream (reader : List (List Char)) : Resp :=
  { Code := SuccessCode, Msg := SuccessMsg, Data := "", stream := some (newStreamer reader),
    close := false }

/-- What `closeCmdStream` did: the `sendCmd` calls with their results and the
seconds slept after each failure. -/
structure CloseRun where
  sent : List (CmdPackage × Option String)
  slept : List Nat
deriving DecidableEq, Repr

/-- The loop of `closeCmdStream` from the counter `i`, over the results of the
upcoming `sendCmd` calls. -/
def closeLoop (req : CmdPackage) : Int → List (Option String) → CloseRun
  | i, [] =>
    if i ≥ 0 then { sent := [(req, none)], slept := [] } else { sent := [], slept := [] }
  | i, r :: rest =>
    if i ≥ 0 then
      match r with
      | none => { sent := [(req, none)], slept := [] }
      | some err =>
        { sent := (req, some err) ::
            (closeLoop req ((if i > 6 then 6 else i) + 1) rest).sent,
          slept := 1 <<< (if i > 6 then 6 else i).toNat ::
            (closeLoop req ((if i > 6 then 6 else i) + 1) rest).slept }
    else { sent := [], slept := [] }

/-- The method `cmdManager.closeCmdStream`. -/
def closeCmdStream (cmd : CmdPackage) (sends : List (Option String)) : CloseRun :=
  closeLoop
    { UUID := cmd.UUID, Name := CloseStream, Args := [], Caller := cmd.Caller,
      Executor := cmd.Executor, Type_ := CmdType.REQUEST, RespCode := 0, RespMsg := "",
      RespData := [], Stream := false } 0 sends

/-- A stream response on the caller side: the manager, the request, the Resp
handed to the caller, whether the goroutine `waitForResp` started for it still
waits on `resp.close`, and the runs of `closeCmdStream` made. -/
structure StreamCall where
  cm : cmdManager
  c : CmdPackage
  resp : Resp
  watching : Bool
  closeRuns : List CloseRun

/-- The stream call a return of `waitForResp` leaves, if it returned a stream. -/
def StreamCall.ofWait (r : cmdManager × WaitOutcome) (c : CmdPackage) : Option StreamCall :=
  match r.2 with
  | WaitOutcome.resp resp =>
    if resp.IsStream then
      some { cm := r.1, c := c, resp := resp, watching := true, closeRuns := [] }
    else none
  | _ => none

/-- How a call of `Close` ends. -/
inductive CloseOutcome where
  | returned (err : Option String)
  | blocked
deriving DecidableEq, Repr

/-- The method `Resp.Close` on a stream call: the stream is closed (closing a
pipe returns nil), then the deferred send on the unbuffered channel
`resp.close` waits for a receiver. The goroutine of `waitForResp` receives
once, then runs `safeCloseBuffer` and `closeCmdStream` and ends. -/
def StreamCall.Close (sc : StreamCall) (sends : List (Option String)) :
    StreamCall × CloseOutcome :=
  if sc.resp.close && sc.watching then
    ({ cm := (sc.cm.safeCloseBuffer sc.c).1, c := sc.c,
       resp := { sc.resp with stream := sc.resp.stream.map streamer.close },
       watching := false,
       closeRuns := sc.closeRuns ++ [closeCmdStream sc.c sends] },
      CloseOutcome.returned none)
  else
    ({ sc with resp := { sc.resp with stream := sc.resp.stream.map streamer.close } },
      CloseOutcome.blocked)

/-- What one call of `onReceive` leaves: the pair returned, the manager once
the goroutine it started has run, and what that goroutine was: a run of
`processReq` or a write by `processResp`. -/
structure Received where
  ret : Option CmdPackage × Option String
  cm : cmdManager
  request : Option (Run ReqResult)
  response : Option WriteResult

/-- The manager a run of `processReq` leaves. -/
def ranReq (cm : cmdManager) : Run ReqResult → cmdManager
  | Run.done r => r.cm
  | Run.panic _ => cm

/-- The method `cmdManager.onReceive`; `recv` is what the call of `recv`
returned, `results` and `ticks` go to `processReq`. -/
def cmdManager.onReceive (cm : cmdManager) (recv : Option CmdPackage × Option String)
    (results : List (Option String)) (ticks : List Nat) : Run Received :=
  match recv with
  | (pkg, some err) =>
    Run.done { ret := (pkg, some err), cm := cm, request := none, response := none }
  | (none, none) => Run.panic "invalid memory address or nil pointer dereference"
  | (some recvCmd, none) =>
    if recvCmd.Name = Register then
      Run.done { ret := (some recvCmd, none), cm := cm, request := none, response := none }
    else
      match recvCmd.Type_ with
      | CmdType.REQUEST =>
        Run.done
          { ret := (some recvCmd, none),
            cm := ranReq cm (cm.processReq recvCmd results ticks),
            request := some (cm.processReq recvCmd results ticks), response := none }
      | CmdType.RESPONSE =>
        Run.done
          { ret := (some recvCmd, none), cm := cm.processResp recvCmd,
            request := none, response := some (cm.safeWriteBuffer recvCmd).2 }
      | CmdType.other _ =>
        Run.done { ret := (some recvCmd, none), cm := cm, request := none, response := none }

/-! ## Client tunnel (cmdclient.go) -/

/-- The struct `cmdClient`; a hook is known by its label. -/
structure cmdClient where
  cmdManager : cmdManager
  onReadyFuncs : List String
  onNotReadyFuncs : List String

/-- The method `cmdClient.OnReady`. -/
def cmdClient.OnReady (cc : cmdClient) (ready : String) : cmdClient :=
  { cc with onReadyFuncs := cc.onReadyFuncs ++ [ready] }

/-- The method `cmdClient.OnNotReady`. -/
def cmdClient.OnNotReady (cc : cmdClient) (notReady : String) : cmdClient :=
  { cc with onNotReadyFuncs := cc.onNotReadyFuncs ++ [notReady] }

/-- The goroutine of `fireOnReady` and `fireOnNotReady` over the hooks: the
hooks called, and whether the goroutine ended. After a hook the `select` has
the single case of a receive from `stopCh`: it waits until the stop signal is
raised, and then the goroutine returns. -/
def fireLoop (stopped : Bool) : List String → List String × Bool
  | [] => ([], true)
  | f :: _ => if stopped then ([f], true) else ([f], false)

/-- The method `cmdClient.fireOnReady`. -/
def cmdClient.fireOnReady (cc : cmdClient) (stopped : Bool) : List String × Bool :=
  fireLoop stopped cc.onReadyFuncs

/-- The method `cmdClient.fireOnNotReady`. -/
def cmdClient.fireOnNotReady (cc : cmdClient) (stopped : Bool) : List String × Bool :=
  fireLoop stopped cc.onNotReadyFuncs

/-! ## Registration and the receive loop of the client (cmdclient.go, cmdserver.go) -/

/-- The method `cmdClient.genRegisterCmd`; `uuid` is what `uuid.NewUUID()`
returns. The fields that are not set keep their zero value; the zero value of
the Type is taken to be REQUEST. -/
def cmdClient.genRegisterCmd (cc : cmdClient) (uuid : String) : CmdPackage :=
  { UUID := uuid, Name := Register, Args := [], Caller := cc.cmdManager.Name, Executor := "",
    Type_ := CmdType.REQUEST, RespCode := 0, RespMsg := "", RespData := [], Stream := false }

/-- What `handleRegisterIfNeed` did: the server, the error of `SaveConn`, the
calls of the ready callbacks, the response handed to `respCmd` and its run. -/
structure Registered where
  cs : cmdServer
  saveErr : Option String
  ready : List (String × Conn)
  resp : Option CmdPackage
  sent : Option (Run (Option String × List SendCall))

/-- The response `handleRegisterIfNeed` builds for the register package. -/
def registerResp (recv : CmdPackage) (saveErr : Option String) : CmdPackage :=
  { UUID := recv.UUID, Name := recv.Name, Args := [], Caller := recv.Caller,
    Executor := recv.Executor, Type_ := CmdType.RESPONSE,
    RespCode := if saveErr.isSome then uint32 FailCode else uint32 SuccessCode,
    RespMsg := if saveErr.isSome then FailMsg else SuccessMsg,
    RespData := [], Stream := false }

/-- The method `cmdServer.handleRegisterIfNeed`; `ctx` is the context of the
stream, `stream` its handle, `visit` and `sends` go to `respCmd`. -/
def cmdServer.handleRegisterIfNeed (cs : cmdServer) (ctx : Option Tag) (recv : CmdPackage)
    (stream : Nat) (visit : List Tag) (sends : List (Option String)) : Registered :=
  if recv.Name ≠ Register then
    { cs := cs, saveErr := none, ready := [], resp := none, sent := none }
  else
    { cs := { cs with
        connManager := (cs.connManager.SaveConn ctx recv.Caller recv.Args (some stream)).1 },
      saveErr := (cs.connManager.SaveConn ctx recv.Caller recv.Args (some stream)).2.1,
      ready := (cs.connManager.SaveConn ctx recv.Caller recv.Args (some stream)).2.2,
      resp := some (registerResp recv
        (cs.connManager.SaveConn ctx recv.Caller recv.Args (some stream)).2.1),
      sent := some (cmdServer.respCmd
        { cs with
          connManager := (cs.connManager.SaveConn ctx recv.Caller recv.Args (some stream)).1 }
        visit
        (registerResp recv
          (cs.connManager.SaveConn ctx recv.Caller recv.Args (some stream)).2.1)
        sends) }

/-- What a call of `stream.Recv` returns: a package, the error `io.EOF`, or
another error. -/
inductive Recv where
  | pkg (p : CmdPackage)
  | eof
  | failed (err : String)
deriving DecidableEq, Repr

/-- The pair `(package, error)` of a `Recv` result. -/
def Recv.pair : Recv → Option CmdPackage × Option String
  | Recv.pkg p => (some p, none)
  | Recv.eof => (none, some "EOF")
  | Recv.failed err => (none, some err)

/-- What an iteration of the receive loop of `StartListen` meets: the stop
signal raised, or the result of its `Recv`. -/
inductive ListenEvent where
  | stop
  | recv (r : Recv)
deriving DecidableEq, Repr

/-- How the goroutine of `StartListen` stands when the events are used up: it
is still in the receive loop, it has returned after an error (its context is
cancelled), it has returned on the stop signal, or a goroutine of `onReceive`
has crashed. -/
inductive LoopEnd where
  | receiving
  | left
  | stopped
  | crashed
deriving DecidableEq, Repr

/-- The state of the receive loop: the manager, the calls of `onReceive` made,
and how the loop stands. -/
structure Listening where
  cm : cmdManager
  received : List Recv
  fin : LoopEnd

/-- The receive loop of the goroutine of `StartListen` (the second `for`): on
`io.EOF` it goes on with the next iteration, on another error it returns. -/
def receiveLoop (cm : cmdManager) (received : List Recv) : List ListenEvent → Listening
  | [] => { cm := cm, received := received, fin := LoopEnd.receiving }
  | ListenEvent.stop :: _ => { cm := cm, received := received, fin := LoopEnd.stopped }
  | ListenEvent.recv r :: evs =>
    match cm.onReceive r.pair [] [] with
    | Run.panic _ => { cm := cm, received := received ++ [r], fin := LoopEnd.crashed }
    | Run.done x =>
      match r with
      | Recv.eof => receiveLoop x.cm (received ++ [r]) evs
      | Recv.failed _ => { cm := x.cm, received := received ++ [r], fin := LoopEnd.left }
      | Recv.pkg _ =>
        match x.request with
        | some (Run.panic _) =>
          { cm := x.cm, received := received ++ [r], fin := LoopEnd.crashed }
        | _ => receiveLoop x.cm (received ++ [r]) evs

/-- What the outer loop of `StartListen` does after it has started the
goroutine: it calls `fireOnNotReady`, it calls `PollConn`, it goes to the next
iteration, or it returns. -/
inductive ClientAction where
  | fireOnNotReady (called : List String)
  | pollConn
  | restart
  | returned
deriving DecidableEq, Repr

/-- The `select` of the outer loop of `StartListen` once the receive loop
stands as `fin`. When the goroutine has returned after an error, its deferred
`cancel` has made `ctx.Done()` ready: the not-ready hooks are fired, the
connection is polled and the loop starts again. While the goroutine receives,
the same is done only when the connection reports Shutdown or TransientFailure
(`connDown`); otherwise the `select` waits. On the stop signal both `stopCh`
and `ctx.Done()` are ready; `pickStop` tells which case the `select` takes, and
the `select` at the top of the loop returns in the second case. A crash of a
goroutine ends the process. -/
def cmdClient.afterLoop (cc : cmdClient) (fin : LoopEnd) (connDown pickStop : Bool) :
    List ClientAction :=
  match fin with
  | LoopEnd.left =>
    [ClientAction.fireOnNotReady (cc.fireOnNotReady false).1, ClientAction.pollConn,
      ClientAction.restart]
  | LoopEnd.receiving =>
    if connDown then
      [ClientAction.fireOnNotReady (cc.fireOnNotReady false).1, ClientAction.pollConn,
        ClientAction.restart]
    else []
  | LoopEnd.stopped =>
    if pickStop then [ClientAction.returned]
    else
      [ClientAction.fireOnNotReady (cc.fireOnNotReady true).1, ClientAction.pollConn,
        ClientAction.returned]
  | LoopEnd.crashed => []

/-! ## Storage (cas.go, db.go) -/

/-- The struct `cas.Storage`: the digests whose blob file exists. -/
structure Storage where
  blobs : List String
deriving DecidableEq, Repr

/-- The method `Storage.deleteBlobData`: the error of `os.Remove` and the
storage. The slices `digest[:2]` and `digest[2:]` need two bytes. -/
def Storage.deleteBlobData (s : Storage) (digest : String) : Run (Option String × Storage) :=
  if digest.length < 2 then Run.panic "slice bounds out of range"
  else if digest ∈ s.blobs then Run.done (none, { blobs := s.blobs.erase digest })
  else Run.done (some "remove: no such file or directory", s)

/-- The method `Storage.DeleteByDigest`, whose body is the call
`s.DeleteByDigest(digest)`; `depth` is the number of calls the stack still
holds, and `none` means that no call has returned. -/
def Storage.DeleteByDigest : Nat → Storage → String → Option (Run (Option String × Storage))
  | 0, _, _ => none
  | depth + 1, s, digest => Storage.DeleteByDigest depth s digest

/-- The drivers of a FileDB: `CASStorage` over a `cas.Storage`, or
`FSStorage`. -/
inductive StorageDriver where
  | cas (s : Storage)
  | fs
deriving DecidableEq, Repr

/-- The methods `CASStorage.DeleteByDigest` and `FSStorage.DeleteByDigest`: the
error returned, or `none` when the call does not return. -/
def StorageDriver.DeleteByDigest (depth : Nat) (driver : StorageDriver) (digest : String) :
    Option (Run (Option String)) :=
  match driver with
  | StorageDriver.cas s =>
    match s.DeleteByDigest depth digest with
    | none => none
    | some (Run.done r) => some (Run.done r.1)
    | some (Run.panic msg) => some (Run.panic msg)
  | StorageDriver.fs => some (Run.done (some "not implement"))

/-- The method `FileDB.CleanPackageDirtyData`; `found` is what
`f.driver.Exists(rawPath)` returns. -/
def CleanPackageDirtyData (depth : Nat) (driver : StorageDriver)
    (found : Except String (GoMap String String)) (digest : String) :
    Option (Run (Option String)) :=
  match found with
  | Except.error err => some (Run.done (some err))
  | Except.ok meta =>
    if (GoMap.load meta "digest").getD "" ≠ digest then driver.DeleteByDigest depth digest
    else some (Run.done none)

/-- A Resp does not carry both a non-empty Data and a stream. -/
def Resp.Exclusive (resp : Resp) : Prop := ¬ (resp.Data ≠ "" ∧ resp.IsStream = true)

/-- Whether a Resp is exclusive can be computed. -/
instance Resp.decidableExclusive (resp : Resp) : Decidable resp.Exclusive := by
  unfold Resp.Exclusive
  exact inferInstance

/-! ## Durations (util/time/time.go) -/

/-- A `time.Time`: the instant, in nanoseconds since the zero time. -/
structure Time where
  ns : Int
deriving DecidableEq, Repr

/-- The largest `time.Duration`, in nanoseconds. -/
def maxDuration : Int := 9223372036854775807

/-- The smallest `time.Duration`, in nanoseconds. -/
def minDuration : Int := -9223372036854775808

/-- The method `Time.After`. -/
def Time.After (t u : Time) : Bool := decide (u.ns < t.ns)

/-- The method `Time.Sub`: the duration `t - u`, or the largest (smallest)
duration when the difference is above (below) it. -/
def Time.Sub (t u : Time) : Int :=
  if maxDuration < t.ns - u.ns then maxDuration
  else if t.ns - u.ns < minDuration then minDuration
  else t.ns - u.ns

/-- The constant `time.Second`. -/
def Second : Int := 1000000000

/-- The constant `time.Minute`. -/
def Minute : Int := 60 * Second

/-- The constant `time.Hour`. -/
def Hour : Int := 60 * Minute

/-- The method `Duration.Hours`. A float64 is taken as the exact rational
number: the rounding of the float operations is left out. For a difference of
whole seconds the fractional parts below are multiples of 1/3600, 1/60 and 1,
far above the rounding error of a float64 of this size, so the truncations
taken give the same integers. -/
def Hours (d : Int) : ℚ :=
  ((d.tdiv Hour : Int) : ℚ) + ((d.tmod Hour : Int) : ℚ) / (60 * 60 * 1000000000)

/-- The method `Duration.Minutes`. -/
def Minutes (d : Int) : ℚ :=
  ((d.tdiv Minute : Int) : ℚ) + ((d.tmod Minute : Int) : ℚ) / (60 * 1000000000)

/-- The method `Duration.Seconds`. -/
def Seconds (d : Int) : ℚ :=
  ((d.tdiv Second : Int) : ℚ) + ((d.tmod Second : Int) : ℚ) / 1000000000

/-- The conversion `int(x)` of a float: the fraction is discarded. -/
def toInt (x : ℚ) : Int := if 0 ≤ x then ⌊x⌋ else ⌈x⌉

/-- The function `math.Mod` for a divisor that is not zero: the remainder of
`x / y` with the sign of `x`. -/
def Mod (x y : ℚ) : ℚ := x - y * toInt (x / y)

/-- Duration return the split int. -/
def Duration (start end_ : Time) : Int × Int × Int × Int :=
  if start.After end_ then (0, 0, 0, 0)
  else
    (toInt (Hours (end_.Sub start) / 24), toInt (Mod (Hours (end_.Sub start)) 24),
      toInt (Mod (Minutes (end_.Sub start)) 60), toInt (Mod (Seconds (end_.Sub start)) 60))

/-- Elapsed return a string of compute the duration between start and end;
`now` is what `time.Now()` returns, a nil pointer is `none`. -/
def Elapsed (now : Time) (start end_ : Option Time) : String :=
  match start with
  | none => ""
  | some s =>
    let r := Duration s (end_.getD now)
    let e1 := if 0 < r.1 then toString r.1 ++ "天" else ""
    let e2 := if 0 < r.2.1 then e1 ++ toString r.2.1 ++ "小时" else e1
    let e3 := if r.1 = 0 then (if 0 < r.2.2.1 then e2 ++ toString r.2.2.1 ++ "分" else e2) else e2
    if r.2.1 = 0 then (if 0 ≤ r.2.2.2 then e3 ++ toString r.2.2.2 ++ "秒" else e3) else e3

/-! ## Resources (util/res/res.go) -/

/-- A float64: a number, an infinity or NaN. A number is taken as the exact
rational: the rounding of the float operations is left out. -/
inductive GoFloat where
  | num (q : ℚ)
  | posInf
  | negInf
  | nan
deriving DecidableEq

/-- The division of two float64: a number divided by zero is an infinity of
its sign, zero divided by zero is NaN. The sign of a zero is left out. -/
def GoFloat.div : GoFloat → GoFloat → GoFloat
  | GoFloat.num a, GoFloat.num b =>
    if b = 0 then
      if a = 0 then GoFloat.nan else if 0 < a then GoFloat.posInf else GoFloat.negInf
    else GoFloat.num (a / b)
  | GoFloat.posInf, GoFloat.num b => if 0 ≤ b then GoFloat.posInf else GoFloat.negInf
  | GoFloat.negInf, GoFloat.num b => if 0 ≤ b then GoFloat.negInf else GoFloat.posInf
  | GoFloat.num _, GoFloat.posInf => GoFloat.num 0
  | GoFloat.num _, GoFloat.negInf => GoFloat.num 0
  | _, _ => GoFloat.nan

/-- The function `unicode.IsSpace`. -/
def isSpace (c : Char) : Bool :=
  c.toNat ∈ [9, 10, 11, 12, 13, 32, 133, 160, 5760, 8232, 8233, 8239, 8287, 12288] ||
    (8192 ≤ c.toNat && c.toNat ≤ 8202)

/-- The function `strings.TrimSpace`. -/
def TrimSpace (s : String) : String :=
  String.mk ((s.data.dropWhile isSpace).reverse.dropWhile isSpace).reverse

/-- The function `strings.HasSuffix`. -/
def HasSuffix (s suffix : String) : Bool := suffix.data.isSuffixOf s.data

/-- The function `strings.TrimSuffix`. -/
def TrimSuffix (s suffix : String) : String :=
  if HasSuffix s suffix then String.mk (s.data.take (s.data.length - suffix.data.length))
  else s

/-- The number that decimal digits spell, after the number `n`. -/
def digitsValue (n : Nat) (cs : List Char) : Nat :=
  cs.foldl (fun n c => n * 10 + (c.toNat - 48)) n

/-- The exponent part of a decimal float literal: nothing, or `e` or `E`, an
optional sign and digits. -/
def readExponent : List Char → Option Int
  | [] => some 0
  | c :: cs =>
    if c = 'e' ∨ c = 'E' then
      match cs with
      | '+' :: ds => if ds ≠ [] ∧ ds.all Char.isDigit then some (digitsValue 0 ds) else none
      | '-' :: ds =>
        if ds ≠ [] ∧ ds.all Char.isDigit then some (-(digitsValue 0 ds : Int)) else none
      | ds => if ds ≠ [] ∧ ds.all Char.isDigit then some (digitsValue 0 ds) else none
    else none

/-- The mantissa and the decimal exponent of an unsigned decimal float literal:
digits with at most one point and at least one digit, then the exponent
part. -/
def readMantissa (cs : List Char) : Option (Nat × Int) :=
  match cs.dropWhile Char.isDigit with
  | '.' :: r =>
    if cs.takeWhile Char.isDigit = [] ∧ r.takeWhile Char.isDigit = [] then none
    else
      (readExponent (r.dropWhile Char.isDigit)).map (fun e =>
        (digitsValue 0 (cs.takeWhile Char.isDigit ++ r.takeWhile Char.isDigit),
          e - (r.takeWhile Char.isDigit).length))
  | r =>
    if cs.takeWhile Char.isDigit = [] then none
    else (readExponent r).map (fun e => (digitsValue 0 (cs.takeWhile Char.isDigit), e))

/-- The sign, the mantissa and the decimal exponent of a decimal float
literal. -/
def readFloat (s : String) : Option (Bool × Nat × Int) :=
  match s.data with
  | '+' :: cs => (readMantissa cs).map (fun x => (false, x))
  | '-' :: cs => (readMantissa cs).map (fun x => (true, x))
  | cs => (readMantissa cs).map (fun x => (false, x))

/-- The function `strconv.ParseFloat` of the standard library on decimal
literals: the value, or the syntax error, or the range error for a value that
rounds to an infinity. The hexadecimal literals and the spellings of the
infinities and of NaN, which the library also reads, are not covered: this
model answers them with the syntax error. -/
def ParseFloat (s : String) : Except String GoFloat :=
  match readFloat s with
  | none => Except.error ("strconv.ParseFloat: parsing " ++ quoted s ++ ": invalid syntax")
  | some (neg, m, e) =>
    if (2 : ℚ) ^ 1024 - 2 ^ 970 ≤ (m : ℚ) * (10 : ℚ) ^ e then
      Except.error ("strconv.ParseFloat: parsing " ++ quoted s ++ ": value out of range")
    else if neg then Except.ok (GoFloat.num (-((m : ℚ) * (10 : ℚ) ^ e)))
    else Except.ok (GoFloat.num ((m : ℚ) * (10 : ℚ) ^ e))

/-- The type `resourceEnum`, a string. -/
abbrev resourceEnum := String

/-- ResourceCPU CPU. -/
def ResourceCPU : resourceEnum := "cpu"

/-- ResourceGPU nvidia.com/gpu. -/
def ResourceGPU : resourceEnum := "nvidia.com/gpu"

/-- ResourceMemory memory. -/
def ResourceMemory : resourceEnum := "memory"

/-- The four tests of the suffix in the memory case of `ParseResource`, in
their order: the value left and the divisor. -/
def memoryUnit (res : String) (divisor : ℚ) : String × ℚ :=
  let s1 := if HasSuffix res "Mi" then (TrimSuffix res "Mi", (1024 : ℚ)) else (res, divisor)
  let s2 := if HasSuffix s1.1 "MiB" then (TrimSuffix s1.1 "MiB", (1024 : ℚ)) else s1
  let s3 := if HasSuffix s2.1 "Gi" then (TrimSuffix s2.1 "Gi", (1 : ℚ)) else s2
  if HasSuffix s3.1 "GiB" then (TrimSuffix s3.1 "GiB", (1 : ℚ)) else s3

/-- ParseResource return resource value, cpu(core),gpu(card),memory(Gi). In
the cpu case the divisor is set to 1 after the test of the suffix `m`; in the
gpu case the divisor keeps its initial value 0. The bit size 10 handed to
`ParseFloat` is read by the library as 64. -/
def ParseResource (res : String) (enum : resourceEnum) : Except String GoFloat :=
  if TrimSpace res = "" then Except.error "value is nil"
  else if enum = ResourceCPU then
    match ParseFloat (if HasSuffix (TrimSpace res) "m" then TrimSuffix (TrimSpace res) "m"
        else TrimSpace res) with
    | Except.error _ => Except.error "value format invalid, eg. 1000m or 1"
    | Except.ok result => Except.ok (result.div (GoFloat.num 1))
  else if enum = ResourceMemory then
    if (memoryUnit (TrimSpace res) 0).2 = 0 then
      Except.error ("value " ++ quoted (memoryUnit (TrimSpace res) 0).1 ++
        " unit not present, use Mi(B), Gi(B)")
    else
      match ParseFloat (memoryUnit (TrimSpace res) 0).1 with
      | Except.error _ =>
        Except.error ("value " ++ quoted (memoryUnit (TrimSpace res) 0).1 ++
          " format invalid, eg. 1024Mi(B) or 1Gi(B)")
      | Except.ok result =>
        Except.ok (result.div (GoFloat.num (memoryUnit (TrimSpace res) 0).2))
  else if enum = ResourceGPU then
    match ParseFloat (TrimSpace res) with
    | Except.error _ => Except.error "value format invalid, eg. 1"
    | Except.ok result => Except.ok (result.div (GoFloat.num 0))
  else Except.error ("unknown resource type " ++ TrimSpace res)

/-! ## Addresses (util/net/ip.go) -/

/-- The constant `big` of the package net. -/
def big : Nat := 0xFFFFFF

/-- The loop of the function `dtoi` of the package net, with the number `n`
read so far and the index `i`: the number, the characters consumed and
whether a number was read. -/
def dtoiLoop (n i : Nat) : List Char → Nat × Nat × Bool
  | [] => if i = 0 then (0, 0, false) else (n, i, true)
  | c :: cs =>
    if c.isDigit then
      if big ≤ n * 10 + (c.toNat - 48) then (big, i, false)
      else dtoiLoop (n * 10 + (c.toNat - 48)) (i + 1) cs
    else if i = 0 then (0, 0, false) else (n, i, true)

/-- The function `dtoi` of the package net: decimal to integer. -/
def dtoi (s : List Char) : Nat × Nat × Bool := dtoiLoop 0 0 s

/-- The loop of the function `parseIPv4` of the package net at the octet `i`,
with the octets `p` read and as many iterations left as the last argument
tells; `strict` tells whether an octet with a leading zero is refused, which
the library does from Go 1.17 on. -/
def parseIPv4Loop (strict : Bool) (i : Nat) (s : List Char) (p : List Nat) :
    Nat → Option (List Nat)
  | 0 => if s = [] then some p else none
  | k + 1 =>
    if s = [] then none
    else
      match (if 0 < i then (match s with
          | c :: r => if c = '.' then some r else none
          | [] => none) else some s) with
      | none => none
      | some s1 =>
        if (dtoi s1).2.2 = false ∨ 255 < (dtoi s1).1 then none
        else if strict ∧ 1 < (dtoi s1).2.1 ∧ s1.head? = some '0' then none
        else parseIPv4Loop strict (i + 1) (s1.drop (dtoi s1).2.1) (p ++ [(dtoi s1).1]) k

/-- The function `parseIPv4` of the package net: the four octets, or nil. -/
def parseIPv4 (strict : Bool) (s : String) : Option (List Nat) :=
  parseIPv4Loop strict 0 s.data [] 4

/-- The function `net.ParseIP`: the text is read as IPv4 when its first `.`
comes before any `:`, as IPv6 when its first `:` comes before any `.`, and is
no address when it has neither; `parseIPv6` is the reader of IPv6 literals of
the library. -/
def ParseIP (strict : Bool) (parseIPv6 : String → Option (List Nat)) (s : String) :
    Option (List Nat) :=
  match s.data.find? (fun c => c = '.' ∨ c = ':') with
  | none => none
  | some c => if c = '.' then parseIPv4 strict s else parseIPv6 s

/-- IsIPv4 return true if a ip is valid IPV4. -/
def IsIPv4 (strict : Bool) (parseIPv6 : String → Option (List Nat)) (ip : String) : Bool :=
  (ParseIP strict parseIPv6 ip).isSome && !(ip.data.contains ':')

/-- The dotted-decimal text `a.b.c.d`. -/
def dotted (a b c d : Nat) : String :=
  toString a ++ "." ++ toString b ++ "." ++ toString c ++ "." ++ toString d

/-! ## Example values -/

/-- A request package for the command `name` with the id `id`. -/
def examplePackage (id name : String) : CmdPackage :=
  { UUID := id, Name := name, Args := [], Caller := "srv", Executor := "agent",
    Type_ := CmdType.REQUEST, RespCode := 0, RespMsg := "", RespData := [], Stream := false }

/-- A RESPONSE package for the id `id` that is not a stream. -/
def exampleResponse (id : String) (data : String) : CmdPackage :=
  { UUID := id, Name := "echo", Args := [], Caller := "srv", Executor := "agent",
    Type_ := CmdType.RESPONSE, RespCode := 200, RespMsg := "ok", RespData := data.data,
    Stream := false }

/-- A request for the command `echo` with the id `1`. -/
def exampleReq : Req :=
  { UUID := "1", Name := "echo", Args := [], Caller := "", Executor := "agent" }

/-- The handler of `echo`: it answers `RespSucceed("X")`. -/
def echoHandler : Handler := Handler.user (fun _ => (some (RespSucceed "X"), none))

/-- A handler that answers with a stream over one reader. -/
def streamHandler (content : String) : Handler :=
  Handler.user (fun _ =>
    (some { Code := SuccessCode, Msg := SuccessMsg, Data := "",
            stream := some (newStreamer [content.data]), close := false }, some "done"))

/-- An executor with the handlers `echo` and `tail`. -/
def exampleExecutor : executor :=
  ((newExecutor "agent").addHandler "echo" echoHandler).addHandler "tail"
    (streamHandler "a\nb\nc")

/-- The manager of the agent, with the handlers `echo` and `tail`. -/
def exampleManager : cmdManager :=
  { executor := exampleExecutor, respBuffers := [], bufferLocks := [], callbacks := [] }

/-- The stream the handler of `tail` answers with. -/
def tailStream : streamer := newStreamer ["a\nb\nc".data]

/-- The Resp the handler of `tail` answers with. -/
def tailResp : Resp :=
  { Code := SuccessCode, Msg := SuccessMsg, Data := "", stream := some tailStream,
    close := false }

/-- What `exec` leaves for the request `tail` with the id `7`. -/
def tailResult : ExecResult :=
  { e := { exampleExecutor with streams := GoMap.store exampleExecutor.streams "7" tailStream },
    cmd := { examplePackage "7" "tail" with Type_ := CmdType.RESPONSE },
    resp := some tailResp, onComplete := some "done",
    invoked := [{ UUID := "7", Name := "tail", Args := [], Caller := "srv",
                  Executor := "agent" }] }

/-- A registry that holds the connection tagged `1`, saved under the identity
`key` with the handle `10`. -/
def exampleRegistry (key : String) : ConnManager :=
  { conns := [(1, { Key := key, Info := [], Value := some 10 })],
    onReadyFuncs := ["ready"], onNotReadyFuncs := [] }

/-- The connection tagged `1` begins and registers as "a". -/
def exampleCalls : List RegistryCall :=
  [RegistryCall.handle (some 1) ConnStats.ConnBegin,
   RegistryCall.save (some 1) "a" [("zone", "b")] (some 10)]

/-- The registry after `exampleCalls`, with one callback of each kind. -/
def exampleSaved : ConnManager :=
  { conns := [(1, Conn.mk "a" [("zone", "b")] (some 10))],
    onReadyFuncs := ["ready"], onNotReadyFuncs := ["notReady"] }

/-- A server whose registry holds the agent "a" on the stream `10`. -/
def exampleServer : cmdServer :=
  { cmdManager := newCmdManager "CmdServer", connManager := exampleSaved }

/-- A server whose registry holds a connection that has begun and has not
registered. -/
def exampleBegunServer : cmdServer :=
  { cmdManager := newCmdManager "CmdServer",
    connManager := { conns := [(1, Conn.mk "" [] none)], onReadyFuncs := [],
                     onNotReadyFuncs := [] } }

/-- A RESPONSE package for the caller "a". -/
def exampleReply : CmdPackage :=
  { UUID := "1", Name := "echo", Args := [], Caller := "a", Executor := "CmdServer",
    Type_ := CmdType.RESPONSE, RespCode := 200, RespMsg := "ok", RespData := [],
    Stream := false }

/-- A REQUEST package with an empty Executor. -/
def exampleUnaddressed : CmdPackage :=
  { UUID := "2", Name := "echo", Args := [], Caller := "CmdServer", Executor := "",
    Type_ := CmdType.REQUEST, RespCode := 0, RespMsg := "", RespData := [],
    Stream := false }

/-- The first RESPONSE package of a stream response for the id `1`. -/
def exampleChunk : CmdPackage :=
  { UUID := "1", Name := "tail", Args := [], Caller := "srv", Executor := "agent",
    Type_ := CmdType.RESPONSE, RespCode := 200, RespMsg := "ok", RespData := "a\n".data,
    Stream := true }

/-- A client with the hooks "f" and "g" registered in this order, for ready
and for not ready. -/
def exampleClient : cmdClient :=
  ((((cmdClient.mk (newCmdManager "agent") [] []).OnReady "f").OnReady "g").OnNotReady
    "f").OnNotReady "g"

/-- A handler that returns a nil Resp and a completion callback. -/
def nilHandler : Handler := Handler.user (fun _ => (none, some "done"))

/-- A manager whose command `void` has the handler that returns nil. -/
def nilManager : cmdManager :=
  { executor := (newExecutor "agent").addHandler "void" nilHandler, respBuffers := [],
    bufferLocks := [], callbacks := [] }

/-- A handler that answers with a stream that ends at once. -/
def emptyStreamHandler : Handler :=
  Handler.user (fun _ =>
    (some { Code := SuccessCode, Msg := SuccessMsg, Data := "",
            stream := some (newStreamer []), close := false }, some "done"))

/-- A manager whose command `quiet` answers with the empty stream. -/
def quietManager : cmdManager :=
  { executor := (newExecutor "agent").addHandler "quiet" emptyStreamHandler,
    respBuffers := [], bufferLocks := [], callbacks := [] }

/-- A text of 250 lines. -/
def longText : String := String.join (List.replicate 250 "x\n")

/-- A manager whose command `long` answers with a stream of 250 lines. -/
def longManager : cmdManager :=
  { executor := (newExecutor "agent").addHandler "long" (streamHandler longText),
    respBuffers := [], bufferLocks := [], callbacks := [] }

/-- A server with an empty registry. -/
def emptyServer : cmdServer :=
  { cmdManager := newCmdManager "CmdServer", connManager := initConnManager }

/-! ## Lemmas on maps -/

namespace GoMap

variable {κ ν : Type} [DecidableEq κ]

theorem load_delete_self (m : GoMap κ ν) (k : κ) : load (delete m k) k = none := by
  induction m with
  | nil => rfl
  | cons p rest ih =>
    obtain ⟨k', v⟩ := p
    by_cases h : k' = k
    · simpa [delete, List.filter_cons, h] using ih
    · simpa [delete, List.filter_cons, h, load] using ih

theorem load_delete_ne (m : GoMap κ ν) {k k' : κ} (hne : k' ≠ k) :
    load (delete m k) k' = load m k' := by
  induction m with
  | nil => rfl
  | cons p rest ih =>
    obtain ⟨k0, v⟩ := p
    by_cases h : k0 = k
    · subst h
      have h0 : ¬ k0 = k' := fun h1 => hne h1.symm
      have e1 : delete ((k0, v) :: rest) k0 = delete rest k0 := by
        simp [delete, List.filter_cons]
      rw [e1, ih]
      simp [load, h0]
    · have e1 : delete ((k0, v) :: rest) k = (k0, v) :: delete rest k := by
        simp [delete, List.filter_cons, h]
      rw [e1]
      by_cases h1 : k0 = k'
      · simp [load, h1]
      · simp [load, h1, ih]

theorem load_store_self (m : GoMap κ ν) (k : κ) (v : ν) : load (store m k v) k = some v := by
  simp [store, load]

theorem load_store_ne (m : GoMap κ ν) {k k' : κ} (v : ν) (hne : k' ≠ k) :
    load (store m k v) k' = load m k' := by
  have h : ¬ k = k' := fun h => hne h.symm
  simp [store, load, h, load_delete_ne m hne]

theorem mem_keys_store (m : GoMap κ ν) (k : κ) (v : ν) : k ∈ keys (store m k v) := by
  simp [keys, store]

end GoMap

/-! ## Executor -/

/-- C1: for a request package whose Name has no handler on the executor, `exec`
returns (without a panic) the non-stream Resp with Code 500, empty Data and the
message "cmd <name> not supported at executor <executor>", which starts with
"cmd <name> not supported"; it returns no completion callback, calls no handler
and leaves the executor as it was. -/
theorem exec_unknown_command (e : executor) (cmd : CmdPackage)
    (h : GoMap.load e.cmdHandlers cmd.Name = none) :
    ∃ r resp, e.exec cmd = Run.done r ∧ r.resp = some resp ∧
      resp.Code = 500 ∧ resp.Code = FailCode ∧ resp.Data = "" ∧ resp.IsStream = false ∧
      resp.Msg = "cmd " ++ cmd.Name ++ " not supported" ++ (" at executor " ++ e.name) ∧
      r.onComplete = none ∧ r.invoked = [] ∧ r.e = e := by
  simp only [executor.exec, h]
  refine ⟨_, _, rfl, rfl, rfl, rfl, rfl, rfl, ?_, rfl, rfl, rfl⟩
  have hs : (" not supported at executor " : String) = " not supported" ++ " at executor " := by
    decide
  simp only [hs, String.append_assoc]

/-- Witness of C1: the command "foo" on a new executor. -/
theorem exec_unknown_command_witness :
    GoMap.load (newExecutor "agent").cmdHandlers "foo" = none ∧
    ∃ r resp, (newExecutor "agent").exec
        { UUID := "1", Name := "foo", Args := [], Caller := "srv", Executor := "agent",
          Type_ := CmdType.REQUEST, RespCode := 0, RespMsg := "", RespData := [],
          Stream := false } = Run.done r ∧ r.resp = some resp ∧
      resp.Code = 500 ∧ resp.Code = FailCode ∧ resp.Data = "" ∧ resp.IsStream = false ∧
      resp.Msg = "cmd " ++ "foo" ++ " not supported" ++ (" at executor " ++ "agent") ∧
      r.onComplete = none ∧ r.invoked = [] ∧ r.e = newExecutor "agent" :=
  ⟨by simp [newExecutor, executor.addHandler, GoMap.store, GoMap.delete, GoMap.load, CloseStream],
    exec_unknown_command (newExecutor "agent")
    { UUID := "1", Name := "foo", Args := [], Caller := "srv", Executor := "agent",
      Type_ := CmdType.REQUEST, RespCode := 0, RespMsg := "", RespData := [],
      Stream := false }
    (by simp [newExecutor, executor.addHandler, GoMap.store, GoMap.delete, GoMap.load,
      CloseStream])⟩

/-! ## Command manager: lemmas on the pending tables -/

theorem exec_cmd (e : executor) (cmd : CmdPackage) (x : ExecResult)
    (hx : e.exec cmd = Run.done x) : x.cmd = { cmd with Type_ := CmdType.RESPONSE } := by
  unfold executor.exec at hx
  simp only at hx
  split at hx
  · cases hx; rfl
  · split at hx
    · cases hx
    · split at hx <;> (cases hx; rfl)

theorem string_mk_data (s : String) : String.mk s.data = s := rfl

theorem processResp_other (cm : cmdManager) (p : CmdPackage) (id : String)
    (hne : p.UUID ≠ id) :
    GoMap.load (cm.processResp p).respBuffers id = GoMap.load cm.respBuffers id ∧
    GoMap.load (cm.processResp p).bufferLocks id = GoMap.load cm.bufferLocks id := by
  have hne2 : id ≠ p.UUID := fun h => hne h.symm
  unfold cmdManager.processResp cmdManager.safeWriteBuffer
  split
  · exact ⟨rfl, rfl⟩
  · split
    · exact ⟨rfl, rfl⟩
    · split
      · exact ⟨rfl, rfl⟩
      · split
        · exact ⟨GoMap.load_store_ne _ _ hne2, rfl⟩
        · exact ⟨rfl, GoMap.load_store_ne _ _ hne2⟩

theorem processResp_agree (a b : cmdManager) (p : CmdPackage) (id : String)
    (h1 : GoMap.load a.respBuffers id = GoMap.load b.respBuffers id)
    (h2 : GoMap.load a.bufferLocks id = GoMap.load b.bufferLocks id) :
    GoMap.load (a.processResp p).respBuffers id = GoMap.load (b.processResp p).respBuffers id ∧
    GoMap.load (a.processResp p).bufferLocks id = GoMap.load (b.processResp p).bufferLocks id := by
  by_cases hp : p.UUID = id
  · subst hp
    unfold cmdManager.processResp cmdManager.safeWriteBuffer
    rw [h1, h2]
    split
    · exact ⟨h1, h2⟩
    · split
      · exact ⟨h1, h2⟩
      · split
        · exact ⟨h1, h2⟩
        · split
          · exact ⟨by simp [GoMap.load_store_self], h2⟩
          · exact ⟨h1, by simp [GoMap.load_store_self]⟩
  · rw [(processResp_other a p id hp).1, (processResp_other a p id hp).2,
      (processResp_other b p id hp).1, (processResp_other b p id hp).2]
    exact ⟨h1, h2⟩

theorem foldl_processResp_agree (ps : List CmdPackage) (a b : cmdManager) (id : String)
    (h1 : GoMap.load a.respBuffers id = GoMap.load b.respBuffers id)
    (h2 : GoMap.load a.bufferLocks id = GoMap.load b.bufferLocks id) :
    GoMap.load (ps.foldl cmdManager.processResp a).respBuffers id =
      GoMap.load (ps.foldl cmdManager.processResp b).respBuffers id ∧
    GoMap.load (ps.foldl cmdManager.processResp a).bufferLocks id =
      GoMap.load (ps.foldl cmdManager.processResp b).bufferLocks id := by
  induction ps generalizing a b with
  | nil => exact ⟨h1, h2⟩
  | cons p ps ih =>
    simp only [List.foldl_cons]
    exact ih _ _ (processResp_agree a b p id h1 h2).1 (processResp_agree a b p id h1 h2).2

theorem foldl_processResp_other (ps : List CmdPackage) (cm : cmdManager) (id : String)
    (hne : ∀ p ∈ ps, p.UUID ≠ id) :
    GoMap.load (ps.foldl cmdManager.processResp cm).respBuffers id = GoMap.load cm.respBuffers id ∧
    GoMap.load (ps.foldl cmdManager.processResp cm).bufferLocks id =
      GoMap.load cm.bufferLocks id := by
  induction ps generalizing cm with
  | nil => exact ⟨rfl, rfl⟩
  | cons p ps ih =>
    simp only [List.foldl_cons]
    have hp := processResp_other cm p id (hne p (List.mem_cons_self _ _))
    have := ih (cm.processResp p) (fun q hq => hne q (List.mem_cons_of_mem _ hq))
    exact ⟨this.1.trans hp.1, this.2.trans hp.2⟩

/-- With an empty channel and a free mutex for `id`, packages of other ids do
not wake the reader: the manager is the one the receive loop leaves. -/
theorem awaitFirst_none (ps : List CmdPackage) (cm : cmdManager) (id : String)
    (hb : GoMap.load cm.respBuffers id = some [])
    (hne : ∀ p ∈ ps, p.UUID ≠ id) :
    cm.awaitFirst id ps = (ps.foldl cmdManager.processResp cm, none) := by
  induction ps generalizing cm with
  | nil => rfl
  | cons p ps ih =>
    have hp := processResp_other cm p id (hne p (List.mem_cons_self _ _))
    have hb1 : GoMap.load (cm.processResp p).respBuffers id = some [] := hp.1.trans hb
    unfold cmdManager.awaitFirst
    rw [hb1]
    simp only [List.foldl_cons]
    exact ih (cm.processResp p) hb1 (fun q hq => hne q (List.mem_cons_of_mem _ hq))

/-- A package for `id` that finds the channel empty and the mutex free is
written and received at once. -/
theorem awaitFirst_hit (pre post : List CmdPackage) (p : CmdPackage) (cm : cmdManager)
    (id : String)
    (hb : GoMap.load cm.respBuffers id = some [])
    (hl : GoMap.load cm.bufferLocks id = some { held := false })
    (hne : ∀ q ∈ pre, q.UUID ≠ id) (hp : p.UUID = id) :
    ∃ cm2, cm.awaitFirst id (pre ++ p :: post) = (cm2, some p) ∧
      GoMap.load cm2.bufferLocks id = some { held := false } ∧
      (∀ k, k ≠ id →
        GoMap.load cm2.respBuffers k =
          GoMap.load (pre.foldl cmdManager.processResp cm).respBuffers k ∧
        GoMap.load cm2.bufferLocks k =
          GoMap.load (pre.foldl cmdManager.processResp cm).bufferLocks k) ∧
      cm2.executor = cm.executor ∧ cm2.callbacks = cm.callbacks := by
  induction pre generalizing cm with
  | nil =>
    subst hp
    have hw : cm.processResp p =
        { cm with respBuffers := GoMap.store cm.respBuffers p.UUID [p] } := by
      unfold cmdManager.processResp cmdManager.safeWriteBuffer
      rw [hl]
      simp [hb, MaxBufferSize]
    refine ⟨{ cm.processResp p with
        respBuffers := GoMap.store (cm.processResp p).respBuffers p.UUID [] }, ?_, ?_, ?_, ?_, ?_⟩
    · have hld : GoMap.load (cm.processResp p).respBuffers p.UUID = some [p] := by
        rw [hw]; exact GoMap.load_store_self _ _ _
      simp only [List.nil_append]
      unfold cmdManager.awaitFirst
      rw [hld]
    · rw [hw]; exact hl
    · intro k hk
      rw [hw]
      refine ⟨?_, rfl⟩
      show GoMap.load (GoMap.store (GoMap.store cm.respBuffers p.UUID [p]) p.UUID []) k =
        GoMap.load cm.respBuffers k
      rw [GoMap.load_store_ne _ _ hk, GoMap.load_store_ne _ _ hk]
    · rw [hw]
    · rw [hw]
  | cons q pre ih =>
    have hq := processResp_other cm q id (hne q (List.mem_cons_self _ _))
    have hb1 : GoMap.load (cm.processResp q).respBuffers id = some [] := hq.1.trans hb
    have hl1 : GoMap.load (cm.processResp q).bufferLocks id = some { held := false } :=
      hq.2.trans hl
    obtain ⟨cm2, h1, h2, h3, h4, h5⟩ :=
      ih (cm.processResp q) hb1 hl1 (fun r hr => hne r (List.mem_cons_of_mem _ hr))
    refine ⟨cm2, ?_, h2, ?_, ?_, ?_⟩
    · simp only [List.cons_append]
      unfold cmdManager.awaitFirst
      rw [hb1]
      exact h1
    · intro k hk
      simpa only [List.foldl_cons] using h3 k hk
    · rw [h4]; unfold cmdManager.processResp cmdManager.safeWriteBuffer
      split
      · rfl
      · split
        · rfl
        · split
          · rfl
          · split <;> rfl
    · rw [h5]; unfold cmdManager.processResp cmdManager.safeWriteBuffer
      split
      · rfl
      · split
        · rfl
        · split
          · rfl
          · split <;> rfl

theorem safeCloseBuffer_free (cm : cmdManager) (c : CmdPackage)
    (hl : GoMap.load cm.bufferLocks c.UUID = some { held := false }) :
    cm.safeCloseBuffer c =
      ({ cm with respBuffers := GoMap.delete cm.respBuffers c.UUID,
                 bufferLocks := GoMap.delete cm.bufferLocks c.UUID }, true) := by
  unfold cmdManager.safeCloseBuffer
  rw [hl]
  simp

theorem register_loads (cm : cmdManager) (id : String) :
    GoMap.load (cm.register id).respBuffers id = some [] ∧
    GoMap.load (cm.register id).bufferLocks id = some { held := false } :=
  ⟨GoMap.load_store_self _ _ _, GoMap.load_store_self _ _ _⟩

theorem register_other (cm : cmdManager) (id k : String) (hk : k ≠ id) :
    GoMap.load (cm.register id).respBuffers k = GoMap.load cm.respBuffers k ∧
    GoMap.load (cm.register id).bufferLocks k = GoMap.load cm.bufferLocks k :=
  ⟨GoMap.load_store_ne _ _ hk, GoMap.load_store_ne _ _ hk⟩

/-- The timeout branch of `waitForResp`. -/
theorem waitForResp_no_chunk (cm : cmdManager) (c : CmdPackage) (timeout : Int)
    (delivered : List CmdPackage) (ht : 0 < timeout)
    (hne : ∀ p ∈ delivered, p.UUID ≠ c.UUID) :
    ∃ cm2, cm.waitForResp c timeout delivered =
        (cm2, WaitOutcome.err ("execute cmd " ++ c.Name ++ " timeout")) ∧
      GoMap.load cm2.respBuffers c.UUID = none ∧
      GoMap.load cm2.bufferLocks c.UUID = none := by
  have hr := register_loads cm c.UUID
  have hf := foldl_processResp_other delivered (cm.register c.UUID) c.UUID hne
  have hl : GoMap.load (delivered.foldl cmdManager.processResp (cm.register c.UUID)).bufferLocks
      c.UUID = some { held := false } := hf.2.trans hr.2
  refine ⟨((delivered.foldl cmdManager.processResp (cm.register c.UUID)).safeCloseBuffer c).1,
    ?_, ?_, ?_⟩
  · unfold cmdManager.waitForResp
    rw [awaitFirst_none delivered _ _ hr.1 hne]
    simp only [not_le.mpr ht, if_false, safeCloseBuffer_free _ c hl]
  · rw [safeCloseBuffer_free _ c hl]
    exact GoMap.load_delete_self _ _
  · rw [safeCloseBuffer_free _ c hl]
    exact GoMap.load_delete_self _ _

/-- The branch of `waitForResp` for a first package that is not a stream. -/
theorem waitForResp_first_chunk (cm : cmdManager) (c p : CmdPackage) (timeout : Int)
    (pre post : List CmdPackage)
    (hne : ∀ q ∈ pre, q.UUID ≠ c.UUID) (hp : p.UUID = c.UUID) (hs : p.Stream = false) :
    ∃ cm2, cm.waitForResp c timeout (pre ++ p :: post) =
        (cm2, WaitOutcome.resp
          { Code := (p.RespCode : Int), Msg := p.RespMsg, Data := String.mk p.RespData,
            stream := none, close := false }) ∧
      GoMap.load cm2.respBuffers c.UUID = none ∧
      GoMap.load cm2.bufferLocks c.UUID = none ∧
      (∀ k, k ≠ c.UUID →
        GoMap.load cm2.respBuffers k =
          GoMap.load (pre.foldl cmdManager.processResp cm).respBuffers k ∧
        GoMap.load cm2.bufferLocks k =
          GoMap.load (pre.foldl cmdManager.processResp cm).bufferLocks k) ∧
      cm2.executor = cm.executor ∧ cm2.callbacks = cm.callbacks := by
  have hr := register_loads cm c.UUID
  obtain ⟨cm1, h1, h2, h3, h4, h5⟩ :=
    awaitFirst_hit pre post p (cm.register c.UUID) c.UUID hr.1 hr.2 hne hp
  have hfr : firstResp p =
      { Code := (p.RespCode : Int), Msg := p.RespMsg, Data := String.mk p.RespData,
        stream := none, close := false } := by
    simp [firstResp, hs]
  refine ⟨(cm1.safeCloseBuffer c).1, ?_, ?_, ?_, ?_, ?_, ?_⟩
  · unfold cmdManager.waitForResp
    rw [h1]
    simp only [hfr, Resp.IsStream, Option.isSome_none, Bool.false_eq_true, if_false,
      safeCloseBuffer_free _ c h2]
  · rw [safeCloseBuffer_free _ c h2]
    exact GoMap.load_delete_self _ _
  · rw [safeCloseBuffer_free _ c h2]
    exact GoMap.load_delete_self _ _
  · rw [safeCloseBuffer_free _ c h2]
    intro k hk
    have hk3 := h3 k hk
    have hag := foldl_processResp_agree pre (cm.register c.UUID) cm k
      (register_other cm c.UUID k hk).1 (register_other cm c.UUID k hk).2
    exact ⟨by rw [GoMap.load_delete_ne _ hk, hk3.1, hag.1],
      by rw [GoMap.load_delete_ne _ hk, hk3.2, hag.2]⟩
  · rw [safeCloseBuffer_free _ c h2]
    exact h4
  · rw [safeCloseBuffer_free _ c h2]
    exact h5

/-! ## Command manager: round trip, timeout, late delivery -/

/-- C2: for a handler result that is not a stream and whose Code lies in
`0 <= c < 2^32`, `processReq` hands to `respCmd` one RESPONSE envelope with the
request's UUID, RespCode `uint32(c)`, RespMsg `m`, RespData the bytes of `d` and
Stream false, and `waitForResp`, receiving that envelope as the first chunk,
returns a Resp with Code `c`, Msg `m`, Data `d` that is not a stream. -/
theorem echo_round_trip (rm cm : cmdManager) (req : CmdPackage) (x : ExecResult)
    (resp : Resp) (results : List (Option String)) (ticks : List Nat) (timeout : Int)
    (hx : rm.executor.exec req = Run.done x) (hr : x.resp = some resp) (hs : resp.IsStream = false)
    (h0 : 0 ≤ resp.Code) (h1 : resp.Code < 4294967296) :
    ∃ r env, rm.processReq req results ticks = Run.done r ∧
      r.log = [{ env := env, lines := [], err := results.headD none }] ∧
      env.UUID = req.UUID ∧ env.Type_ = CmdType.RESPONSE ∧
      env.RespCode = uint32 resp.Code ∧ env.RespMsg = resp.Msg ∧
      env.RespData = resp.Data.data ∧ env.Stream = false ∧
      ∃ cm2 got, cm.waitForResp req timeout [env] = (cm2, WaitOutcome.resp got) ∧
        got.Code = resp.Code ∧ got.Msg = resp.Msg ∧ got.Data = resp.Data ∧
        got.IsStream = false := by
  have hst : resp.stream = none := by
    cases hq : resp.stream with
    | none => rfl
    | some st => simp [Resp.IsStream, hq] at hs
  have hcmd := exec_cmd rm.executor req x hx
  have hcode : ((uint32 resp.Code : Nat) : Int) = resp.Code := by
    unfold uint32
    rw [Int.emod_eq_of_lt h0 h1]
    exact Int.toNat_of_nonneg h0
  refine ⟨ReqResult.finish rm x.e x.onComplete (results.headD none)
      [{ env := { x.cmd with RespCode := uint32 resp.Code, RespMsg := resp.Msg,
                             Stream := resp.IsStream, RespData := resp.Data.data },
         lines := [], err := results.headD none }],
    { x.cmd with RespCode := uint32 resp.Code, RespMsg := resp.Msg,
                 Stream := resp.IsStream, RespData := resp.Data.data }, ?_, rfl, ?_, ?_, rfl, rfl,
    rfl, hs, ?_⟩
  · unfold cmdManager.processReq
    simp only [hx, hr, hst, Sender.respCmd, List.nil_append]
  · rw [hcmd]
  · rw [hcmd]
  · obtain ⟨cm2, hw, _⟩ := waitForResp_first_chunk cm req
      { x.cmd with RespCode := uint32 resp.Code, RespMsg := resp.Msg,
                   Stream := resp.IsStream, RespData := resp.Data.data } timeout [] []
      (fun q hq => by cases hq) (by rw [hcmd]) hs
    refine ⟨cm2, _, hw, hcode, rfl, rfl, rfl⟩

/-- Witness of C2: the handler of `echo` returns Code 200 and Data "X". -/
theorem echo_round_trip_witness :
    ∃ r env, exampleManager.processReq (examplePackage "1" "echo") [] [] = Run.done r ∧
      r.log = [{ env := env, lines := [], err := ([] : List (Option String)).headD none }] ∧
      env.UUID = (examplePackage "1" "echo").UUID ∧ env.Type_ = CmdType.RESPONSE ∧
      env.RespCode = uint32 (RespSucceed "X").Code ∧ env.RespMsg = (RespSucceed "X").Msg ∧
      env.RespData = (RespSucceed "X").Data.data ∧ env.Stream = false ∧
      ∃ cm2 got, (newCmdManager "srv").waitForResp (examplePackage "1" "echo") 1 [env] =
          (cm2, WaitOutcome.resp got) ∧
        got.Code = (RespSucceed "X").Code ∧ got.Msg = (RespSucceed "X").Msg ∧
        got.Data = (RespSucceed "X").Data ∧ got.IsStream = false :=
  echo_round_trip exampleManager (newCmdManager "srv") (examplePackage "1" "echo")
    { e := exampleExecutor,
      cmd := { examplePackage "1" "echo" with Type_ := CmdType.RESPONSE },
      resp := some (RespSucceed "X"), onComplete := none,
      invoked := [{ UUID := "1", Name := "echo", Args := [], Caller := "srv",
                    Executor := "agent" }] }
    (RespSucceed "X") [] [] 1
    (by simp [exampleManager, executor.exec, exampleExecutor, newExecutor, executor.addHandler, GoMap.store,
      GoMap.delete, GoMap.load, CloseStream, examplePackage, echoHandler, Handler.call,
      RespSucceed])
    rfl rfl (by decide) (by decide)

theorem genReqCmdPackage_ok (cmd : Req) (caller : String) (hn : cmd.Name ≠ "") :
    ∃ c, genReqCmdPackage cmd caller = Except.ok c ∧ c.UUID = cmd.UUID ∧ c.Name = cmd.Name ∧
      c.Type_ = CmdType.REQUEST ∧ c.Caller = caller ∧ c.Executor = cmd.Executor := by
  simp [genReqCmdPackage, hn]

theorem SendSync_sent (cm : cmdManager) (cmd : Req) (timeout : Int) (env : SendEnv)
    (hn : cmd.Name ≠ "") (hsend : env.sendResult = none) :
    ∃ c, genReqCmdPackage cmd cm.Name = Except.ok c ∧ c.UUID = cmd.UUID ∧ c.Name = cmd.Name ∧
      cm.SendSync cmd timeout env =
        { cm := ((env.early.foldl cmdManager.processResp cm).waitForResp c timeout
            env.delivered).1,
          sent := [(c, cm)],
          out := ((env.early.foldl cmdManager.processResp cm).waitForResp c timeout
            env.delivered).2 } := by
  obtain ⟨c, hc, h1, h2, _⟩ := genReqCmdPackage_ok cmd cm.Name hn
  refine ⟨c, hc, h1, h2, ?_⟩
  unfold cmdManager.SendSync
  rw [hc]
  simp only [hsend]

/-- C5: with a timeout above zero and no response package for the id routed
before the deadline, `waitForResp` returns a nil Resp and the error
"execute cmd <name> timeout", and so does `SendSync` after a send that
succeeded; afterwards `respBuffers` and `bufferLocks` hold no entry for the
id. -/
theorem waitForResp_timeout (cm : cmdManager) (c : CmdPackage) (cmd : Req) (timeout : Int)
    (delivered : List CmdPackage) (env : SendEnv)
    (ht : 0 < timeout) (hne : ∀ p ∈ delivered, p.UUID ≠ c.UUID)
    (hn : cmd.Name ≠ "") (hsend : env.sendResult = none)
    (hne2 : ∀ p ∈ env.delivered, p.UUID ≠ cmd.UUID) :
    (∃ cm2, cm.waitForResp c timeout delivered =
        (cm2, WaitOutcome.err ("execute cmd " ++ c.Name ++ " timeout")) ∧
      GoMap.load cm2.respBuffers c.UUID = none ∧
      GoMap.load cm2.bufferLocks c.UUID = none) ∧
    (cm.SendSync cmd timeout env).out =
      WaitOutcome.err ("execute cmd " ++ cmd.Name ++ " timeout") ∧
    GoMap.load (cm.SendSync cmd timeout env).cm.respBuffers cmd.UUID = none ∧
    GoMap.load (cm.SendSync cmd timeout env).cm.bufferLocks cmd.UUID = none := by
  refine ⟨waitForResp_no_chunk cm c timeout delivered ht hne, ?_⟩
  obtain ⟨c1, _, hu, hnm, hs⟩ := SendSync_sent cm cmd timeout env hn hsend
  obtain ⟨cm2, h1, h2, h3⟩ := waitForResp_no_chunk
    (env.early.foldl cmdManager.processResp cm) c1 timeout env.delivered ht
    (by rw [hu]; exact hne2)
  rw [hs, h1, ← hu, ← hnm]
  exact ⟨rfl, h2, h3⟩

/-- Witness of C5: a call with a timeout of one second during which only a
package of another id arrives. -/
theorem waitForResp_timeout_witness :
    (0 : Int) < 1 ∧ exampleReq.Name ≠ "" ∧
    (∃ cm2, (newCmdManager "srv").waitForResp (examplePackage "1" "echo") 1
        [exampleResponse "2" "Y"] =
        (cm2, WaitOutcome.err ("execute cmd " ++ (examplePackage "1" "echo").Name ++ " timeout")) ∧
      GoMap.load cm2.respBuffers (examplePackage "1" "echo").UUID = none ∧
      GoMap.load cm2.bufferLocks (examplePackage "1" "echo").UUID = none) ∧
    ((newCmdManager "srv").SendSync exampleReq 1
        { sendResult := none, early := [], delivered := [exampleResponse "2" "Y"] }).out =
      WaitOutcome.err ("execute cmd " ++ exampleReq.Name ++ " timeout") ∧
    GoMap.load ((newCmdManager "srv").SendSync exampleReq 1
        { sendResult := none, early := [], delivered := [exampleResponse "2" "Y"] }).cm.respBuffers
      exampleReq.UUID = none ∧
    GoMap.load ((newCmdManager "srv").SendSync exampleReq 1
        { sendResult := none, early := [], delivered := [exampleResponse "2" "Y"] }).cm.bufferLocks
      exampleReq.UUID = none :=
  ⟨by decide, by decide,
    waitForResp_timeout (newCmdManager "srv") (examplePackage "1" "echo") exampleReq 1
      [exampleResponse "2" "Y"]
      { sendResult := none, early := [], delivered := [exampleResponse "2" "Y"] }
      (by decide) (by decide) (by decide) rfl (by decide)⟩

/-- C6: a RESPONSE package whose UUID has no entry in `respBuffers` is dropped:
`safeWriteBuffer` and `processResp` return the manager unchanged (both tables,
hence every queue), nothing is written, and when `bufferLocks` has no entry
either the write is skipped at once. -/
theorem late_delivery_dropped (cm : cmdManager) (respPKG : CmdPackage)
    (h : GoMap.load cm.respBuffers respPKG.UUID = none) :
    cm.processResp respPKG = cm ∧ (cm.safeWriteBuffer respPKG).1 = cm ∧
    (cm.safeWriteBuffer respPKG).2 ≠ WriteResult.written ∧
    (GoMap.load cm.bufferLocks respPKG.UUID = none →
      (cm.safeWriteBuffer respPKG).2 = WriteResult.skipped) := by
  have key : (cm.safeWriteBuffer respPKG).1 = cm ∧
      (cm.safeWriteBuffer respPKG).2 ≠ WriteResult.written ∧
      (GoMap.load cm.bufferLocks respPKG.UUID = none →
        (cm.safeWriteBuffer respPKG).2 = WriteResult.skipped) := by
    unfold cmdManager.safeWriteBuffer
    rw [h]
    cases hl : GoMap.load cm.bufferLocks respPKG.UUID with
    | none => exact ⟨rfl, by simp, fun _ => rfl⟩
    | some lock =>
      by_cases hh : lock.held = true
      · simp [hh]
      · simp [hh]
  exact ⟨key.1, key⟩

/-- Witness of C6: a response for the id `1` reaches a manager whose call for
that id timed out. -/
theorem late_delivery_dropped_witness :
    GoMap.load ((newCmdManager "srv").waitForResp (examplePackage "1" "echo") 1 []).1.respBuffers
      (exampleResponse "1" "X").UUID = none ∧
    ((newCmdManager "srv").waitForResp (examplePackage "1" "echo") 1 []).1.processResp
      (exampleResponse "1" "X") =
      ((newCmdManager "srv").waitForResp (examplePackage "1" "echo") 1 []).1 ∧
    (((newCmdManager "srv").waitForResp (examplePackage "1" "echo") 1 []).1.safeWriteBuffer
      (exampleResponse "1" "X")).1 =
      ((newCmdManager "srv").waitForResp (examplePackage "1" "echo") 1 []).1 ∧
    (((newCmdManager "srv").waitForResp (examplePackage "1" "echo") 1 []).1.safeWriteBuffer
      (exampleResponse "1" "X")).2 ≠ WriteResult.written ∧
    (GoMap.load ((newCmdManager "srv").waitForResp (examplePackage "1" "echo") 1 []).1.bufferLocks
        (exampleResponse "1" "X").UUID = none →
      (((newCmdManager "srv").waitForResp (examplePackage "1" "echo") 1 []).1.safeWriteBuffer
        (exampleResponse "1" "X")).2 = WriteResult.skipped) :=
  ⟨by decide,
    late_delivery_dropped ((newCmdManager "srv").waitForResp (examplePackage "1" "echo") 1 []).1
      (exampleResponse "1" "X") (by decide)⟩

/-- When the first response package for the id is routed while `waitForResp`
waits and is not a stream, `SendSync`
(after a send that succeeded) returns the one Resp built from that package,
and when it has returned `respBuffers` and `bufferLocks` hold no entry for the
id, while for every other id both tables hold what the receive loop left
there. -/
theorem SendSync_single_resp (cm : cmdManager) (cmd : Req) (timeout : Int) (env : SendEnv)
    (pre post : List CmdPackage) (p : CmdPackage)
    (hn : cmd.Name ≠ "") (hsend : env.sendResult = none)
    (hd : env.delivered = pre ++ p :: post)
    (hne : ∀ q ∈ pre, q.UUID ≠ cmd.UUID) (hp : p.UUID = cmd.UUID) (hs : p.Stream = false) :
    (cm.SendSync cmd timeout env).out =
      WaitOutcome.resp
        { Code := (p.RespCode : Int), Msg := p.RespMsg, Data := String.mk p.RespData,
          stream := none, close := false } ∧
    GoMap.load (cm.SendSync cmd timeout env).cm.respBuffers cmd.UUID = none ∧
    GoMap.load (cm.SendSync cmd timeout env).cm.bufferLocks cmd.UUID = none ∧
    ∀ k, k ≠ cmd.UUID →
      GoMap.load (cm.SendSync cmd timeout env).cm.respBuffers k =
        GoMap.load ((env.early ++ pre).foldl cmdManager.processResp cm).respBuffers k ∧
      GoMap.load (cm.SendSync cmd timeout env).cm.bufferLocks k =
        GoMap.load ((env.early ++ pre).foldl cmdManager.processResp cm).bufferLocks k := by
  obtain ⟨c, _, hu, _, hsent⟩ := SendSync_sent cm cmd timeout env hn hsend
  obtain ⟨cm2, h1, h2, h3, h4, _⟩ := waitForResp_first_chunk
    (env.early.foldl cmdManager.processResp cm) c p timeout pre post
    (by rw [hu]; exact hne) (by rw [hu]; exact hp) hs
  rw [hsent, hd, h1, ← hu]
  refine ⟨rfl, h2, h3, ?_⟩
  intro k hk
  simpa only [List.foldl_append] using h4 k hk

/-- An instance: the response for the id `1` arrives after one for the id
`2`, while `waitForResp` waits. -/
theorem SendSync_single_resp_witness :
    exampleReq.Name ≠ "" ∧
    ((newCmdManager "srv").SendSync exampleReq 1
      { sendResult := none, early := [],
        delivered := [exampleResponse "2" "Y"] ++ exampleResponse "1" "X" :: [] }).out =
      WaitOutcome.resp
        { Code := ((exampleResponse "1" "X").RespCode : Int),
          Msg := (exampleResponse "1" "X").RespMsg,
          Data := String.mk (exampleResponse "1" "X").RespData,
          stream := none, close := false } ∧
    GoMap.load ((newCmdManager "srv").SendSync exampleReq 1
      { sendResult := none, early := [],
        delivered := [exampleResponse "2" "Y"] ++ exampleResponse "1" "X" :: [] }).cm.respBuffers
      exampleReq.UUID = none ∧
    GoMap.load ((newCmdManager "srv").SendSync exampleReq 1
      { sendResult := none, early := [],
        delivered := [exampleResponse "2" "Y"] ++ exampleResponse "1" "X" :: [] }).cm.bufferLocks
      exampleReq.UUID = none ∧
    ∀ k, k ≠ exampleReq.UUID →
      GoMap.load ((newCmdManager "srv").SendSync exampleReq 1
        { sendResult := none, early := [],
          delivered := [exampleResponse "2" "Y"] ++ exampleResponse "1" "X" :: [] }).cm.respBuffers
        k =
        GoMap.load (([] ++ [exampleResponse "2" "Y"]).foldl cmdManager.processResp
          (newCmdManager "srv")).respBuffers k ∧
      GoMap.load ((newCmdManager "srv").SendSync exampleReq 1
        { sendResult := none, early := [],
          delivered := [exampleResponse "2" "Y"] ++ exampleResponse "1" "X" :: [] }).cm.bufferLocks
        k =
        GoMap.load (([] ++ [exampleResponse "2" "Y"]).foldl cmdManager.processResp
          (newCmdManager "srv")).bufferLocks k :=
  ⟨by decide,
    SendSync_single_resp (newCmdManager "srv") exampleReq 1
      { sendResult := none, early := [],
        delivered := [exampleResponse "2" "Y"] ++ exampleResponse "1" "X" :: [] }
      [exampleResponse "2" "Y"] [] (exampleResponse "1" "X")
      (by decide) rfl rfl (by decide) (by decide) rfl⟩

/-- C7, at the failing input: the first response chunk for the id `1`, a
RESPONSE that is not a stream, is routed after `sendCmd` has returned and
before `waitForResp` has stored the queue. It is dropped, and `SendSync`
returns no Resp: with a timeout it returns the timeout error, with the timeout
0 it does not return. The same chunk routed while `waitForResp` waits is
returned as the one Resp, and in both cases a call that returned leaves no
entry for the id. -/
theorem SendSync_early_resp_lost :
    (exampleResponse "1" "X").Stream = false ∧
    (exampleResponse "1" "X").Type_ = CmdType.RESPONSE ∧
    ((newCmdManager "srv").SendSync exampleReq 1
      { sendResult := none, early := [exampleResponse "1" "X"], delivered := [] }).out =
      WaitOutcome.err "execute cmd echo timeout" ∧
    ((newCmdManager "srv").SendSync exampleReq 0
      { sendResult := none, early := [exampleResponse "1" "X"], delivered := [] }).out =
      WaitOutcome.blocked ∧
    ((newCmdManager "srv").SendSync exampleReq 1
      { sendResult := none, early := [], delivered := [exampleResponse "1" "X"] }).out =
      WaitOutcome.resp (Resp.mk 200 "ok" "X" none false) ∧
    GoMap.load ((newCmdManager "srv").SendSync exampleReq 1
      { sendResult := none, early := [exampleResponse "1" "X"],
        delivered := [] }).cm.respBuffers "1" = none ∧
    GoMap.load ((newCmdManager "srv").SendSync exampleReq 1
      { sendResult := none, early := [], delivered := [exampleResponse "1" "X"] }).cm.respBuffers
      "1" = none := by
  refine ⟨rfl, rfl, by decide, by decide, by decide, by decide, by decide⟩

/-- C8, at the failing input: when `sendCmd` is called for the request with the
id `1`, `respBuffers` holds no entry for `1`: the queue is registered by
`waitForResp`, after the send. The response routed right after the send is
dropped for lack of a queue, and the call ends with the timeout error. -/
theorem SendSync_registers_before_send_fails :
    ((newCmdManager "srv").SendSync exampleReq 1
      { sendResult := none, early := [exampleResponse "1" "X"], delivered := [] }).sent.map
      (fun x => (x.1.UUID, x.1.Type_, (GoMap.load x.2.respBuffers "1").isSome)) =
      [("1", CmdType.REQUEST, false)] ∧
    ((newCmdManager "srv").safeWriteBuffer (exampleResponse "1" "X")).2 = WriteResult.skipped ∧
    ((newCmdManager "srv").SendSync exampleReq 1
      { sendResult := none, early := [exampleResponse "1" "X"], delivered := [] }).out =
      WaitOutcome.err "execute cmd echo timeout" := by
  refine ⟨by decide, by decide, by decide⟩

/-- The order of `SendSync`: it calls `sendCmd` once, with the REQUEST envelope of
the request, while the manager is still as it was when `SendSync` was called;
the queue for the id is stored afterwards, by `waitForResp`. For an id with no
entry in `bufferLocks`, the responses for that id routed between the send and
`waitForResp` are dropped, and the call goes on as `waitForResp` on the
unchanged manager. -/
theorem SendSync_registers_after_send (cm : cmdManager) (cmd : Req) (timeout : Int)
    (env : SendEnv)
    (hn : cmd.Name ≠ "") (hsend : env.sendResult = none)
    (hfresh : GoMap.load cm.bufferLocks cmd.UUID = none)
    (hearly : ∀ p ∈ env.early, p.UUID = cmd.UUID) :
    ∃ c, genReqCmdPackage cmd cm.Name = Except.ok c ∧
      (cm.SendSync cmd timeout env).sent = [(c, cm)] ∧
      env.early.foldl cmdManager.processResp cm = cm ∧
      (cm.SendSync cmd timeout env).cm = (cm.waitForResp c timeout env.delivered).1 ∧
      (cm.SendSync cmd timeout env).out = (cm.waitForResp c timeout env.delivered).2 ∧
      GoMap.load (cm.register c.UUID).respBuffers cmd.UUID = some [] := by
  obtain ⟨c, hc, hu, _, hsent⟩ := SendSync_sent cm cmd timeout env hn hsend
  have hdrop : ∀ ps : List CmdPackage, (∀ p ∈ ps, p.UUID = cmd.UUID) →
      ps.foldl cmdManager.processResp cm = cm := by
    intro ps
    induction ps with
    | nil => intro _; rfl
    | cons q ps ih =>
      intro hq
      have h1 : cm.processResp q = cm := by
        unfold cmdManager.processResp cmdManager.safeWriteBuffer
        rw [hq q (List.mem_cons_self _ _), hfresh]
      simp only [List.foldl_cons, h1]
      exact ih (fun r hr => hq r (List.mem_cons_of_mem _ hr))
  refine ⟨c, hc, ?_, hdrop env.early hearly, ?_, ?_, ?_⟩
  · rw [hsent]
  · rw [hsent, hdrop env.early hearly]
  · rw [hsent, hdrop env.early hearly]
  · rw [hu]; exact (register_loads cm cmd.UUID).1

/-- An instance of the order of `SendSync`: the response for the id `1` is
routed right after the send. -/
theorem SendSync_registers_after_send_witness :
    exampleReq.Name ≠ "" ∧
    GoMap.load (newCmdManager "srv").bufferLocks exampleReq.UUID = none ∧
    ∃ c, genReqCmdPackage exampleReq (newCmdManager "srv").Name = Except.ok c ∧
      ((newCmdManager "srv").SendSync exampleReq 1
        { sendResult := none, early := [exampleResponse "1" "X"], delivered := [] }).sent =
        [(c, newCmdManager "srv")] ∧
      [exampleResponse "1" "X"].foldl cmdManager.processResp (newCmdManager "srv") =
        newCmdManager "srv" ∧
      ((newCmdManager "srv").SendSync exampleReq 1
        { sendResult := none, early := [exampleResponse "1" "X"], delivered := [] }).cm =
        ((newCmdManager "srv").waitForResp c 1 []).1 ∧
      ((newCmdManager "srv").SendSync exampleReq 1
        { sendResult := none, early := [exampleResponse "1" "X"], delivered := [] }).out =
        ((newCmdManager "srv").waitForResp c 1 []).2 ∧
      GoMap.load ((newCmdManager "srv").register c.UUID).respBuffers exampleReq.UUID =
        some [] :=
  ⟨by decide, by decide,
    SendSync_registers_after_send (newCmdManager "srv") exampleReq 1
      { sendResult := none, early := [exampleResponse "1" "X"], delivered := [] }
      (by decide) rfl (by decide) (by decide)⟩

/-- C9: for a request with a non-empty Name, when `sendCmd` returns the error
`e`, `SendSync` returns a nil Resp and the error `e`, after the one call of
`sendCmd`, and the manager (executor, `respBuffers`, `bufferLocks` and
`callbacks`) is unchanged, whatever the receive loop routes. -/
theorem SendSync_send_failure (cm : cmdManager) (cmd : Req) (timeout : Int) (env : SendEnv)
    (e : String) (hn : cmd.Name ≠ "") (hsend : env.sendResult = some e) :
    (cm.SendSync cmd timeout env).out = WaitOutcome.err e ∧
    (cm.SendSync cmd timeout env).cm = cm ∧
    (∃ c, genReqCmdPackage cmd cm.Name = Except.ok c ∧
      (cm.SendSync cmd timeout env).sent = [(c, cm)]) ∧
    GoMap.load (cm.SendSync cmd timeout env).cm.respBuffers cmd.UUID =
      GoMap.load cm.respBuffers cmd.UUID ∧
    GoMap.load (cm.SendSync cmd timeout env).cm.bufferLocks cmd.UUID =
      GoMap.load cm.bufferLocks cmd.UUID ∧
    GoMap.load (cm.SendSync cmd timeout env).cm.callbacks cmd.UUID =
      GoMap.load cm.callbacks cmd.UUID := by
  obtain ⟨c, hc, _⟩ := genReqCmdPackage_ok cmd cm.Name hn
  have h : cm.SendSync cmd timeout env =
      { cm := cm, sent := [(c, cm)], out := WaitOutcome.err e } := by
    unfold cmdManager.SendSync
    rw [hc]
    simp only [hsend]
  rw [h]
  exact ⟨rfl, rfl, ⟨c, hc, rfl⟩, rfl, rfl, rfl⟩

/-- Witness of C9: the send fails with "connection refused". -/
theorem SendSync_send_failure_witness :
    exampleReq.Name ≠ "" ∧
    ((newCmdManager "srv").SendSync exampleReq 1
      { sendResult := some "connection refused", early := [],
        delivered := [exampleResponse "1" "X"] }).out = WaitOutcome.err "connection refused" ∧
    ((newCmdManager "srv").SendSync exampleReq 1
      { sendResult := some "connection refused", early := [],
        delivered := [exampleResponse "1" "X"] }).cm = newCmdManager "srv" ∧
    (∃ c, genReqCmdPackage exampleReq (newCmdManager "srv").Name = Except.ok c ∧
      ((newCmdManager "srv").SendSync exampleReq 1
        { sendResult := some "connection refused", early := [],
          delivered := [exampleResponse "1" "X"] }).sent = [(c, newCmdManager "srv")]) ∧
    GoMap.load ((newCmdManager "srv").SendSync exampleReq 1
      { sendResult := some "connection refused", early := [],
        delivered := [exampleResponse "1" "X"] }).cm.respBuffers exampleReq.UUID =
      GoMap.load (newCmdManager "srv").respBuffers exampleReq.UUID ∧
    GoMap.load ((newCmdManager "srv").SendSync exampleReq 1
      { sendResult := some "connection refused", early := [],
        delivered := [exampleResponse "1" "X"] }).cm.bufferLocks exampleReq.UUID =
      GoMap.load (newCmdManager "srv").bufferLocks exampleReq.UUID ∧
    GoMap.load ((newCmdManager "srv").SendSync exampleReq 1
      { sendResult := some "connection refused", early := [],
        delivered := [exampleResponse "1" "X"] }).cm.callbacks exampleReq.UUID =
      GoMap.load (newCmdManager "srv").callbacks exampleReq.UUID :=
  ⟨by decide,
    SendSync_send_failure (newCmdManager "srv") exampleReq 1
      { sendResult := some "connection refused", early := [],
        delivered := [exampleResponse "1" "X"] }
      "connection refused" (by decide) rfl⟩

/-! ## Command manager: the chunked stream of `processReq` -/

theorem send_empty (s : Sender) : s.send [] = (none, s, []) := by
  simp [Sender.send]

theorem send_nonempty (s : Sender) (lines : List String) (h : 0 < lines.length) :
    s.send lines =
      (s.results.headD none,
        { cmd := { s.cmd with RespData := (String.join lines).data },
          results := s.results.tail,
          log := s.log ++ [{ env := { s.cmd with RespData := (String.join lines).data },
                             lines := lines, err := s.results.headD none }] },
        if (s.results.headD none).isSome then lines else []) := by
  unfold Sender.send Sender.respCmd
  simp only [gt_iff_lt, h, if_true]
  cases s.results.headD none <;> rfl

theorem linesOf_interleave (ticks : List Nat) (ls : List String) :
    linesOf (interleave ticks ls) = ls := by
  have htick : ∀ (n : Nat) (evs : List StreamEvent),
      linesOf (List.replicate n StreamEvent.tick ++ evs) = linesOf evs := by
    intro n evs
    induction n with
    | zero => rfl
    | succ n ih => simpa [List.replicate_succ, linesOf] using ih
  induction ls generalizing ticks with
  | nil =>
    cases ticks with
    | nil => rfl
    | cons n ns => simpa [interleave] using htick n []
  | cons l ls ih =>
    cases ticks with
    | nil =>
      have h := ih []
      simp only [interleave, List.map_cons, linesOf] at h ⊢
      rw [h]
    | cons n ns =>
      simp only [interleave]
      rw [htick, linesOf, ih]

theorem readLinesFrom_flatten (cs acc : List Char) :
    (readLinesFrom acc cs).flatten = acc ++ cs := by
  induction cs generalizing acc with
  | nil =>
    by_cases h : acc = []
    · simp [readLinesFrom, h]
    · simp [readLinesFrom, h]
  | cons c cs ih =>
    by_cases h : c = '\n'
    · simp [readLinesFrom, h, ih]
    · simp [readLinesFrom, h, ih]

theorem readLinesFrom_ne_nil (cs acc : List Char) :
    ∀ l ∈ readLinesFrom acc cs, l ≠ [] := by
  induction cs generalizing acc with
  | nil =>
    by_cases h : acc = []
    · simp [readLinesFrom, h]
    · simp [readLinesFrom, h]
  | cons c cs ih =>
    by_cases h : c = '\n'
    · intro l hl
      simp only [readLinesFrom, h, if_true, List.mem_cons] at hl
      rcases hl with hl | hl
      · rw [hl]; simp
      · exact ih [] l hl
    · intro l hl
      simp only [readLinesFrom, h, if_false] at hl
      exact ih _ l hl

theorem readLines_ne_empty (content : List Char) : ∀ l ∈ readLines content, l ≠ "" := by
  intro l hl
  simp only [readLines, List.mem_map] at hl
  obtain ⟨cs, hcs, rfl⟩ := hl
  intro h
  exact readLinesFrom_ne_nil content [] cs hcs (congrArg String.data h)

theorem readLines_data (content : List Char) :
    ((readLines content).map String.data).flatten = content := by
  have h : (readLines content).map String.data = readLinesFrom [] content := by
    simp [readLines, List.map_map, Function.comp_def]
  rw [h, readLinesFrom_flatten]
  rfl

theorem send_spec (s : Sender) (lines : List String) (h : 0 < lines.length) :
    ∃ s1, s.send lines =
        (s.results.headD none, s1, if (s.results.headD none).isSome then lines else []) ∧
      s1.cmd = { s.cmd with RespData := (String.join lines).data } ∧
      s1.results = s.results.tail ∧
      s1.log = s.log ++ [{ env := s1.cmd, lines := lines, err := s.results.headD none }] :=
  ⟨_, send_nonempty s lines h, rfl, rfl, rfl⟩

theorem Flush.Batch.of_cmd {c c1 : CmdPackage} {d : List Char} {f : Flush}
    (hc : c1 = { c with RespData := d }) (h : Flush.Batch c1 f) : Flush.Batch c f := by
  obtain ⟨h1, h2, h3⟩ := h
  exact ⟨by rw [h1, hc], h2, h3⟩

theorem Flush.Batch.of_send {s s1 : Sender} {lines : List String} {err : Option String}
    (hc : s1.cmd = { s.cmd with RespData := (String.join lines).data })
    (h0 : 0 < lines.length) (hle : lines.length ≤ MaxReadLinesNum) :
    Flush.Batch s.cmd { env := s1.cmd, lines := lines, err := err } :=
  ⟨hc, h0, hle⟩

/-- The calls of `respCmd` made by one `send` and by the loop after it. -/
theorem batches_step (out : Option String × Sender) {s s1 : Sender} {lines : List String}
    {err : Option String}
    (hc : s1.cmd = { s.cmd with RespData := (String.join lines).data })
    (hlog : s1.log = s.log ++ [{ env := s1.cmd, lines := lines, err := err }])
    (h0 : 0 < lines.length) (hle : lines.length ≤ MaxReadLinesNum)
    (hrest : ∃ fl, out.2.log = s1.log ++ fl ∧ ∀ f ∈ fl, Flush.Batch s1.cmd f) :
    ∃ fl, out.2.log = s.log ++ fl ∧ ∀ f ∈ fl, Flush.Batch s.cmd f := by
  obtain ⟨fl, h1, h2⟩ := hrest
  refine ⟨{ env := s1.cmd, lines := lines, err := err } :: fl, ?_, ?_⟩
  · rw [h1, hlog, List.append_assoc, List.singleton_append]
  · intro f hf
    rw [List.mem_cons] at hf
    rcases hf with hf | hf
    · rw [hf]; exact Flush.Batch.of_send hc h0 hle
    · exact Flush.Batch.of_cmd hc (h2 f hf)

/-- The calls of `respCmd` made by a last `send`. -/
theorem batches_final (s : Sender) (lines : List String)
    (hlen : lines.length ≤ MaxReadLinesNum) :
    ∃ fl, (s.send lines).2.1.log = s.log ++ fl ∧ ∀ f ∈ fl, Flush.Batch s.cmd f := by
  by_cases h0 : 0 < lines.length
  · obtain ⟨s1, hs, hc, _, hlog⟩ := send_spec s lines h0
    rw [hs]
    exact batches_step (s.results.headD none, s1) hc hlog h0 hlen
      ⟨[], by simp, by simp⟩
  · have : lines = [] := List.eq_nil_of_length_eq_zero (by omega)
    subst this
    rw [send_empty]
    exact ⟨[], by simp, by simp⟩

/-- Every call of `respCmd` made by the consumer loop carries a batch of at
least one and at most MaxReadLinesNum lines. -/
theorem consume_batches (evs : List StreamEvent) (s : Sender) (lines : List String)
    (hlen : lines.length < MaxReadLinesNum) :
    ∃ fl, (consume s lines evs).2.log = s.log ++ fl ∧ ∀ f ∈ fl, Flush.Batch s.cmd f := by
  induction evs generalizing s lines with
  | nil => exact batches_final s lines (le_of_lt hlen)
  | cons ev evs ih =>
    cases ev with
    | tick =>
      by_cases h0 : 0 < lines.length
      · obtain ⟨s1, hs, hc, _, hlog⟩ := send_spec s lines h0
        unfold consume
        rw [hs]
        cases hr : s.results.headD none with
        | some err =>
          exact batches_step (some err, s1) hc hlog h0 (le_of_lt hlen)
            ⟨[], by simp, by simp⟩
        | none =>
          exact batches_step _ hc hlog h0 (le_of_lt hlen)
            (ih s1 [] (by simp [MaxReadLinesNum]))
      · have : lines = [] := List.eq_nil_of_length_eq_zero (by omega)
        subst this
        unfold consume
        rw [send_empty]
        exact ih s [] hlen
    | line l =>
      unfold consume
      by_cases hl : l = ""
      · simp only [hl, if_true]
        exact batches_final s lines (le_of_lt hlen)
      · simp only [hl, if_false]
        by_cases hfull : (lines ++ [l]).length ≥ MaxReadLinesNum
        · simp only [hfull, if_true]
          have h0 : 0 < (lines ++ [l]).length := by simp
          have hle : (lines ++ [l]).length ≤ MaxReadLinesNum := by
            simp only [List.length_append, List.length_singleton]
            omega
          obtain ⟨s1, hs, hc, _, hlog⟩ := send_spec s (lines ++ [l]) h0
          rw [hs]
          cases hr : s.results.headD none with
          | some err =>
            exact batches_step (some err, s1) hc hlog h0 hle ⟨[], by simp, by simp⟩
          | none =>
            exact batches_step _ hc hlog h0 hle (ih s1 [] (by simp [MaxReadLinesNum]))
        · simp only [hfull, if_false]
          exact ih s (lines ++ [l]) (by omega)

theorem headD_none_of_all (rs : List (Option String)) (h : ∀ r ∈ rs, r = none) :
    rs.headD none = none := by
  cases rs with
  | nil => rfl
  | cons r rs => exact h r (List.mem_cons_self _ _)

theorem tail_all_none (rs : List (Option String)) (h : ∀ r ∈ rs, r = none) :
    ∀ r ∈ rs.tail, r = none :=
  fun r hr => h r (List.mem_of_mem_tail hr)

/-- One `send` that succeeds, followed by the rest of the loop. -/
theorem delivered_step (out : Option String × Sender) (rest : List String) {s s1 : Sender}
    {lines : List String}
    (hlog : s1.log = s.log ++ [{ env := s1.cmd, lines := lines, err := none }])
    (hrest : ∃ fl, out.2.log = s1.log ++ fl ∧ out.1 = none ∧
      (fl.map (fun f => f.lines)).flatten = rest ∧ ∀ f ∈ fl, f.err = none) :
    ∃ fl, out.2.log = s.log ++ fl ∧ out.1 = none ∧
      (fl.map (fun f => f.lines)).flatten = lines ++ rest ∧ ∀ f ∈ fl, f.err = none := by
  obtain ⟨fl, h1, h2, h3, h4⟩ := hrest
  refine ⟨{ env := s1.cmd, lines := lines, err := none } :: fl, ?_, h2, ?_, ?_⟩
  · rw [h1, hlog, List.append_assoc, List.singleton_append]
  · simp only [List.map_cons, List.flatten_cons, h3]
  · intro f hf
    rw [List.mem_cons] at hf
    rcases hf with hf | hf
    · rw [hf]
    · exact h4 f hf

/-- A last `send` when every call of `respCmd` succeeds. -/
theorem delivered_final (s : Sender) (lines : List String)
    (hall : ∀ r ∈ s.results, r = none) :
    ∃ fl, (s.send lines).2.1.log = s.log ++ fl ∧ (s.send lines).1 = none ∧
      (fl.map (fun f => f.lines)).flatten = lines ∧ ∀ f ∈ fl, f.err = none := by
  by_cases h0 : 0 < lines.length
  · obtain ⟨s1, hs, _, _, hlog⟩ := send_spec s lines h0
    rw [headD_none_of_all _ hall] at hs hlog
    rw [hs]
    have := delivered_step ((none : Option String), s1) [] hlog
      ⟨[], by simp, rfl, by simp, by simp⟩
    simpa using this
  · have : lines = [] := List.eq_nil_of_length_eq_zero (by omega)
    subst this
    rw [send_empty]
    exact ⟨[], by simp, rfl, by simp, by simp⟩

/-- When every call of `respCmd` succeeds, the batches handed over are, in
order, the buffered lines followed by the lines received. -/
theorem consume_delivers (evs : List StreamEvent) (s : Sender) (lines : List String)
    (hall : ∀ r ∈ s.results, r = none) (hne : ∀ l ∈ linesOf evs, l ≠ "") :
    ∃ fl, (consume s lines evs).2.log = s.log ++ fl ∧ (consume s lines evs).1 = none ∧
      (fl.map (fun f => f.lines)).flatten = lines ++ linesOf evs ∧
      ∀ f ∈ fl, f.err = none := by
  induction evs generalizing s lines with
  | nil =>
    have := delivered_final s lines hall
    simpa [consume, linesOf] using this
  | cons ev evs ih =>
    cases ev with
    | tick =>
      have hne1 : ∀ l ∈ linesOf evs, l ≠ "" := by simpa [linesOf] using hne
      by_cases h0 : 0 < lines.length
      · obtain ⟨s1, hs, _, hres, hlog⟩ := send_spec s lines h0
        rw [headD_none_of_all _ hall] at hs hlog
        unfold consume
        rw [hs]
        have hall1 : ∀ r ∈ s1.results, r = none := by
          rw [hres]; exact tail_all_none _ hall
        have := delivered_step _ _ hlog (ih s1 [] hall1 hne1)
        simpa [linesOf] using this
      · have : lines = [] := List.eq_nil_of_length_eq_zero (by omega)
        subst this
        unfold consume
        rw [send_empty]
        simpa [linesOf] using ih s [] hall hne1
    | line l =>
      have hl : l ≠ "" := hne l (by simp [linesOf])
      have hne1 : ∀ k ∈ linesOf evs, k ≠ "" :=
        fun k hk => hne k (by simp [linesOf, hk])
      unfold consume
      simp only [hl, if_false]
      by_cases hfull : (lines ++ [l]).length ≥ MaxReadLinesNum
      · simp only [hfull, if_true]
        have h0 : 0 < (lines ++ [l]).length := by simp
        obtain ⟨s1, hs, _, hres, hlog⟩ := send_spec s (lines ++ [l]) h0
        rw [headD_none_of_all _ hall] at hs hlog
        rw [hs]
        have hall1 : ∀ r ∈ s1.results, r = none := by
          rw [hres]; exact tail_all_none _ hall
        have := delivered_step _ _ hlog (ih s1 [] hall1 hne1)
        simpa [linesOf] using this
      · simp only [hfull, if_false]
        have := ih s (lines ++ [l]) hall hne1
        simpa [linesOf] using this

/-- The stream branch of `processReq`. -/
theorem processReq_stream (cm : cmdManager) (cmd : CmdPackage) (x : ExecResult) (resp : Resp)
    (st : streamer) (results : List (Option String)) (ticks : List Nat)
    (hx : cm.executor.exec cmd = Run.done x) (hr : x.resp = some resp) (hst : resp.stream = some st) :
    cm.processReq cmd results ticks =
      Run.done (ReqResult.finish cm x.e x.onComplete
        (consume { cmd := { x.cmd with RespCode := uint32 resp.Code, RespMsg := resp.Msg,
                                       Stream := true },
                   results := results, log := [] } []
          (interleave ticks (readLines st.content))).1
        (consume { cmd := { x.cmd with RespCode := uint32 resp.Code, RespMsg := resp.Msg,
                                       Stream := true },
                   results := results, log := [] } []
          (interleave ticks (readLines st.content))).2.log) := by
  unfold cmdManager.processReq
  simp only [hx, hr, hst, Resp.IsStream, Option.isSome_some]

theorem finish_log (cm : cmdManager) (e : executor) (oc : Option OnComplete) (err : Option String)
    (log : List Flush) : (ReqResult.finish cm e oc err log).log = log := rfl

theorem finish_err (cm : cmdManager) (e : executor) (oc : Option OnComplete) (err : Option String)
    (log : List Flush) : (ReqResult.finish cm e oc err log).err = err := rfl

theorem batches_data (cmd : CmdPackage) (fl : List Flush)
    (h : ∀ f ∈ fl, Flush.Batch cmd f) :
    (fl.map (fun f => f.env.RespData)).flatten =
      (((fl.map (fun f => f.lines)).flatten).map String.data).flatten := by
  induction fl with
  | nil => rfl
  | cons f fl ih =>
    have hf : f.env.RespData = (f.lines.map String.data).flatten := by
      rw [(h f (List.mem_cons_self _ _)).1]
      exact String.data_join f.lines
    have := ih (fun g hg => h g (List.mem_cons_of_mem _ hg))
    simp only [List.map_cons, List.flatten_cons, List.map_append, List.flatten_append, hf, this]

theorem batches_length (cmd : CmdPackage) (fl : List Flush)
    (h : ∀ f ∈ fl, Flush.Batch cmd f) :
    ((fl.map (fun f => f.lines)).flatten).length ≤ MaxReadLinesNum * fl.length := by
  induction fl with
  | nil => simp
  | cons f fl ih =>
    have hf := (h f (List.mem_cons_self _ _)).2.2
    have := ih (fun g hg => h g (List.mem_cons_of_mem _ hg))
    simp only [List.map_cons, List.flatten_cons, List.length_append, List.length_cons]
    rw [Nat.mul_succ]
    omega

theorem emitted_eq_log (r : ReqResult) (h : ∀ f ∈ r.log, f.err = none) :
    r.emitted = r.log := by
  unfold ReqResult.emitted
  rw [List.filter_eq_self]
  intro f hf
  rw [h f hf]
  rfl

/-- The run of `processReq` for a stream response: every call of `respCmd`
carries a batch, and when all of them succeed the batches are the lines read. -/
theorem processReq_stream_run (cm : cmdManager) (cmd : CmdPackage) (x : ExecResult)
    (resp : Resp) (st : streamer) (results : List (Option String)) (ticks : List Nat)
    (hx : cm.executor.exec cmd = Run.done x) (hr : x.resp = some resp) (hst : resp.stream = some st) :
    ∃ r, cm.processReq cmd results ticks = Run.done r ∧
      (∀ f ∈ r.log, Flush.Batch
        { x.cmd with RespCode := uint32 resp.Code, RespMsg := resp.Msg, Stream := true } f) ∧
      ((∀ q ∈ results, q = none) →
        r.err = none ∧ r.emitted = r.log ∧
        (r.log.map (fun f => f.lines)).flatten = readLines st.content) := by
  obtain ⟨fl2, g1, g2⟩ := consume_batches
    (interleave ticks (readLines st.content))
    { cmd := { x.cmd with RespCode := uint32 resp.Code, RespMsg := resp.Msg, Stream := true },
      results := results, log := [] } [] (by simp [MaxReadLinesNum])
  simp only [List.nil_append] at g1
  refine ⟨_, processReq_stream cm cmd x resp st results ticks hx hr hst, ?_, ?_⟩
  · rw [finish_log, g1]
    exact g2
  · intro hall
    obtain ⟨fl, h1, h2, h3, h4⟩ := consume_delivers
      (interleave ticks (readLines st.content))
      { cmd := { x.cmd with RespCode := uint32 resp.Code, RespMsg := resp.Msg,
                            Stream := true },
        results := results, log := [] } [] hall
      (by rw [linesOf_interleave]; exact readLines_ne_empty st.content)
    simp only [List.nil_append] at h1 h3
    rw [linesOf_interleave] at h3
    refine ⟨h2, emitted_eq_log _ (by rw [finish_log, h1]; exact h4), ?_⟩
    rw [finish_log, h1]
    exact h3

/-- C3: for a handler stream, every content of the stream and every
interleaving of timer ticks with the arrival of its lines, when every call of
`respCmd` succeeds `processReq` returns nil and the RespData of the RESPONSE
envelopes it emitted, concatenated in the order of emission, are the lines
read from the stream concatenated in their order, which is the content of the
stream; the batches of lines of the envelopes, one after the other, are the
lines read. -/
theorem stream_content_preserved (cm : cmdManager) (cmd : CmdPackage) (x : ExecResult)
    (resp : Resp) (st : streamer) (results : List (Option String)) (ticks : List Nat)
    (hx : cm.executor.exec cmd = Run.done x) (hr : x.resp = some resp) (hst : resp.stream = some st)
    (hall : ∀ q ∈ results, q = none) :
    ∃ r, cm.processReq cmd results ticks = Run.done r ∧ r.err = none ∧ r.emitted = r.log ∧
      (r.emitted.map (fun f => f.lines)).flatten = readLines st.content ∧
      (r.emitted.map (fun f => f.env.RespData)).flatten =
        ((readLines st.content).map String.data).flatten ∧
      (r.emitted.map (fun f => f.env.RespData)).flatten = st.content ∧
      ∀ f ∈ r.emitted, f.env.UUID = cmd.UUID ∧ f.env.Type_ = CmdType.RESPONSE ∧
        f.env.Stream = true ∧ f.env.RespData = (String.join f.lines).data := by
  have hcmd := exec_cmd cm.executor cmd x hx
  obtain ⟨r, hp, hb, hok⟩ := processReq_stream_run cm cmd x resp st results ticks hx hr hst
  obtain ⟨h1, h2, h3⟩ := hok hall
  have hdata := batches_data _ r.log hb
  rw [h3] at hdata
  refine ⟨r, hp, h1, h2, ?_, ?_, ?_, ?_⟩
  · rw [h2]; exact h3
  · rw [h2]; exact hdata
  · rw [h2]; exact hdata.trans (readLines_data st.content)
  · intro f hf
    rw [h2] at hf
    have hf1 := (hb f hf).1
    rw [hf1, hcmd]
    exact ⟨rfl, rfl, rfl, rfl⟩

/-- Witness of C3: the stream "a\nb\nc" with a tick before the second and the
third line. -/
theorem stream_content_preserved_witness :
    ∃ r, exampleManager.processReq (examplePackage "7" "tail") [none, none] [0, 1, 1] =
        Run.done r ∧ r.err = none ∧ r.emitted = r.log ∧
      (r.emitted.map (fun f => f.lines)).flatten = readLines tailStream.content ∧
      (r.emitted.map (fun f => f.env.RespData)).flatten =
        ((readLines tailStream.content).map String.data).flatten ∧
      (r.emitted.map (fun f => f.env.RespData)).flatten = tailStream.content ∧
      ∀ f ∈ r.emitted, f.env.UUID = (examplePackage "7" "tail").UUID ∧
        f.env.Type_ = CmdType.RESPONSE ∧
        f.env.Stream = true ∧ f.env.RespData = (String.join f.lines).data :=
  stream_content_preserved exampleManager (examplePackage "7" "tail") tailResult tailResp
    tailStream [none, none] [0, 1, 1]
    (by simp [exampleManager, executor.exec, exampleExecutor, newExecutor, executor.addHandler, GoMap.store,
      GoMap.delete, GoMap.load, CloseStream, examplePackage, streamHandler, Handler.call,
      tailResult, tailResp, tailStream, echoHandler])
    rfl rfl (by decide)

theorem readLinesFrom_body (b cs acc : List Char) (hb : '\n' ∉ b) :
    readLinesFrom acc (b ++ '\n' :: cs) = (acc ++ b ++ ['\n']) :: readLinesFrom [] cs := by
  induction b generalizing acc with
  | nil => simp [readLinesFrom]
  | cons c b ih =>
    have hc : c ≠ '\n' := fun h => hb (h ▸ List.mem_cons_self _ _)
    have hb2 : '\n' ∉ b := fun h => hb (List.mem_cons_of_mem _ h)
    simp only [List.cons_append, readLinesFrom, hc, if_false, List.append_eq]
    rw [ih (acc ++ [c]) hb2]
    simp

theorem readLinesFrom_rest (rest acc : List Char) (hr : '\n' ∉ rest) :
    readLinesFrom acc rest = if acc ++ rest = [] then [] else [acc ++ rest] := by
  induction rest generalizing acc with
  | nil => simp [readLinesFrom]
  | cons c rest ih =>
    have hc : c ≠ '\n' := fun h => hr (h ▸ List.mem_cons_self _ _)
    have hr2 : '\n' ∉ rest := fun h => hr (List.mem_cons_of_mem _ h)
    simp only [readLinesFrom, hc, if_false]
    rw [ih (acc ++ [c]) hr2]
    simp

/-- The producer of `processReq` reads a text of lines line by line. -/
theorem readLines_textOf (bodies : List (List Char)) (rest : List Char)
    (hb : ∀ b ∈ bodies, '\n' ∉ b) (hr : '\n' ∉ rest) :
    readLines (textOf bodies rest) = textLines bodies rest := by
  induction bodies with
  | nil =>
    simp only [textOf, textLines, readLines, List.map_nil, List.flatten_nil, List.nil_append]
    rw [readLinesFrom_rest rest [] hr]
    by_cases h : rest = [] <;> simp [h]
  | cons b bodies ih =>
    have h1 := ih (fun x hx => hb x (List.mem_cons_of_mem _ hx))
    have h2 : textOf (b :: bodies) rest = b ++ '\n' :: textOf bodies rest := by
      simp [textOf]
    rw [h2]
    simp only [readLines] at h1 ⊢
    rw [readLinesFrom_body b _ [] (hb b (List.mem_cons_self _ _)), List.map_cons, h1]
    simp [textLines]

theorem textLines_length (bodies : List (List Char)) (rest : List Char) :
    (textLines bodies rest).length = bodies.length + (if rest = [] then 0 else 1) := by
  by_cases h : rest = [] <;> simp [textLines, h]

theorem join_replicate_data (n : Nat) (l : String) :
    (String.join (List.replicate n l)).data = (List.replicate n l.data).flatten := by
  have h : ∀ (ls : List String) (acc : String),
      (ls.foldl (fun r s => r ++ s) acc).data = acc.data ++ (ls.map String.data).flatten := by
    intro ls
    induction ls with
    | nil => intro acc; simp
    | cons x xs ih => intro acc; simp [ih, String.data_append]
  have h2 := h (List.replicate n l) ""
  simp only [String.join, h2, List.map_replicate]
  rfl

theorem replicate_text (n : Nat) :
    (newStreamer [(String.join (List.replicate n "x\n")).data]).content =
      textOf (List.replicate n ['x']) [] := by
  simp only [streamer.content, newStreamer, join_replicate_data, textOf, List.map_replicate]
  simp

/-- The stream of the command `long` is the text of 250 lines "x". -/
theorem longText_content :
    (newStreamer [longText.data]).content = textOf (List.replicate 250 ['x']) [] :=
  replicate_text 250

/-- C4: every call of `respCmd` that `processReq` makes for a stream response,
and so every RESPONSE envelope it emits, carries at least 1 and at most
MaxReadLinesNum (100) lines. For a stream whose content is a text of `n`
lines (the lines that end with a newline, and the part after the last newline
when it is not empty), the producer reads these `n` lines, and when every call
succeeds the envelopes carry them in order, so that they are at least
`ceil(n/100)`, at least 3 for 250 lines. -/
theorem stream_batch_cap (cm : cmdManager) (cmd : CmdPackage) (x : ExecResult)
    (resp : Resp) (st : streamer) (results : List (Option String)) (ticks : List Nat)
    (bodies : List (List Char)) (rest : List Char)
    (hx : cm.executor.exec cmd = Run.done x) (hr : x.resp = some resp) (hst : resp.stream = some st)
    (hcontent : st.content = textOf bodies rest)
    (hbodies : ∀ b ∈ bodies, '\n' ∉ b) (hrest : '\n' ∉ rest) :
    ∃ r, cm.processReq cmd results ticks = Run.done r ∧
      (∀ f ∈ r.log, 1 ≤ f.lines.length ∧ f.lines.length ≤ 100 ∧
        f.env.RespData = (String.join f.lines).data ∧ f.env.Stream = true) ∧
      (∀ f ∈ r.emitted, 1 ≤ f.lines.length ∧ f.lines.length ≤ MaxReadLinesNum ∧
        f.env.RespData = (String.join f.lines).data ∧ f.env.Stream = true) ∧
      readLines st.content = textLines bodies rest ∧
      (textLines bodies rest).length = bodies.length + (if rest = [] then 0 else 1) ∧
      ((∀ q ∈ results, q = none) →
        (r.emitted.map (fun f => f.lines)).flatten = textLines bodies rest ∧
        (r.emitted.map (fun f => f.env.RespData)).flatten = textOf bodies rest ∧
        bodies.length + (if rest = [] then 0 else 1) ≤ 100 * r.emitted.length ∧
        (bodies.length + (if rest = [] then 0 else 1) + 99) / 100 ≤ r.emitted.length ∧
        (bodies.length + (if rest = [] then 0 else 1) = 250 → 3 ≤ r.emitted.length)) := by
  obtain ⟨r, hp, hb, hok⟩ := processReq_stream_run cm cmd x resp st results ticks hx hr hst
  have hlog : ∀ f ∈ r.log, 1 ≤ f.lines.length ∧ f.lines.length ≤ 100 ∧
      f.env.RespData = (String.join f.lines).data ∧ f.env.Stream = true := by
    intro f hf
    obtain ⟨hb1, hb2, hb3⟩ := hb f hf
    exact ⟨hb2, hb3, by rw [hb1], by rw [hb1]⟩
  have hlines : readLines st.content = textLines bodies rest := by
    rw [hcontent]
    exact readLines_textOf bodies rest hbodies hrest
  have hn := textLines_length bodies rest
  refine ⟨r, hp, hlog, fun f hf => hlog f (List.mem_of_mem_filter hf), hlines, hn, ?_⟩
  intro hall
  obtain ⟨_, h2, h3⟩ := hok hall
  have hlen := batches_length _ r.log hb
  rw [h3, hlines, hn] at hlen
  have hdata := batches_data _ r.log hb
  rw [h2]
  simp only [MaxReadLinesNum] at hlen
  refine ⟨by rw [h3, hlines], ?_, hlen, ?_, ?_⟩
  · rw [hdata, h3, readLines_data, hcontent]
  · omega
  · intro h250
    omega

set_option maxRecDepth 100000 in
/-- The batches of the command `long` with no firing of the timer. -/
theorem long_batches :
    (match longManager.processReq (examplePackage "9" "long") [] [] with
      | Run.done r => r.emitted.map (fun f => f.lines.length)
      | Run.panic _ => []) = [100, 100, 50] := by
  decide

/-- Witness of C4: the stream of the command `long`, 250 lines "x", with no
firing of the timer: the envelopes carry 100, 100 and 50 lines. -/
theorem stream_batch_cap_witness :
    ∃ r, longManager.processReq (examplePackage "9" "long") [] [] = Run.done r ∧
      (∀ f ∈ r.emitted, 1 ≤ f.lines.length ∧ f.lines.length ≤ MaxReadLinesNum) ∧
      List.length (List.replicate 250 ['x']) + (if ([] : List Char) = [] then 0 else 1) = 250 ∧
      (r.emitted.map (fun f => f.lines)).flatten = textLines (List.replicate 250 ['x']) [] ∧
      (r.emitted.map (fun f => f.env.RespData)).flatten = textOf (List.replicate 250 ['x']) [] ∧
      3 ≤ r.emitted.length ∧
      r.emitted.map (fun f => f.lines.length) = [100, 100, 50] := by
  obtain ⟨r, h1, _, h3, _, _, h6⟩ := stream_batch_cap longManager (examplePackage "9" "long")
    (ExecResult.mk
      (executor.mk "agent" longManager.executor.cmdHandlers
        [("9", newStreamer [longText.data])])
      (CmdPackage.mk "9" "long" [] "srv" "agent" CmdType.RESPONSE 0 "" [] false)
      (some (Resp.mk SuccessCode SuccessMsg "" (some (newStreamer [longText.data])) false))
      (some "done") [Req.mk "9" "long" [] "srv" "agent"])
    (Resp.mk SuccessCode SuccessMsg "" (some (newStreamer [longText.data])) false)
    (newStreamer [longText.data]) [] [] (List.replicate 250 ['x']) []
    (by simp [longManager, executor.exec, newExecutor, executor.addHandler, GoMap.store,
      GoMap.delete, GoMap.load, CloseStream, examplePackage, streamHandler, Handler.call])
    rfl rfl longText_content
    (by intro b hb; rw [List.eq_of_mem_replicate hb]; decide) (by decide)
  obtain ⟨h7, h8, _, _, h10⟩ := h6 (by intro q hq; cases hq)
  have hlen : List.length (List.replicate 250 ['x']) +
      (if ([] : List Char) = [] then 0 else 1) = 250 := by
    rw [List.length_replicate]
    rfl
  have he := long_batches
  rw [h1] at he
  exact ⟨r, h1, fun f hf => ⟨(h3 f hf).1, (h3 f hf).2.1⟩, hlen, h7, h8, h10 hlen, he⟩

/-! ## Connection registry -/

/-- C10, as stated, fails: the connection tagged `1` is still registered under
the identity "a" when the connection tagged `2` is saved under "a" with the
handle `20`; a lookup whose `range` visits the tag `1` first returns the old
handle `10` and the old metadata. -/
theorem SaveConn_then_get_older_conn :
    ((exampleRegistry "a").SaveConn (some 2) "a" [("zone", "b")] (some 20)).2.1 = none ∧
    [1, 2].Perm
      (GoMap.keys ((exampleRegistry "a").SaveConn (some 2) "a" [("zone", "b")] (some 20)).1.conns) ∧
    ((exampleRegistry "a").SaveConn (some 2) "a" [("zone", "b")] (some 20)).1.GetConnValue
      [1, 2] "a" = Except.ok (some 10) ∧
    ((exampleRegistry "a").SaveConn (some 2) "a" [("zone", "b")] (some 20)).1.GetConnValue
      [1, 2] "a" ≠ Except.ok (some 20) ∧
    ((exampleRegistry "a").SaveConn (some 2) "a" [("zone", "b")] (some 20)).1.GetConnInfo
      [1, 2] "a" = Except.ok [] := by
  have h : ((exampleRegistry "a").SaveConn (some 2) "a" [("zone", "b")] (some 20)).1.GetConnValue
      [1, 2] "a" = Except.ok (some 10) := by decide
  refine ⟨rfl, List.Perm.swap 2 1 [], h, ?_, by decide⟩
  rw [h]
  decide

/-- C10, amended: after `SaveConn(ctx, id, metadata, handle)` for a context
carrying a tag, which returns nil, `GetConnValue(id)` returns that handle and
`GetConnInfo(id)` returns that metadata, in whatever order the lookup ranges
over the map, provided no connection with another tag is registered under
the identity `id`. -/
theorem SaveConn_then_get (cm : ConnManager) (tag : Tag) (key : String)
    (infoData : List (String × String)) (value : Option Nat) (visit : List Tag)
    (hvisit : visit.Perm (GoMap.keys (cm.SaveConn (some tag) key infoData value).1.conns))
    (hother : ∀ t conn, t ≠ tag → GoMap.load cm.conns t = some conn → conn.Key ≠ key) :
    (cm.SaveConn (some tag) key infoData value).2.1 = none ∧
    (cm.SaveConn (some tag) key infoData value).1.GetConnValue visit key = Except.ok value ∧
    (cm.SaveConn (some tag) key infoData value).1.GetConnInfo visit key =
      Except.ok infoData := by
  have hsave : (cm.SaveConn (some tag) key infoData value).1 =
      ConnManager.mk (GoMap.store cm.conns tag (Conn.mk key infoData value))
        cm.onReadyFuncs cm.onNotReadyFuncs := rfl
  rw [hsave] at hvisit ⊢
  have hmem : tag ∈ visit :=
    hvisit.symm.subset (GoMap.mem_keys_store cm.conns tag _)
  have hfind : (List.filterMap (GoMap.load (GoMap.store cm.conns tag
        (Conn.mk key infoData value))) visit).find? (fun conn => decide (conn.Key = key)) =
      some (Conn.mk key infoData value) := by
    cases hf : (List.filterMap (GoMap.load (GoMap.store cm.conns tag
        (Conn.mk key infoData value))) visit).find? (fun conn => decide (conn.Key = key)) with
    | none =>
      have h1 := List.find?_eq_none.mp hf (Conn.mk key infoData value)
        (List.mem_filterMap.mpr ⟨tag, hmem, GoMap.load_store_self _ _ _⟩)
      simp at h1
    | some c =>
      have hc1 : c.Key = key := by simpa using List.find?_some hf
      obtain ⟨t, _, ht⟩ := List.mem_filterMap.mp (List.mem_of_find?_eq_some hf)
      by_cases htag : t = tag
      · rw [htag, GoMap.load_store_self] at ht
        rw [← Option.some.inj ht]
      · rw [GoMap.load_store_ne _ _ htag] at ht
        exact absurd hc1 (hother t c htag ht)
  refine ⟨rfl, ?_, ?_⟩
  · simp only [ConnManager.GetConnValue, ConnManager.range, hfind]
  · simp only [ConnManager.GetConnInfo, ConnManager.range, hfind]

/-- Witness of C10, amended: the connection tagged `1` is registered under
another identity. -/
theorem SaveConn_then_get_witness :
    [1, 2].Perm
      (GoMap.keys ((exampleRegistry "b").SaveConn (some 2) "a" [("zone", "b")] (some 20)).1.conns) ∧
    ((exampleRegistry "b").SaveConn (some 2) "a" [("zone", "b")] (some 20)).2.1 = none ∧
    ((exampleRegistry "b").SaveConn (some 2) "a" [("zone", "b")] (some 20)).1.GetConnValue
      [1, 2] "a" = Except.ok (some 20) ∧
    ((exampleRegistry "b").SaveConn (some 2) "a" [("zone", "b")] (some 20)).1.GetConnInfo
      [1, 2] "a" = Except.ok [("zone", "b")] :=
  ⟨List.Perm.swap 2 1 [],
    SaveConn_then_get (exampleRegistry "b") 2 "a" [("zone", "b")] (some 20) [1, 2]
      (List.Perm.swap 2 1 [])
      (by
        intro t conn ht h
        by_cases h1 : 1 = t
        · subst h1
          simp only [exampleRegistry, GoMap.load, if_true] at h
          rw [← Option.some.inj h]
          decide
        · simp [exampleRegistry, GoMap.load, h1] at h)⟩

/-! ## Connection registry: events -/

theorem GoMap.mem_keys_of_load {κ ν : Type} [DecidableEq κ] (m : GoMap κ ν) (k : κ) (v : ν)
    (h : GoMap.load m k = some v) : k ∈ GoMap.keys m := by
  induction m with
  | nil => simp [GoMap.load] at h
  | cons p rest ih =>
    obtain ⟨k0, v0⟩ := p
    by_cases h0 : k0 = k
    · simp [GoMap.keys, h0]
    · simp only [GoMap.load, h0, if_false] at h
      have := ih h
      simp only [GoMap.keys, List.map_cons, List.mem_cons] at this ⊢
      exact Or.inr this

/-- A lookup finds nothing exactly when no entry of the map has the key. -/
theorem range_find_none_iff (cm : ConnManager) (visit : List Tag) (key : String)
    (hvisit : visit.Perm (GoMap.keys cm.conns)) :
    (cm.range visit).find? (fun conn => decide (conn.Key = key)) = none ↔
      ∀ t conn, GoMap.load cm.conns t = some conn → conn.Key ≠ key := by
  rw [List.find?_eq_none]
  constructor
  · intro h t conn hl
    have ht : t ∈ visit := hvisit.symm.subset (GoMap.mem_keys_of_load _ _ _ hl)
    have := h conn (List.mem_filterMap.mpr ⟨t, ht, hl⟩)
    simpa using this
  · intro h conn hc
    obtain ⟨t, _, hl⟩ := List.mem_filterMap.mp hc
    simpa using h t conn hl

/-- A lookup that finds a connection finds an entry of the map with the key. -/
theorem range_find_some (cm : ConnManager) (visit : List Tag) (key : String) (conn : Conn)
    (h : (cm.range visit).find? (fun conn => decide (conn.Key = key)) = some conn) :
    conn.Key = key ∧ ∃ t, GoMap.load cm.conns t = some conn := by
  refine ⟨by simpa using List.find?_some h, ?_⟩
  obtain ⟨t, _, hl⟩ := List.mem_filterMap.mp (List.mem_of_find?_eq_some h)
  exact ⟨t, hl⟩

theorem GetConnValue_error_iff (cm : ConnManager) (visit : List Tag) (key : String) :
    (∃ err, cm.GetConnValue visit key = Except.error err) ↔
      (cm.range visit).find? (fun conn => decide (conn.Key = key)) = none := by
  unfold ConnManager.GetConnValue
  cases (cm.range visit).find? (fun conn => decide (conn.Key = key)) with
  | none => simp
  | some c => simp

theorem GetConnInfo_error_iff (cm : ConnManager) (visit : List Tag) (key : String) :
    (∃ err, cm.GetConnInfo visit key = Except.error err) ↔
      (cm.range visit).find? (fun conn => decide (conn.Key = key)) = none := by
  unfold ConnManager.GetConnInfo
  cases (cm.range visit).find? (fun conn => decide (conn.Key = key)) with
  | none => simp
  | some c => simp

theorem tracks_store (cm : ConnManager) (saved : GoMap Tag Conn) (tag : Tag) (conn : Conn)
    (h : Tracks cm saved) :
    Tracks { cm with conns := GoMap.store cm.conns tag conn } (GoMap.store saved tag conn) := by
  intro t
  by_cases ht : t = tag
  · subst ht
    exact Or.inl (by rw [GoMap.load_store_self, GoMap.load_store_self])
  · show GoMap.load (GoMap.store cm.conns tag conn) t = _ ∨ _
    rw [GoMap.load_store_ne _ _ ht, GoMap.load_store_ne _ _ ht]
    exact h t

theorem tracks_begin (cm : ConnManager) (saved : GoMap Tag Conn) (tag : Tag)
    (h : Tracks cm saved) :
    Tracks { cm with conns := GoMap.store cm.conns tag (Conn.mk "" [] none) }
      (GoMap.delete saved tag) := by
  intro t
  by_cases ht : t = tag
  · subst ht
    exact Or.inr ⟨GoMap.load_store_self _ _ _, GoMap.load_delete_self _ _⟩
  · show GoMap.load (GoMap.store cm.conns tag _) t = _ ∨ _
    rw [GoMap.load_store_ne _ _ ht, GoMap.load_delete_ne _ ht]
    exact h t

theorem tracks_end (cm : ConnManager) (saved : GoMap Tag Conn) (tag : Tag)
    (h : Tracks cm saved) :
    Tracks { cm with conns := GoMap.delete cm.conns tag } (GoMap.delete saved tag) := by
  intro t
  by_cases ht : t = tag
  · subst ht
    exact Or.inl (by
      show GoMap.load (GoMap.delete cm.conns t) t = _
      rw [GoMap.load_delete_self, GoMap.load_delete_self])
  · show GoMap.load (GoMap.delete cm.conns tag) t = _ ∨ _
    rw [GoMap.load_delete_ne _ ht, GoMap.load_delete_ne _ ht]
    exact h t

theorem run_tracks (calls : List RegistryCall) (cm cm2 : ConnManager)
    (saved : GoMap Tag Conn) (h : Tracks cm saved) (hrun : cm.run calls = Run.done cm2) :
    Tracks cm2 (savedConns saved calls) := by
  induction calls generalizing cm saved with
  | nil =>
    simp only [ConnManager.run, Run.done.injEq] at hrun
    subst hrun
    exact h
  | cons call calls ih =>
    cases call with
    | handle ctx s =>
      cases ctx with
      | none =>
        cases s <;>
          exact ih cm saved h (by simpa [ConnManager.run, ConnManager.HandleConn,
            getConnTagFromContext] using hrun)
      | some tag =>
        cases s with
        | ConnBegin =>
          exact ih _ _ (tracks_begin cm saved tag h)
            (by simpa [ConnManager.run, ConnManager.HandleConn, getConnTagFromContext]
              using hrun)
        | ConnEnd =>
          cases hl : GoMap.load cm.conns tag with
          | none =>
            simp [ConnManager.run, ConnManager.HandleConn, getConnTagFromContext, hl] at hrun
          | some conn =>
            exact ih _ _ (tracks_end cm saved tag h)
              (by simpa [ConnManager.run, ConnManager.HandleConn, getConnTagFromContext, hl]
                using hrun)
        | other =>
          exact ih cm saved h (by simpa [ConnManager.run, ConnManager.HandleConn,
            getConnTagFromContext] using hrun)
    | save ctx key infoData value =>
      cases ctx with
      | none =>
        exact ih cm saved h (by simpa [ConnManager.run, ConnManager.SaveConn,
          getConnTagFromContext] using hrun)
      | some tag =>
        exact ih _ _ (tracks_store cm saved tag (Conn.mk key infoData value) h)
          (by simpa [ConnManager.run, ConnManager.SaveConn, getConnTagFromContext]
            using hrun)

/-- C11, as stated, fails: after the event of begin for the connection tagged
`1`, with no connection saved, the lookups of the empty key return no error:
`GetConnValue("")` returns the nil value and `GetConnInfo("")` the nil metadata
of the connection that has begun and has not registered. -/
theorem lookup_empty_key_finds_begun_conn :
    ∃ cm, initConnManager.run [RegistryCall.handle (some 1) ConnStats.ConnBegin] = Run.done cm ∧
      savedConns [] [RegistryCall.handle (some 1) ConnStats.ConnBegin] = [] ∧
      [1].Perm (GoMap.keys cm.conns) ∧
      cm.GetConnValue [1] "" = Except.ok none ∧ cm.GetConnInfo [1] "" = Except.ok [] ∧
      ¬ ∃ err, cm.GetConnValue [1] "" = Except.error err := by
  refine ⟨_, rfl, rfl, List.Perm.refl _, by decide, by decide, ?_⟩
  rw [GetConnValue_error_iff]
  decide

theorem begun_begin (cm : ConnManager) (saved : GoMap Tag Conn) (begun : List Tag)
    (tag : Tag) (h : Begun cm saved begun) :
    Begun { cm with conns := GoMap.store cm.conns tag (Conn.mk "" [] none) }
      (GoMap.delete saved tag) (tag :: begun) := by
  intro t
  by_cases ht : t = tag
  · subst ht
    simp only [List.mem_cons, true_or, true_iff]
    exact ⟨GoMap.load_store_self _ _ _, GoMap.load_delete_self _ _⟩
  · show t ∈ tag :: begun ↔ (GoMap.load (GoMap.store cm.conns tag _) t = _ ∧ _)
    rw [GoMap.load_store_ne _ _ ht, GoMap.load_delete_ne _ ht, List.mem_cons]
    simp only [ht, false_or]
    exact h t

theorem begun_end (cm : ConnManager) (saved : GoMap Tag Conn) (begun : List Tag)
    (tag : Tag) (h : Begun cm saved begun) :
    Begun { cm with conns := GoMap.delete cm.conns tag } (GoMap.delete saved tag)
      (begun.filter (fun t => decide (t ≠ tag))) := by
  intro t
  by_cases ht : t = tag
  · subst ht
    show t ∈ _ ↔ (GoMap.load (GoMap.delete cm.conns t) t = _ ∧ _)
    rw [GoMap.load_delete_self]
    simp
  · show t ∈ _ ↔ (GoMap.load (GoMap.delete cm.conns tag) t = _ ∧ _)
    rw [GoMap.load_delete_ne _ ht, GoMap.load_delete_ne _ ht]
    simp only [List.mem_filter, ne_eq, ht, not_false_eq_true, decide_True, and_true]
    exact h t

theorem begun_store (cm : ConnManager) (saved : GoMap Tag Conn) (begun : List Tag)
    (tag : Tag) (conn : Conn) (h : Begun cm saved begun) :
    Begun { cm with conns := GoMap.store cm.conns tag conn } (GoMap.store saved tag conn)
      (begun.filter (fun t => decide (t ≠ tag))) := by
  intro t
  by_cases ht : t = tag
  · subst ht
    have hs : GoMap.load (GoMap.store saved t conn) t = some conn :=
      GoMap.load_store_self _ _ _
    constructor
    · intro hmem
      simp at hmem
    · rintro ⟨_, h2⟩
      rw [hs] at h2
      cases h2
  · show t ∈ _ ↔ (GoMap.load (GoMap.store cm.conns tag conn) t = _ ∧ _)
    rw [GoMap.load_store_ne _ _ ht, GoMap.load_store_ne _ _ ht]
    simp only [List.mem_filter, ne_eq, ht, not_false_eq_true, decide_True, and_true]
    exact h t

theorem run_begun (calls : List RegistryCall) (cm cm2 : ConnManager)
    (saved : GoMap Tag Conn) (begun : List Tag) (h : Begun cm saved begun)
    (hrun : cm.run calls = Run.done cm2) :
    Begun cm2 (savedConns saved calls) (begunTags begun calls) := by
  induction calls generalizing cm saved begun with
  | nil =>
    simp only [ConnManager.run, Run.done.injEq] at hrun
    subst hrun
    exact h
  | cons call calls ih =>
    cases call with
    | handle ctx s =>
      cases ctx with
      | none =>
        cases s <;>
          exact ih cm saved begun h (by simpa [ConnManager.run, ConnManager.HandleConn,
            getConnTagFromContext] using hrun)
      | some tag =>
        cases s with
        | ConnBegin =>
          exact ih _ _ _ (begun_begin cm saved begun tag h)
            (by simpa [ConnManager.run, ConnManager.HandleConn, getConnTagFromContext]
              using hrun)
        | ConnEnd =>
          cases hl : GoMap.load cm.conns tag with
          | none =>
            simp [ConnManager.run, ConnManager.HandleConn, getConnTagFromContext, hl] at hrun
          | some conn =>
            exact ih _ _ _ (begun_end cm saved begun tag h)
              (by simpa [ConnManager.run, ConnManager.HandleConn, getConnTagFromContext, hl]
                using hrun)
        | other =>
          exact ih cm saved begun h (by simpa [ConnManager.run, ConnManager.HandleConn,
            getConnTagFromContext] using hrun)
    | save ctx key infoData value =>
      cases ctx with
      | none =>
        exact ih cm saved begun h (by simpa [ConnManager.run, ConnManager.SaveConn,
          getConnTagFromContext] using hrun)
      | some tag =>
        exact ih _ _ _ (begun_store cm saved begun tag (Conn.mk key infoData value) h)
          (by simpa [ConnManager.run, ConnManager.SaveConn, getConnTagFromContext]
            using hrun)

/-- C11, amended: in every registry state reached from the empty registry by
`HandleConn` and `SaveConn` calls, for every key, the empty string included,
and every order of the lookup, `GetConnValue(key)` and `GetConnInfo(key)`
return an error if and only if no connection saved under that key is
registered and, when the key is the empty string, no connection has begun
without registering. What they return without error is the value and the
metadata of a connection saved under the key or, for the empty key only, the
nil value and the nil metadata of a connection that has begun and has not
registered. So for a key other than the empty string the lookups fail exactly
when no connection saved under the key is registered and never return a
connection that has only begun; for the empty key, with a connection that has
begun and none saved under the empty string, they return nil and no error. -/
theorem lookup_fails_iff_absent (cm0 cm : ConnManager) (calls : List RegistryCall)
    (visit : List Tag) (key : String)
    (h0 : cm0.conns = []) (hrun : cm0.run calls = Run.done cm)
    (hvisit : visit.Perm (GoMap.keys cm.conns)) :
    ((∃ err, cm.GetConnValue visit key = Except.error err) ↔
      (∀ t conn, GoMap.load (savedConns [] calls) t = some conn → conn.Key ≠ key) ∧
        (key = "" → begunTags [] calls = [])) ∧
    ((∃ err, cm.GetConnInfo visit key = Except.error err) ↔
      (∀ t conn, GoMap.load (savedConns [] calls) t = some conn → conn.Key ≠ key) ∧
        (key = "" → begunTags [] calls = [])) ∧
    (∀ value, cm.GetConnValue visit key = Except.ok value →
      (∃ t conn, GoMap.load (savedConns [] calls) t = some conn ∧ conn.Key = key ∧
        conn.Value = value) ∨
      (key = "" ∧ value = none ∧ ∃ t, t ∈ begunTags [] calls)) ∧
    (∀ info, cm.GetConnInfo visit key = Except.ok info →
      (∃ t conn, GoMap.load (savedConns [] calls) t = some conn ∧ conn.Key = key ∧
        conn.Info = info) ∨
      (key = "" ∧ info = [] ∧ ∃ t, t ∈ begunTags [] calls)) ∧
    (key ≠ "" →
      ((∃ err, cm.GetConnValue visit key = Except.error err) ↔
        ∀ t conn, GoMap.load (savedConns [] calls) t = some conn → conn.Key ≠ key) ∧
      ((∃ err, cm.GetConnInfo visit key = Except.error err) ↔
        ∀ t conn, GoMap.load (savedConns [] calls) t = some conn → conn.Key ≠ key) ∧
      (∀ value, cm.GetConnValue visit key = Except.ok value →
        ∃ t conn, GoMap.load (savedConns [] calls) t = some conn ∧ conn.Key = key ∧
          conn.Value = value) ∧
      (∀ info, cm.GetConnInfo visit key = Except.ok info →
        ∃ t conn, GoMap.load (savedConns [] calls) t = some conn ∧ conn.Key = key ∧
          conn.Info = info)) ∧
    (key = "" → begunTags [] calls ≠ [] →
      (∀ t conn, GoMap.load (savedConns [] calls) t = some conn → conn.Key ≠ "") →
      cm.GetConnValue visit key = Except.ok none ∧ cm.GetConnInfo visit key = Except.ok []) := by
  have htr : Tracks cm (savedConns [] calls) :=
    run_tracks calls cm0 cm [] (fun t => Or.inl (by rw [h0])) hrun
  have hbg : Begun cm (savedConns [] calls) (begunTags [] calls) :=
    run_begun calls cm0 cm [] [] (fun t => by simp [h0, GoMap.load]) hrun
  have hsplit : ∀ t conn, GoMap.load cm.conns t = some conn → conn.Key = key →
      GoMap.load (savedConns [] calls) t = some conn ∨
      (key = "" ∧ conn = Conn.mk "" [] none ∧ t ∈ begunTags [] calls) := by
    intro t conn hl hk
    rcases htr t with h1 | ⟨h1, h2⟩
    · exact Or.inl (by rw [← h1]; exact hl)
    · have hc : conn = Conn.mk "" [] none := by
        rw [hl] at h1
        exact Option.some.inj h1
      refine Or.inr ⟨?_, hc, (hbg t).mpr ⟨by rw [hl, hc], h2⟩⟩
      rw [← hk, hc]
  have hentry : (∀ t conn, GoMap.load cm.conns t = some conn → conn.Key ≠ key) ↔
      (∀ t conn, GoMap.load (savedConns [] calls) t = some conn → conn.Key ≠ key) ∧
        (key = "" → begunTags [] calls = []) := by
    constructor
    · intro h
      refine ⟨?_, ?_⟩
      · intro t conn hl hk
        rcases htr t with h1 | ⟨_, h1⟩
        · exact h t conn (h1.trans hl) hk
        · rw [hl] at h1; cases h1
      · intro hk
        rw [List.eq_nil_iff_forall_not_mem]
        intro t ht
        exact h t _ ((hbg t).mp ht).1 hk.symm
    · rintro ⟨h1, h2⟩ t conn hl hk
      rcases hsplit t conn hl hk with h3 | ⟨h3, _, h4⟩
      · exact h1 t conn h3 hk
      · rw [h2 h3] at h4
        cases h4
  have hval : ∀ value, cm.GetConnValue visit key = Except.ok value →
      (∃ t conn, GoMap.load (savedConns [] calls) t = some conn ∧ conn.Key = key ∧
        conn.Value = value) ∨
      (key = "" ∧ value = none ∧ ∃ t, t ∈ begunTags [] calls) := by
    intro value hv
    unfold ConnManager.GetConnValue at hv
    cases hf : (cm.range visit).find? (fun conn => decide (conn.Key = key)) with
    | none => rw [hf] at hv; cases hv
    | some c =>
      rw [hf] at hv
      obtain ⟨hk, t, hl⟩ := range_find_some cm visit key c hf
      rcases hsplit t c hl hk with h3 | ⟨h3, h4, h5⟩
      · exact Or.inl ⟨t, c, h3, hk, Except.ok.inj hv⟩
      · refine Or.inr ⟨h3, ?_, t, h5⟩
        rw [← Except.ok.inj hv, h4]
  have hinfo : ∀ info, cm.GetConnInfo visit key = Except.ok info →
      (∃ t conn, GoMap.load (savedConns [] calls) t = some conn ∧ conn.Key = key ∧
        conn.Info = info) ∨
      (key = "" ∧ info = [] ∧ ∃ t, t ∈ begunTags [] calls) := by
    intro info hv
    unfold ConnManager.GetConnInfo at hv
    cases hf : (cm.range visit).find? (fun conn => decide (conn.Key = key)) with
    | none => rw [hf] at hv; cases hv
    | some c =>
      rw [hf] at hv
      obtain ⟨hk, t, hl⟩ := range_find_some cm visit key c hf
      rcases hsplit t c hl hk with h3 | ⟨h3, h4, h5⟩
      · exact Or.inl ⟨t, c, h3, hk, Except.ok.inj hv⟩
      · refine Or.inr ⟨h3, ?_, t, h5⟩
        rw [← Except.ok.inj hv, h4]
  have hverr : (∃ err, cm.GetConnValue visit key = Except.error err) ↔
      (∀ t conn, GoMap.load (savedConns [] calls) t = some conn → conn.Key ≠ key) ∧
        (key = "" → begunTags [] calls = []) := by
    rw [GetConnValue_error_iff, range_find_none_iff cm visit key hvisit, hentry]
  have hierr : (∃ err, cm.GetConnInfo visit key = Except.error err) ↔
      (∀ t conn, GoMap.load (savedConns [] calls) t = some conn → conn.Key ≠ key) ∧
        (key = "" → begunTags [] calls = []) := by
    rw [GetConnInfo_error_iff, range_find_none_iff cm visit key hvisit, hentry]
  refine ⟨hverr, hierr, hval, hinfo, ?_, ?_⟩
  · intro hkey
    refine ⟨?_, ?_, ?_, ?_⟩
    · rw [hverr]
      exact ⟨fun h => h.1, fun h => ⟨h, fun hk => absurd hk hkey⟩⟩
    · rw [hierr]
      exact ⟨fun h => h.1, fun h => ⟨h, fun hk => absurd hk hkey⟩⟩
    · intro value hv
      rcases hval value hv with h | ⟨h, _⟩
      · exact h
      · exact absurd h hkey
    · intro info hv
      rcases hinfo info hv with h | ⟨h, _⟩
      · exact h
      · exact absurd h hkey
  · intro hkey hne hnone
    subst hkey
    constructor
    · cases hv : cm.GetConnValue visit "" with
      | error e =>
        exact absurd (hverr.mp ⟨e, hv⟩).2 (fun h => hne (h rfl))
      | ok value =>
        rcases hval value hv with ⟨t, conn, h1, h2, _⟩ | ⟨_, h, _⟩
        · exact absurd h2 (hnone t conn h1)
        · rw [h]
    · cases hv : cm.GetConnInfo visit "" with
      | error e =>
        exact absurd (hierr.mp ⟨e, hv⟩).2 (fun h => hne (h rfl))
      | ok info =>
        rcases hinfo info hv with ⟨t, conn, h1, h2, _⟩ | ⟨_, h, _⟩
        · exact absurd h2 (hnone t conn h1)
        · rw [h]

/-- Witness of C11, amended: the connection tagged `1` begins and registers as
"a" and the key "a" is looked up; the connection tagged `1` begins, and the
empty key is looked up. -/
theorem lookup_fails_iff_absent_witness :
    ({ conns := [], onReadyFuncs := ["ready"], onNotReadyFuncs := ["notReady"] } :
        ConnManager).run exampleCalls = Run.done exampleSaved ∧
    [1].Perm (GoMap.keys exampleSaved.conns) ∧ "a" ≠ "" ∧
    ((∃ err, exampleSaved.GetConnValue [1] "a" = Except.error err) ↔
      ∀ t conn, GoMap.load (savedConns [] exampleCalls) t = some conn → conn.Key ≠ "a") ∧
    ((∃ err, exampleSaved.GetConnInfo [1] "a" = Except.error err) ↔
      ∀ t conn, GoMap.load (savedConns [] exampleCalls) t = some conn → conn.Key ≠ "a") ∧
    (∀ value, exampleSaved.GetConnValue [1] "a" = Except.ok value →
      ∃ t conn, GoMap.load (savedConns [] exampleCalls) t = some conn ∧ conn.Key = "a" ∧
        conn.Value = value) ∧
    (∀ info, exampleSaved.GetConnInfo [1] "a" = Except.ok info →
      ∃ t conn, GoMap.load (savedConns [] exampleCalls) t = some conn ∧ conn.Key = "a" ∧
        conn.Info = info) ∧
    begunTags [] [RegistryCall.handle (some 1) ConnStats.ConnBegin] ≠ [] ∧
    exampleBegunServer.connManager.GetConnValue [1] "" = Except.ok none ∧
    exampleBegunServer.connManager.GetConnInfo [1] "" = Except.ok [] :=
  have h := (lookup_fails_iff_absent
      { conns := [], onReadyFuncs := ["ready"], onNotReadyFuncs := ["notReady"] }
      exampleSaved exampleCalls [1] "a" rfl rfl (List.Perm.refl _)).2.2.2.2.1 (by decide)
  have h2 := (lookup_fails_iff_absent initConnManager exampleBegunServer.connManager
      [RegistryCall.handle (some 1) ConnStats.ConnBegin] [1] "" rfl rfl
      (List.Perm.refl _)).2.2.2.2.2 rfl (by decide)
      (by intro t conn hl; simp [savedConns, GoMap.delete, GoMap.load] at hl)
  ⟨rfl, List.Perm.refl _, by decide, h.1, h.2.1, h.2.2.1, h.2.2.2, by decide, h2.1, h2.2⟩

/-- C12: when the entry of the tag `t` is a connection saved under `id` and no
other entry has the key `id`, `HandleConn` with the event of end for `t` returns
(without a panic), the entry of `t` is deleted, `GetConnValue(id)` and
`GetConnInfo(id)` return the not-found error in every order of the lookup, the
entries of all other tags are unchanged, and the goroutine calls each
registered NotReady callback once, in order, with the removed record. -/
theorem HandleConn_end (cm : ConnManager) (t : Tag) (conn : Conn) (id : String)
    (hl : GoMap.load cm.conns t = some conn) (hk : conn.Key = id)
    (hother : ∀ t2 c2, t2 ≠ t → GoMap.load cm.conns t2 = some c2 → c2.Key ≠ id) :
    ∃ cm2 calls, cm.HandleConn (some t) ConnStats.ConnEnd = Run.done (cm2, calls) ∧
      GoMap.load cm2.conns t = none ∧
      (∀ visit, cm2.GetConnValue visit id =
        Except.error ("conn of Key " ++ quoted id ++ " not found")) ∧
      (∀ visit, cm2.GetConnInfo visit id =
        Except.error ("conn of Key " ++ id ++ " not found")) ∧
      (∀ t2, t2 ≠ t → GoMap.load cm2.conns t2 = GoMap.load cm.conns t2) ∧
      calls = cm.onNotReadyFuncs.map (fun f => (f, conn)) ∧
      calls.map Prod.fst = cm.onNotReadyFuncs ∧ (∀ x ∈ calls, x.2 = conn ∧ x.2.Key = id) ∧
      cm2.onNotReadyFuncs = cm.onNotReadyFuncs ∧ cm2.onReadyFuncs = cm.onReadyFuncs := by
  have hnone : ∀ visit,
      (ConnManager.range { cm with conns := GoMap.delete cm.conns t } visit).find?
        (fun c => decide (c.Key = id)) = none := by
    intro visit
    rw [List.find?_eq_none]
    intro c hc
    obtain ⟨t2, _, hl2⟩ := List.mem_filterMap.mp hc
    have hl3 : GoMap.load (GoMap.delete cm.conns t) t2 = some c := hl2
    by_cases ht : t2 = t
    · rw [ht, GoMap.load_delete_self] at hl3
      cases hl3
    · rw [GoMap.load_delete_ne _ ht] at hl3
      simpa using hother t2 c ht hl3
  refine ⟨{ cm with conns := GoMap.delete cm.conns t },
    cm.onNotReadyFuncs.map (fun f => (f, conn)), ?_, ?_, ?_, ?_, ?_, rfl, ?_, ?_, rfl, rfl⟩
  · simp only [ConnManager.HandleConn, getConnTagFromContext, hl]
  · exact GoMap.load_delete_self _ _
  · intro visit
    simp only [ConnManager.GetConnValue, hnone visit]
  · intro visit
    simp only [ConnManager.GetConnInfo, hnone visit]
  · intro t2 ht
    exact GoMap.load_delete_ne _ ht
  · simp [List.map_map, Function.comp_def]
  · intro x hx
    obtain ⟨f, _, rfl⟩ := List.mem_map.mp hx
    exact ⟨rfl, hk⟩

/-- Witness of C12: the connection tagged `1`, saved under "a", ends. -/
theorem HandleConn_end_witness :
    GoMap.load exampleSaved.conns 1 = some (Conn.mk "a" [("zone", "b")] (some 10)) ∧
    ∃ cm2 calls, exampleSaved.HandleConn (some 1) ConnStats.ConnEnd = Run.done (cm2, calls) ∧
      GoMap.load cm2.conns 1 = none ∧
      (∀ visit, cm2.GetConnValue visit "a" =
        Except.error ("conn of Key " ++ quoted "a" ++ " not found")) ∧
      (∀ visit, cm2.GetConnInfo visit "a" =
        Except.error ("conn of Key " ++ "a" ++ " not found")) ∧
      (∀ t2, t2 ≠ 1 → GoMap.load cm2.conns t2 = GoMap.load exampleSaved.conns t2) ∧
      calls = exampleSaved.onNotReadyFuncs.map
        (fun f => (f, Conn.mk "a" [("zone", "b")] (some 10))) ∧
      calls.map Prod.fst = exampleSaved.onNotReadyFuncs ∧
      (∀ x ∈ calls, x.2 = Conn.mk "a" [("zone", "b")] (some 10) ∧ x.2.Key = "a") ∧
      cm2.onNotReadyFuncs = exampleSaved.onNotReadyFuncs ∧
      cm2.onReadyFuncs = exampleSaved.onReadyFuncs :=
  ⟨by decide,
    HandleConn_end exampleSaved 1 (Conn.mk "a" [("zone", "b")] (some 10)) "a" (by decide) rfl
      (by
        intro t2 c2 ht h
        have h1 : ¬ 1 = t2 := fun h2 => ht h2.symm
        simp [exampleSaved, GoMap.load, h1] at h)⟩

/-! ## Server tunnel -/

theorem respAttempts_spec (handle : Nat) (c : CmdPackage) (n : Nat)
    (sends : List (Option String)) (last : String) :
    (respAttempts handle c n sends last).2.length = min (leadingFailures sends + 1) n ∧
    ((respAttempts handle c n sends last).1 = none ↔ leadingFailures sends < n) ∧
    (∀ x ∈ (respAttempts handle c n sends last).2, x.handle = handle ∧ x.pkg = c) ∧
    (respAttempts handle c n sends last).2.map (fun x => x.err) =
      (sends ++ [none]).take (min (leadingFailures sends + 1) n) := by
  induction n generalizing sends last with
  | zero => simp [respAttempts]
  | succ n ih =>
    cases sends with
    | nil => simp [respAttempts, leadingFailures]
    | cons r rest =>
      cases r with
      | none => simp [respAttempts, leadingFailures]
      | some err =>
        obtain ⟨h1, h2, h3, h4⟩ := ih rest err
        have hk : leadingFailures (some err :: rest) = leadingFailures rest + 1 := by
          simp [leadingFailures, List.takeWhile_cons]
        have hmin : min (leadingFailures rest + 1 + 1) (n + 1) =
            min (leadingFailures rest + 1) n + 1 := by omega
        refine ⟨?_, ?_, ?_, ?_⟩
        · simp only [respAttempts, List.headD_cons, List.tail_cons, List.length_cons, h1, hk,
            hmin]
        · simp only [respAttempts, List.headD_cons, List.tail_cons, h2, hk]
          omega
        · intro x hx
          simp only [respAttempts, List.headD_cons, List.tail_cons, List.mem_cons] at hx
          rcases hx with hx | hx
          · rw [hx]; exact ⟨rfl, rfl⟩
          · exact h3 x hx
        · simp only [respAttempts, List.headD_cons, List.tail_cons, List.map_cons, h4, hk,
            hmin, List.cons_append, List.take_succ_cons]

/-- C13: `respCmd` looks up the stream registered under `c.Caller`. When no
entry of the registry has that key it returns an "agent ... connection is
lost" error and calls `Send` zero times. When the lookup returns the stream
`handle`, every `Send` is a call on that stream with the package `c`; with `k`
failures before the first success it makes `min(k+1, 3)` calls, the results of
the first calls of the script, returns nil exactly when `k < 3`, and otherwise
returns the "retry 3 times" error after exactly 3 calls. -/
theorem respCmd_delivery (cs : cmdServer) (visit : List Tag) (c : CmdPackage)
    (sends : List (Option String)) :
    ((∀ t conn, GoMap.load cs.connManager.conns t = some conn → conn.Key ≠ c.Caller) →
      cs.respCmd visit c sends =
        Run.done (some ("agent " ++ quoted c.Caller ++ " connection is lost: " ++
          ("conn of Key " ++ quoted c.Caller ++ " not found")), [])) ∧
    (∀ handle, cs.connManager.GetConnValue visit c.Caller = Except.ok (some handle) →
      ∃ err calls, cs.respCmd visit c sends = Run.done (err, calls) ∧
        (∀ x ∈ calls, x.handle = handle ∧ x.pkg = c) ∧
        calls.length = min (leadingFailures sends + 1) 3 ∧
        calls.map (fun x => x.err) =
          (sends ++ [none]).take (min (leadingFailures sends + 1) 3) ∧
        (err = none ↔ leadingFailures sends < 3) ∧
        (3 ≤ leadingFailures sends → calls.length = 3 ∧
          ∃ last, err = some ("retry 3 times response cmd to agent " ++ c.Caller ++
            " failed: " ++ last))) := by
  constructor
  · intro habs
    have hnone : (cs.connManager.range visit).find? (fun conn => decide (conn.Key = c.Caller)) =
        none := by
      rw [List.find?_eq_none]
      intro conn hc
      obtain ⟨t, _, hl⟩ := List.mem_filterMap.mp hc
      simpa using habs t conn hl
    simp only [cmdServer.respCmd, ConnManager.GetConnValue, hnone]
  · intro handle hv
    obtain ⟨h1, h2, h3, h4⟩ := respAttempts_spec handle c 3 sends ""
    cases hr : respAttempts handle c 3 sends "" with
    | mk e calls =>
      rw [hr] at h1 h2 h3 h4
      cases e with
      | none =>
        refine ⟨none, calls, by simp only [cmdServer.respCmd, hv, hr], h3, h1, h4, ?_, ?_⟩
        · simpa using h2
        · intro hk
          have := h2.mp rfl
          omega
      | some last =>
        refine ⟨some ("retry 3 times response cmd to agent " ++ c.Caller ++ " failed: " ++ last),
          calls, by simp only [cmdServer.respCmd, hv, hr], h3, h1, h4, ?_, ?_⟩
        · have hnot : ¬ leadingFailures sends < 3 := fun hk => by
            have := h2.mpr hk
            cases this
          simpa using hnot
        · intro hk
          refine ⟨?_, last, rfl⟩
          rw [h1]
          omega

/-- Witness of C13: the first `Send` to the agent "a" fails, the second
succeeds. -/
theorem respCmd_delivery_witness :
    exampleServer.connManager.GetConnValue [1] exampleReply.Caller = Except.ok (some 10) ∧
    ((∀ t conn, GoMap.load exampleServer.connManager.conns t = some conn →
        conn.Key ≠ exampleReply.Caller) →
      exampleServer.respCmd [1] exampleReply [some "broken pipe", none] =
        Run.done (some ("agent " ++ quoted exampleReply.Caller ++ " connection is lost: " ++
          ("conn of Key " ++ quoted exampleReply.Caller ++ " not found")), [])) ∧
    (∀ handle,
      exampleServer.connManager.GetConnValue [1] exampleReply.Caller = Except.ok (some handle) →
      ∃ err calls, exampleServer.respCmd [1] exampleReply [some "broken pipe", none] =
          Run.done (err, calls) ∧
        (∀ x ∈ calls, x.handle = handle ∧ x.pkg = exampleReply) ∧
        calls.length = min (leadingFailures [some "broken pipe", none] + 1) 3 ∧
        calls.map (fun x => x.err) =
          ([some "broken pipe", none] ++ [none]).take
            (min (leadingFailures [some "broken pipe", none] + 1) 3) ∧
        (err = none ↔ leadingFailures [some "broken pipe", none] < 3) ∧
        (3 ≤ leadingFailures [some "broken pipe", none] → calls.length = 3 ∧
          ∃ last, err = some ("retry 3 times response cmd to agent " ++ exampleReply.Caller ++
            " failed: " ++ last))) :=
  ⟨by decide, respCmd_delivery exampleServer [1] exampleReply [some "broken pipe", none]⟩

/-- C14, at the failing input: a connection has begun and has not registered,
so no connection is saved under any identity; `reqCmd` for a package with an
empty Executor does not return an error: the lookup of "" finds the empty
record, whose nil value is asserted to be a stream, and the call panics.
`respCmd` on the same registry, which tests the value for nil, returns the
"connection is lost" error. -/
theorem reqCmd_empty_executor_panics :
    initConnManager.run [RegistryCall.handle (some 1) ConnStats.ConnBegin] =
      Run.done exampleBegunServer.connManager ∧
    savedConns [] [RegistryCall.handle (some 1) ConnStats.ConnBegin] = [] ∧
    exampleUnaddressed.Executor = "" ∧
    exampleBegunServer.reqCmd [1] exampleUnaddressed [] =
      Run.panic "interface conversion: interface is nil, not v1.CmdManager_ExecuteServer" ∧
    exampleBegunServer.respCmd [1] { exampleReply with Caller := "" } [] =
      Run.done (some "agent \"\" connection is lost: <nil>", []) := by
  refine ⟨rfl, rfl, rfl, ?_, ?_⟩
  · have h : exampleBegunServer.connManager.GetConnValue [1] exampleUnaddressed.Executor =
        Except.ok none := by decide
    simp only [cmdServer.reqCmd, h]
  · have h : exampleBegunServer.connManager.GetConnValue [1] "" = Except.ok none := by decide
    simp only [cmdServer.respCmd, h, quoted]
    rfl

/-! ## Command manager: closing a stream -/

theorem pow_min_six (k : Nat) : 2 ^ min k 6 = min (2 ^ k) 64 := by
  by_cases h : k ≤ 6
  · have h1 : (2 : Nat) ^ k ≤ 2 ^ 6 := Nat.pow_le_pow_right (by decide) h
    rw [Nat.min_eq_left h, Nat.min_eq_left (by simpa using h1)]
  · have h1 : (2 : Nat) ^ 6 ≤ 2 ^ k := Nat.pow_le_pow_right (by decide) (by omega)
    rw [Nat.min_eq_right (by omega), Nat.min_eq_right (by simpa using h1)]
    rfl

/-- The seconds slept by the loop of `closeCmdStream` from a counter `m` in
`0..7`. -/
theorem closeLoop_slept (req : CmdPackage) (sends : List (Option String)) (m : Nat)
    (hm : m ≤ 7) :
    (closeLoop req (m : Int) sends).slept =
      (List.range (leadingFailures sends)).map (fun j => 2 ^ min (m + j) 6) := by
  induction sends generalizing m with
  | nil => simp [closeLoop, leadingFailures]
  | cons r rest ih =>
    cases r with
    | none => simp [closeLoop, leadingFailures]
    | some err =>
      have hk : leadingFailures (some err :: rest) = leadingFailures rest + 1 := by
        simp [leadingFailures, List.takeWhile_cons]
      have hi : (if (m : Int) > 6 then (6 : Int) else (m : Int)) = ((min m 6 : Nat) : Int) := by
        split <;> omega
      have hnext : ((min m 6 : Nat) : Int) + 1 = ((min m 6 + 1 : Nat) : Int) := by
        push_cast; rfl
      have hpos : (m : Int) ≥ 0 := Int.ofNat_nonneg m
      simp only [closeLoop, hpos, if_true, hi, hnext, Int.toNat_ofNat, Nat.one_shiftLeft]
      rw [ih (min m 6 + 1) (by omega), hk, List.range_succ_eq_map, List.map_cons, List.map_map]
      have hhead : (2 : Nat) ^ min m 6 = 2 ^ min (m + 0) 6 := by rw [Nat.add_zero]
      rw [hhead]
      refine congrArg _ (List.map_congr_left ?_)
      intro j _
      show (2 : Nat) ^ min (min m 6 + 1 + j) 6 = 2 ^ min (m + (j + 1)) 6
      have hj : min (min m 6 + 1 + j) 6 = min (m + (j + 1)) 6 := by omega
      rw [hj]

/-- The seconds slept after the sends that fail, with the script `sends`:
how many, and which. -/
theorem closeCmdStream_slept (cmd : CmdPackage) (sends : List (Option String)) :
    (closeCmdStream cmd sends).slept =
      (List.range (leadingFailures sends)).map (fun k => min (2 ^ k) 64) := by
  unfold closeCmdStream
  have := closeLoop_slept
    { UUID := cmd.UUID, Name := CloseStream, Args := [], Caller := cmd.Caller,
      Executor := cmd.Executor, Type_ := CmdType.REQUEST, RespCode := 0, RespMsg := "",
      RespData := [], Stream := false } sends 0 (by omega)
  simp only [Nat.cast_zero, Nat.zero_add] at this
  rw [this]
  apply List.map_congr_left
  intro k _
  exact pow_min_six k

/-- C15: in `closeCmdStream` the wait that follows the k-th failed send of the
"close" command (k = 0, 1, 2, ...) is `min(2^k, 64)` seconds: 1, 2, 4, 8, 16,
32, 64, 64, ...; no wait exceeds 64 seconds and the waits never decrease. -/
theorem closeCmdStream_backoff (cmd : CmdPackage) (sends : List (Option String)) :
    (closeCmdStream cmd sends).slept.length = leadingFailures sends ∧
    (∀ k, k < leadingFailures sends →
      (closeCmdStream cmd sends).slept[k]? = some (min (2 ^ k) 64)) ∧
    (closeCmdStream cmd sends).slept.take 9 =
      [1, 2, 4, 8, 16, 32, 64, 64, 64].take (leadingFailures sends) ∧
    (∀ d ∈ (closeCmdStream cmd sends).slept, d ≤ 64) ∧
    List.Pairwise (fun a b => a ≤ b) (closeCmdStream cmd sends).slept := by
  rw [closeCmdStream_slept]
  refine ⟨by simp, ?_, ?_, ?_, ?_⟩
  · intro k hk
    simp [List.getElem?_map, List.getElem?_range hk]
  · have h9 : [1, 2, 4, 8, 16, 32, 64, 64, 64] =
        (List.range 9).map (fun k => min (2 ^ k) 64) := by decide
    rw [h9, ← List.map_take, ← List.map_take, List.take_range, List.take_range, Nat.min_comm]
  · intro d hd
    obtain ⟨k, _, rfl⟩ := List.mem_map.mp hd
    exact Nat.min_le_right _ _
  · refine List.Pairwise.map _ ?_ (List.pairwise_lt_range _)
    intro a b hab
    have h1 : (2 : Nat) ^ a ≤ 2 ^ b := Nat.pow_le_pow_right (by decide) (le_of_lt hab)
    exact min_le_min h1 (le_refl _)

/-- Witness of C15: eight sends fail before the ninth succeeds. -/
theorem closeCmdStream_backoff_witness :
    (closeCmdStream (examplePackage "7" "tail")
      (List.replicate 8 (some "unavailable"))).slept = [1, 2, 4, 8, 16, 32, 64, 64] := by
  have h := (closeCmdStream_backoff (examplePackage "7" "tail")
    (List.replicate 8 (some "unavailable"))).2.2.1
  have hlen := (closeCmdStream_backoff (examplePackage "7" "tail")
    (List.replicate 8 (some "unavailable"))).1
  have hk : leadingFailures (List.replicate 8 (some "unavailable")) = 8 := by decide
  rw [hk] at h hlen
  rw [List.take_of_length_le (by omega)] at h
  exact h

/-- C16, as stated, fails: the executor tracks the stream of the request `7`;
after `exec` has run the built-in handler of "close" for the id `7`, which
answers "ok", the table of streams still holds an entry for `7`. -/
theorem close_keeps_stream_entry :
    GoMap.load tailResult.e.cmdHandlers "close" = some Handler.closeSteamHandler ∧
    GoMap.load tailResult.e.streams "7" = some tailStream ∧
    ∃ r, tailResult.e.exec (examplePackage "7" "close") = Run.done r ∧
      r.resp = some (RespSucceed "ok") ∧
      GoMap.load r.e.streams "7" = some tailStream.close ∧
      (GoMap.load r.e.streams "7").isSome = true := by
  refine ⟨by rfl, by decide, _, rfl, rfl, by decide, by decide⟩

/-- C16, amended: when a stream is tracked under the UUID of the request, the
built-in handler of "close" answers `RespSucceed("ok")` with no completion
callback and closes that stream; the table of streams keeps the entry, which
now holds the closed stream, and the entries of other ids are unchanged. The
same holds for `exec` on a "close" package when the built-in handler is the one
registered. -/
theorem close_closes_stream (e : executor) (req : Req) (st : streamer) (cmd : CmdPackage)
    (hst : GoMap.load e.streams req.UUID = some st) :
    (e.closeSteamHandler req).2 = (some (RespSucceed "ok"), none) ∧
    GoMap.load (e.closeSteamHandler req).1.streams req.UUID = some st.close ∧
    st.close.closed = true ∧ st.close.readers = st.readers ∧
    (∀ id, id ≠ req.UUID →
      GoMap.load (e.closeSteamHandler req).1.streams id = GoMap.load e.streams id) ∧
    (e.closeSteamHandler req).1.cmdHandlers = e.cmdHandlers ∧
    (GoMap.load e.cmdHandlers cmd.Name = some Handler.closeSteamHandler →
      cmd.UUID = req.UUID →
      ∃ r, e.exec cmd = Run.done r ∧ r.resp = some (RespSucceed "ok") ∧
        GoMap.load r.e.streams req.UUID = some st.close ∧
        ∀ id, id ≠ req.UUID → GoMap.load r.e.streams id = GoMap.load e.streams id) := by
  have hh : e.closeSteamHandler req =
      ({ e with streams := GoMap.store e.streams req.UUID st.close },
        some (RespSucceed "ok"), none) := by
    simp only [executor.closeSteamHandler, hst]
  rw [hh]
  refine ⟨rfl, GoMap.load_store_self _ _ _, rfl, rfl,
    fun id hid => GoMap.load_store_ne _ _ hid, rfl, ?_⟩
  intro hcmd hid
  have hst2 : GoMap.load e.streams cmd.UUID = some st := by rw [hid]; exact hst
  simp only [executor.exec, hcmd, Handler.call, executor.closeSteamHandler, hst2, RespSucceed]
  refine ⟨_, rfl, rfl, ?_, ?_⟩
  · show GoMap.load (GoMap.store e.streams cmd.UUID st.close) req.UUID = some st.close
    rw [hid]
    exact GoMap.load_store_self _ _ _
  · intro id hne
    show GoMap.load (GoMap.store e.streams cmd.UUID st.close) id = GoMap.load e.streams id
    rw [hid]
    exact GoMap.load_store_ne _ _ hne

/-- Witness of C16, amended: the stream of the request `7` is closed. -/
theorem close_closes_stream_witness :
    GoMap.load tailResult.e.streams "7" = some tailStream ∧
    GoMap.load (tailResult.e.closeSteamHandler
        { UUID := "7", Name := "close", Args := [], Caller := "srv", Executor := "agent" }
      ).1.streams "7" = some tailStream.close ∧
    tailStream.close.closed = true :=
  ⟨by decide,
    (close_closes_stream tailResult.e
      { UUID := "7", Name := "close", Args := [], Caller := "srv", Executor := "agent" }
      tailStream (examplePackage "7" "close") (by decide)).2.1,
    (close_closes_stream tailResult.e
      { UUID := "7", Name := "close", Args := [], Caller := "srv", Executor := "agent" }
      tailStream (examplePackage "7" "close") (by decide)).2.2.1⟩

/-- The first `Close` of a stream call returns nil and ends the goroutine that
waits on `resp.close`; a second `Close` closes the stream again and then waits
forever on the send to `resp.close`; it changes neither the manager nor the
runs of `closeCmdStream`. -/
theorem Close_twice (sc : StreamCall) (sends1 sends2 : List (Option String))
    (hc : sc.resp.close = true) (hw : sc.watching = true) :
    (sc.Close sends1).2 = CloseOutcome.returned none ∧
    (sc.Close sends1).1.closeRuns = sc.closeRuns ++ [closeCmdStream sc.c sends1] ∧
    (sc.Close sends1).1.cm = (sc.cm.safeCloseBuffer sc.c).1 ∧
    ((sc.Close sends1).1.Close sends2).2 = CloseOutcome.blocked ∧
    ((sc.Close sends1).1.Close sends2).1.cm = (sc.Close sends1).1.cm ∧
    ((sc.Close sends1).1.Close sends2).1.closeRuns = (sc.Close sends1).1.closeRuns := by
  have h1 : sc.Close sends1 =
      ({ cm := (sc.cm.safeCloseBuffer sc.c).1, c := sc.c,
         resp := { sc.resp with stream := sc.resp.stream.map streamer.close },
         watching := false,
         closeRuns := sc.closeRuns ++ [closeCmdStream sc.c sends1] },
        CloseOutcome.returned none) := by
    simp [StreamCall.Close, hc, hw]
  rw [h1]
  refine ⟨rfl, rfl, rfl, ?_, ?_, ?_⟩ <;> simp [StreamCall.Close]

/-- C17, at the failing input: `waitForResp` returns a stream Resp for the
request `1`; the first `Close()` returns nil, removes the pending entry and
runs `closeCmdStream` once; the second `Close()` does not return: it waits
forever on the send to `resp.close`, which the goroutine of `waitForResp`
received from only once. It removes no entry and sends no second "close"
command. -/
theorem second_Close_blocks :
    ∃ sc, StreamCall.ofWait
        ((newCmdManager "srv").waitForResp (examplePackage "1" "tail") 1 [exampleChunk])
        (examplePackage "1" "tail") = some sc ∧
      sc.resp.IsStream = true ∧
      (sc.Close []).2 = CloseOutcome.returned none ∧
      GoMap.load (sc.Close []).1.cm.respBuffers "1" = none ∧
      (sc.Close []).1.closeRuns.length = 1 ∧
      ((sc.Close []).1.Close []).2 = CloseOutcome.blocked ∧
      ((sc.Close []).1.Close []).2 ≠ CloseOutcome.returned none ∧
      ((sc.Close []).1.Close []).1.closeRuns.length = 1 := by
  refine ⟨_, rfl, by decide, by decide, by decide, by decide, by decide, by decide, by decide⟩

/-- C18, as stated, fails: `NewResp(200, "ok", "X")` has the non-empty Data "X"
and is a stream. -/
theorem NewResp_data_and_stream :
    (NewResp 200 "ok" "X" []).Data = "X" ∧ (NewResp 200 "ok" "X" []).Data ≠ "" ∧
    (NewResp 200 "ok" "X" []).IsStream = true ∧ ¬ (NewResp 200 "ok" "X" []).Exclusive := by
  refine ⟨rfl, by decide, rfl, by decide⟩

/-- C18, amended: every Resp produced by `RespSucceed`, `RespNotFound`,
`RespFailed`, `RespError` and `RespStream`, and every Resp that `waitForResp`
builds from a first chunk, never has both a non-empty Data and
`IsStream() = true`: the first four are not streams, the last two have an empty
Data when they are streams. `NewResp` always returns a stream that carries the
Data given, so it has both whenever that Data is not empty. -/
theorem constructors_exclusive (data err msg : String) (code : Int)
    (reader : List (List Char)) (cb : CmdPackage) :
    (RespSucceed data).Exclusive ∧ (RespSucceed data).IsStream = false ∧
    RespNotFound.Exclusive ∧ RespNotFound.IsStream = false ∧
    RespFailed.Exclusive ∧ RespFailed.IsStream = false ∧
    (RespError err).Exclusive ∧ (RespError err).IsStream = false ∧
    (RespStream reader).Exclusive ∧ (RespStream reader).Data = "" ∧
    (firstResp cb).Exclusive ∧ ((firstResp cb).IsStream = true → (firstResp cb).Data = "") ∧
    (NewResp code msg data reader).IsStream = true ∧
    (NewResp code msg data reader).Data = data ∧
    ((NewResp code msg data reader).Exclusive ↔ data = "") := by
  refine ⟨?_, rfl, ?_, rfl, ?_, rfl, ?_, rfl, ?_, rfl, ?_, ?_, rfl, rfl, ?_⟩
  · simp [Resp.Exclusive, RespSucceed, Resp.IsStream]
  · simp [Resp.Exclusive, RespNotFound, Resp.IsStream]
  · simp [Resp.Exclusive, RespFailed, Resp.IsStream]
  · simp [Resp.Exclusive, RespError, Resp.IsStream]
  · simp [Resp.Exclusive, RespStream]
  · by_cases hs : cb.Stream = true
    · simp [Resp.Exclusive, firstResp, hs]
    · simp [Resp.Exclusive, firstResp, hs, Resp.IsStream]
  · by_cases hs : cb.Stream = true
    · simp [firstResp, hs]
    · simp [firstResp, hs, Resp.IsStream]
  · simp [Resp.Exclusive, NewResp, Resp.IsStream]

/-! ## Command manager: receiving -/

/-- C19: `onReceive` returns (unless `recv` returned a nil package with a nil
error) and returns exactly the pair that `recv` produced. It starts
`processReq` on the package if and only if `recv` returned no error, the Name
is not "register" and the Type is REQUEST; it starts `processResp`, the write
to the pending queue of the UUID, if and only if there is no error, the Name
is not "register" and the Type is RESPONSE. In every other case (an error, a
"register" message, another Type) it starts nothing and the manager is
unchanged. -/
theorem onReceive_dispatch (cm : cmdManager) (recv : Option CmdPackage × Option String)
    (results : List (Option String)) (ticks : List Nat) :
    (recv ≠ (none, none) → ∃ r, cm.onReceive recv results ticks = Run.done r) ∧
    ∀ r, cm.onReceive recv results ticks = Run.done r →
      r.ret = recv ∧
      (r.request.isSome = true ↔
        recv.2 = none ∧ ∃ p, recv.1 = some p ∧ p.Name ≠ "register" ∧
          p.Type_ = CmdType.REQUEST) ∧
      (r.response.isSome = true ↔
        recv.2 = none ∧ ∃ p, recv.1 = some p ∧ p.Name ≠ "register" ∧
          p.Type_ = CmdType.RESPONSE) ∧
      (∀ p, recv = (some p, none) → p.Name ≠ "register" → p.Type_ = CmdType.REQUEST →
        r.request = some (cm.processReq p results ticks) ∧
        r.cm = ranReq cm (cm.processReq p results ticks)) ∧
      (∀ p, recv = (some p, none) → p.Name ≠ "register" → p.Type_ = CmdType.RESPONSE →
        r.response = some (cm.safeWriteBuffer p).2 ∧ r.cm = cm.processResp p) ∧
      (r.request = none → r.response = none → r.cm = cm) := by
  obtain ⟨pkg, err⟩ := recv
  cases err with
  | some e =>
    refine ⟨fun _ => by simp only [cmdManager.onReceive]; exact ⟨_, rfl⟩, ?_⟩
    intro r hr
    simp only [cmdManager.onReceive, Run.done.injEq] at hr
    subst hr
    simp
  | none =>
    cases pkg with
    | none =>
      refine ⟨fun h => absurd rfl h, ?_⟩
      intro r hr
      simp [cmdManager.onReceive] at hr
    | some p =>
      by_cases hn : p.Name = "register"
      · refine ⟨fun _ => by
          simp only [cmdManager.onReceive, Register, hn, if_true]; exact ⟨_, rfl⟩, ?_⟩
        intro r hr
        simp only [cmdManager.onReceive, Register, hn, if_true, Run.done.injEq] at hr
        subst hr
        simp [hn]
      · cases ht : p.Type_ with
        | REQUEST =>
          refine ⟨fun _ => by
            simp only [cmdManager.onReceive, Register, hn, if_false, ht]; exact ⟨_, rfl⟩, ?_⟩
          intro r hr
          simp only [cmdManager.onReceive, Register, hn, if_false, ht, Run.done.injEq] at hr
          subst hr
          simp [hn, ht]
        | RESPONSE =>
          refine ⟨fun _ => by
            simp only [cmdManager.onReceive, Register, hn, if_false, ht]; exact ⟨_, rfl⟩, ?_⟩
          intro r hr
          simp only [cmdManager.onReceive, Register, hn, if_false, ht, Run.done.injEq] at hr
          subst hr
          simp [hn, ht]
        | other v =>
          refine ⟨fun _ => by
            simp only [cmdManager.onReceive, Register, hn, if_false, ht]; exact ⟨_, rfl⟩, ?_⟩
          intro r hr
          simp only [cmdManager.onReceive, Register, hn, if_false, ht, Run.done.injEq] at hr
          subst hr
          simp [hn, ht]

/-- Witness of C19: a RESPONSE package for the id `1` arrives while the queue
of `1` is registered. -/
theorem onReceive_dispatch_witness :
    ∃ r, ((newCmdManager "srv").register "1").onReceive (some (exampleResponse "1" "X"), none)
        [] [] = Run.done r ∧
      r.ret = (some (exampleResponse "1" "X"), none) ∧
      r.response = some WriteResult.written ∧ r.request = none ∧
      GoMap.load r.cm.respBuffers "1" = some [exampleResponse "1" "X"] := by
  obtain ⟨r, hr⟩ := (onReceive_dispatch ((newCmdManager "srv").register "1")
    (some (exampleResponse "1" "X"), none) [] []).1 (by decide)
  obtain ⟨h1, h2, _, _, h5, _⟩ := (onReceive_dispatch ((newCmdManager "srv").register "1")
    (some (exampleResponse "1" "X"), none) [] []).2 r hr
  obtain ⟨h6, h7⟩ := h5 (exampleResponse "1" "X") rfl (by decide) rfl
  refine ⟨r, hr, h1, ?_, ?_, ?_⟩
  · rw [h6]; decide
  · cases hq : r.request with
    | none => rfl
    | some x =>
      have := h2.mp (by rw [hq]; rfl)
      obtain ⟨_, p, hp, _, hty⟩ := this
      cases hp
      exact absurd hty (by decide)
  · rw [h7]; decide

/-! ## Client tunnel -/

/-- The goroutine of `fireOnReady` calls the first hook only. -/
theorem fireLoop_first (stopped : Bool) (hooks : List String) :
    (fireLoop stopped hooks).1 = hooks.take 1 ∧
    ((fireLoop stopped hooks).2 = true ↔ (hooks = [] ∨ stopped = true)) := by
  cases hooks with
  | nil => simp [fireLoop]
  | cons f rest => cases stopped <;> simp [fireLoop]

/-- C20, at the failing input: the hooks "f" and "g" are registered, in this
order, through `OnReady` and through `OnNotReady`, and the stop signal is not
raised. A successful registration (`fireOnReady`) calls "f" only, and so does a
connection failure (`fireOnNotReady`): after the first hook the goroutine waits
on the stop channel, and when the signal is raised it returns without calling
"g". -/
theorem fire_calls_first_hook_only :
    exampleClient.onReadyFuncs = ["f", "g"] ∧ exampleClient.onNotReadyFuncs = ["f", "g"] ∧
    exampleClient.fireOnReady false = (["f"], false) ∧
    exampleClient.fireOnNotReady false = (["f"], false) ∧
    (exampleClient.fireOnReady false).1 ≠ exampleClient.onReadyFuncs ∧
    exampleClient.fireOnReady true = (["f"], true) ∧
    exampleClient.fireOnNotReady true = (["f"], true) := by
  refine ⟨rfl, rfl, rfl, rfl, by decide, rfl, rfl⟩

/-! ## Command manager: the retry loop, empty streams, nil responses -/

theorem leadingFailures_cons_some (err : String) (rest : List (Option String)) :
    leadingFailures (some err :: rest) = leadingFailures rest + 1 := by
  simp [leadingFailures, List.takeWhile_cons]

/-- The sends of the loop of `closeCmdStream` from a counter `m` in `0..7`:
the failures of the script, then one send that succeeds. -/
theorem closeLoop_sent (req : CmdPackage) (sends : List (Option String)) (m : Nat) :
    (closeLoop req (m : Int) sends).sent =
      (sends.take (leadingFailures sends)).map (fun r => (req, r)) ++ [(req, none)] := by
  induction sends generalizing m with
  | nil => simp [closeLoop, leadingFailures]
  | cons r rest ih =>
    cases r with
    | none => simp [closeLoop, leadingFailures]
    | some err =>
      have hi : (if (m : Int) > 6 then (6 : Int) else (m : Int)) = ((min m 6 : Nat) : Int) := by
        split <;> omega
      have hnext : ((min m 6 : Nat) : Int) + 1 = ((min m 6 + 1 : Nat) : Int) := by
        push_cast; rfl
      have hpos : (m : Int) ≥ 0 := Int.ofNat_nonneg m
      simp only [closeLoop, hpos, if_true, hi, hnext]
      rw [ih (min m 6 + 1), leadingFailures_cons_some, List.take_succ_cons, List.map_cons,
        List.cons_append]

theorem take_leadingFailures_failed (sends : List (Option String)) :
    ∀ r ∈ sends.take (leadingFailures sends), r.isSome = true := by
  induction sends with
  | nil => simp
  | cons r rest ih =>
    cases r with
    | none => simp [leadingFailures]
    | some err =>
      rw [leadingFailures_cons_some, List.take_succ_cons]
      intro x hx
      rw [List.mem_cons] at hx
      rcases hx with hx | hx
      · rw [hx]; rfl
      · exact ih x hx

theorem le_leadingFailures (sends : List (Option String)) (n : Nat)
    (h : ∀ k, k < n → ∃ err, sends[k]? = some (some err)) : n ≤ leadingFailures sends := by
  induction sends generalizing n with
  | nil =>
    cases n with
    | zero => exact Nat.zero_le _
    | succ n =>
      obtain ⟨err, he⟩ := h 0 (Nat.succ_pos n)
      simp at he
  | cons r rest ih =>
    cases n with
    | zero => exact Nat.zero_le _
    | succ n =>
      obtain ⟨err, he⟩ := h 0 (Nat.succ_pos n)
      simp only [List.getElem?_cons_zero, Option.some.injEq] at he
      subst he
      rw [leadingFailures_cons_some]
      have := ih n (fun k hk => by
        obtain ⟨e, hke⟩ := h (k + 1) (Nat.succ_lt_succ hk)
        exact ⟨e, by simpa using hke⟩)
      omega

theorem closeCmdStream_sent (cmd : CmdPackage) (sends : List (Option String)) :
    ∃ req : CmdPackage, req.Name = "close" ∧ req.UUID = cmd.UUID ∧
      req.Type_ = CmdType.REQUEST ∧
      (closeCmdStream cmd sends).sent =
        (sends.take (leadingFailures sends)).map (fun r => (req, r)) ++ [(req, none)] := by
  have hsent := closeLoop_sent
    (CmdPackage.mk cmd.UUID CloseStream [] cmd.Caller cmd.Executor CmdType.REQUEST 0 "" []
      false) sends 0
  rw [Nat.cast_zero] at hsent
  exact ⟨CmdPackage.mk cmd.UUID CloseStream [] cmd.Caller cmd.Executor CmdType.REQUEST 0 "" []
    false, rfl, rfl, rfl, hsent⟩

theorem take_leadingFailures_length (sends : List (Option String)) :
    (sends.take (leadingFailures sends)).length = leadingFailures sends := by
  rw [List.length_take]
  exact Nat.min_eq_left (by
    unfold leadingFailures
    exact (List.takeWhile_sublist _).length_le)

theorem leadingFailures_replicate (n : Nat) (err : String) :
    leadingFailures (List.replicate n (some err)) = n := by
  induction n with
  | zero => rfl
  | succ n ih => rw [List.replicate_succ, leadingFailures_cons_some, ih]

/-- C26: `closeCmdStream` ends with a send of the "close" command that
succeeded, after the sends that failed: its sends are the failures of the
script followed by one success, so the counter of the loop never ends it. For
every `n`, when the first `n` sends fail an `(n+1)`-th send is made, and with
`n` failures in a row the call makes `n+1` sends and sleeps `n` times. -/
theorem closeCmdStream_retries (cmd : CmdPackage) (sends : List (Option String)) :
    (∃ req failed, (closeCmdStream cmd sends).sent = failed ++ [(req, none)] ∧
      req.Name = "close" ∧ req.UUID = cmd.UUID ∧ req.Type_ = CmdType.REQUEST ∧
      failed.length = leadingFailures sends ∧
      (∀ x ∈ failed, x.1 = req ∧ x.2.isSome = true)) ∧
    (closeCmdStream cmd sends).sent.length = leadingFailures sends + 1 ∧
    (closeCmdStream cmd sends).slept.length = leadingFailures sends ∧
    (∀ n, (∀ k, k < n → ∃ err, sends[k]? = some (some err)) →
      n + 1 ≤ (closeCmdStream cmd sends).sent.length) ∧
    (∀ n err, (closeCmdStream cmd (List.replicate n (some err))).sent.length = n + 1) := by
  obtain ⟨req, h1, h2, h3, hs⟩ := closeCmdStream_sent cmd sends
  have hsentlen : (closeCmdStream cmd sends).sent.length = leadingFailures sends + 1 := by
    rw [hs, List.length_append, List.length_map, take_leadingFailures_length]
    rfl
  refine ⟨⟨req, _, hs, h1, h2, h3, by rw [List.length_map, take_leadingFailures_length], ?_⟩,
    hsentlen, ?_, ?_, ?_⟩
  · intro x hx
    obtain ⟨r, hr, rfl⟩ := List.mem_map.mp hx
    exact ⟨rfl, take_leadingFailures_failed sends r hr⟩
  · rw [closeCmdStream_slept]
    simp
  · intro n hn
    rw [hsentlen]
    have := le_leadingFailures sends n hn
    omega
  · intro n err
    obtain ⟨req2, _, _, _, hs2⟩ := closeCmdStream_sent cmd (List.replicate n (some err))
    rw [hs2, List.length_append, List.length_map, take_leadingFailures_length,
      leadingFailures_replicate]
    rfl

/-- Witness of C26: five sends fail. -/
theorem closeCmdStream_retries_witness :
    (∀ k, k < 5 → ∃ err, (List.replicate 5 (some "unavailable"))[k]? = some (some err)) ∧
    5 + 1 ≤ (closeCmdStream (examplePackage "7" "tail")
      (List.replicate 5 (some "unavailable"))).sent.length ∧
    (closeCmdStream (examplePackage "7" "tail")
      (List.replicate 5 (some "unavailable"))).sent.length = 5 + 1 :=
  have h : ∀ k, k < 5 → ∃ err, (List.replicate 5 (some "unavailable"))[k]? = some (some err) :=
    fun k hk => ⟨"unavailable", by interval_cases k <;> rfl⟩
  ⟨h,
    (closeCmdStream_retries (examplePackage "7" "tail")
      (List.replicate 5 (some "unavailable"))).2.2.2.1 5 h,
    (closeCmdStream_retries (examplePackage "7" "tail")
      (List.replicate 5 (some "unavailable"))).2.2.2.2 5 "unavailable"⟩

theorem consume_ticks (s : Sender) (n : Nat) :
    consume s [] (List.replicate n StreamEvent.tick) = (none, s) := by
  induction n with
  | zero => simp [consume, send_empty]
  | succ n ih =>
    rw [List.replicate_succ]
    unfold consume
    rw [send_empty]
    exact ih

theorem consume_no_lines (s : Sender) (ticks : List Nat) :
    consume s [] (interleave ticks []) = (none, s) := by
  cases ticks with
  | nil => simp [interleave, consume, send_empty]
  | cons n ns => simpa [interleave] using consume_ticks s n

/-- C28: for a handler whose stream ends without a byte, `processReq` makes no
call of `respCmd`, so it emits no RESPONSE envelope, and returns nil, which it
passes to the completion callback; the caller that waits for the id receives
no first chunk: with a timeout it gets the timeout error, without one it
waits. -/
theorem empty_stream_emits_nothing (cm caller : cmdManager) (cmd c : CmdPackage)
    (x : ExecResult) (resp : Resp) (st : streamer) (results : List (Option String))
    (ticks : List Nat) (timeout : Int)
    (hx : cm.executor.exec cmd = Run.done x) (hr : x.resp = some resp)
    (hst : resp.stream = some st) (hempty : st.content = []) (ht : 0 < timeout) :
    ∃ r, cm.processReq cmd results ticks = Run.done r ∧
      r.log = [] ∧ r.emitted = [] ∧ r.err = none ∧
      (∀ f, x.onComplete = some f → r.completions = [(f, none)]) ∧
      (caller.waitForResp c timeout (r.emitted.map (fun f => f.env))).2 =
        WaitOutcome.err ("execute cmd " ++ c.Name ++ " timeout") ∧
      (caller.waitForResp c 0 (r.emitted.map (fun f => f.env))).2 = WaitOutcome.blocked := by
  have hrun := processReq_stream cm cmd x resp st results ticks hx hr hst
  have hlines : readLines st.content = [] := by rw [hempty]; rfl
  rw [hlines, consume_no_lines] at hrun
  refine ⟨_, hrun, rfl, rfl, rfl, ?_, ?_, ?_⟩
  · intro f hf
    simp only [ReqResult.finish, hf]
  · obtain ⟨cm2, h1, _⟩ := waitForResp_no_chunk caller c timeout [] ht (by simp)
    show (caller.waitForResp c timeout []).2 = _
    rw [h1]
  · show (caller.waitForResp c 0 []).2 = _
    simp [cmdManager.waitForResp, cmdManager.awaitFirst]

/-- Witness of C28: the command `quiet` answers with a stream that ends at
once. -/
theorem empty_stream_emits_nothing_witness :
    ∃ r, quietManager.processReq (examplePackage "1" "quiet") [] [2, 3] = Run.done r ∧
      r.log = [] ∧ r.emitted = [] ∧ r.err = none ∧ r.completions = [("done", none)] ∧
      ((newCmdManager "srv").waitForResp (examplePackage "1" "quiet") 1
        (r.emitted.map (fun f => f.env))).2 =
        WaitOutcome.err ("execute cmd " ++ (examplePackage "1" "quiet").Name ++ " timeout") ∧
      ((newCmdManager "srv").waitForResp (examplePackage "1" "quiet") 0
        (r.emitted.map (fun f => f.env))).2 = WaitOutcome.blocked :=
  have h := empty_stream_emits_nothing quietManager (newCmdManager "srv")
    (examplePackage "1" "quiet") (examplePackage "1" "quiet")
    (ExecResult.mk
      (executor.mk "agent" quietManager.executor.cmdHandlers [("1", newStreamer [])])
      (CmdPackage.mk "1" "quiet" [] "srv" "agent" CmdType.RESPONSE 0 "" [] false)
      (some (Resp.mk SuccessCode SuccessMsg "" (some (newStreamer [])) false))
      (some "done") [Req.mk "1" "quiet" [] "srv" "agent"])
    (Resp.mk SuccessCode SuccessMsg "" (some (newStreamer [])) false) (newStreamer [])
    [] [2, 3] 1
    (by simp [quietManager, executor.exec, newExecutor, executor.addHandler, GoMap.store,
      GoMap.delete, GoMap.load, CloseStream, examplePackage, emptyStreamHandler, Handler.call])
    rfl rfl rfl (by decide)
  match h with
  | ⟨r, h1, h2, h3, h4, h5, h6, h7⟩ => ⟨r, h1, h2, h3, h4, h5 "done" rfl, h6, h7⟩

/-- C29, at the failing input: the handler of `void` returns a nil Resp and a
completion callback. `processReq` does not return the error "exec resp is
nil": `exec` calls `resp.IsStream()` on the nil Resp before `processReq` tests
it, and the call panics; no envelope is sent and the callback is not called. -/
theorem processReq_nil_resp_panics (results : List (Option String)) (ticks : List Nat) :
    GoMap.load nilManager.executor.cmdHandlers "void" = some nilHandler ∧
    nilManager.executor.exec (examplePackage "1" "void") =
      Run.panic "invalid memory address or nil pointer dereference" ∧
    nilManager.processReq (examplePackage "1" "void") results ticks =
      Run.panic "invalid memory address or nil pointer dereference" := by
  have hexec : nilManager.executor.exec (examplePackage "1" "void") =
      Run.panic "invalid memory address or nil pointer dereference" := by
    simp [nilManager, executor.exec, newExecutor, executor.addHandler, GoMap.store,
      GoMap.delete, GoMap.load, CloseStream, examplePackage, nilHandler, Handler.call]
  refine ⟨by rfl, hexec, ?_⟩
  simp only [cmdManager.processReq, hexec]

/-! ## Storage -/

/-- C30, at every input: `Storage.DeleteByDigest` calls itself and nothing
else, so at no depth of the stack has a call returned: it removes no blob and
returns no result, and `CleanPackageDirtyData` over the CAS driver does not
return when the stored digest differs from the given one. The removal is what
`deleteBlobData` does, which no method calls. -/
theorem DeleteByDigest_never_returns (depth : Nat) (s : Storage) (digest : String) :
    s.DeleteByDigest depth digest = none ∧
    (StorageDriver.cas s).DeleteByDigest depth digest = none ∧
    (∀ found : GoMap String String,
      CleanPackageDirtyData depth (StorageDriver.cas s) (Except.ok found) digest =
        if (GoMap.load found "digest").getD "" ≠ digest then none
        else some (Run.done none)) ∧
    CleanPackageDirtyData depth (StorageDriver.cas s) (Except.ok [("digest", "ab12")]) "cd34" =
      none ∧
    (Storage.mk ["ab12"]).deleteBlobData "ab12" = Run.done (none, Storage.mk []) := by
  have h2 : ∀ (n : Nat) (d : String), s.DeleteByDigest n d = none := by
    intro n d
    induction n with
    | zero => rfl
    | succ n ih => exact ih
  have h := h2 depth digest
  refine ⟨h, by simp only [StorageDriver.DeleteByDigest, h], ?_, ?_, ?_⟩
  · intro found
    simp only [CleanPackageDirtyData, StorageDriver.DeleteByDigest, h]
  · have hne : (GoMap.load [("digest", "ab12")] "digest").getD "" ≠ "cd34" := by decide
    simp only [CleanPackageDirtyData, hne, if_true, StorageDriver.DeleteByDigest, h2 depth,
      ne_eq, not_false_eq_true]
  · rfl

/-! ## Client tunnel: the receive loop and the registration -/

theorem receiveLoop_eof (cm : cmdManager) (received : List Recv) (evs : List ListenEvent) :
    receiveLoop cm received (ListenEvent.recv Recv.eof :: evs) =
      receiveLoop cm (received ++ [Recv.eof]) evs := rfl

theorem receiveLoop_eofs (cm : cmdManager) (n : Nat) (received : List Recv) :
    receiveLoop cm received (List.replicate n (ListenEvent.recv Recv.eof)) =
      Listening.mk cm (received ++ List.replicate n Recv.eof) LoopEnd.receiving := by
  induction n generalizing received with
  | zero => simp [receiveLoop]
  | succ n ih =>
    rw [List.replicate_succ, receiveLoop_eof, ih, List.replicate_succ, List.append_assoc]
    rfl

/-- C21 as stated fails: when the `Recv` of the client reports `io.EOF`, the
goroutine of `StartListen` is still in the receive loop of that stream, and the
outer loop fires no hook and polls nothing; after another error the loop is
left. -/
theorem eof_stays_in_receive_loop :
    (receiveLoop exampleClient.cmdManager [] [ListenEvent.recv Recv.eof]).fin =
      LoopEnd.receiving ∧
    (receiveLoop exampleClient.cmdManager [] [ListenEvent.recv Recv.eof]).received =
      [Recv.eof] ∧
    exampleClient.afterLoop
      (receiveLoop exampleClient.cmdManager [] [ListenEvent.recv Recv.eof]).fin false false =
      [] ∧
    (receiveLoop exampleClient.cmdManager [] [ListenEvent.recv (Recv.failed "reset")]).fin =
      LoopEnd.left :=
  ⟨rfl, rfl, rfl, rfl⟩

/-- C21, amended: a `Recv` that reports `io.EOF` keeps the client in the
receive loop of the same stream: the loop goes on with the next `Recv`, and
after any number of EOF results it is still receiving, with the manager
unchanged and, unless the connection reports a failure, no hook fired and no
poll. A `Recv` that fails with another error ends the loop; then the not-ready
hooks are fired (the first of them is called), the dial primitive is polled and
the handshake restarts. The stop signal ends the loop without a restart. -/
theorem receive_loop_left_on_error_only (cc : cmdClient) (cm : cmdManager)
    (received : List Recv) (evs : List ListenEvent) (n : Nat) (err : String)
    (pickStop : Bool) :
    receiveLoop cm received (ListenEvent.recv Recv.eof :: evs) =
      receiveLoop cm (received ++ [Recv.eof]) evs ∧
    (receiveLoop cm received (List.replicate n (ListenEvent.recv Recv.eof))).fin =
      LoopEnd.receiving ∧
    (receiveLoop cm received (List.replicate n (ListenEvent.recv Recv.eof))).received =
      received ++ List.replicate n Recv.eof ∧
    cc.afterLoop (receiveLoop cm received (List.replicate n (ListenEvent.recv Recv.eof))).fin
      false pickStop = [] ∧
    (receiveLoop cm received (ListenEvent.recv (Recv.failed err) :: evs)).fin = LoopEnd.left ∧
    (receiveLoop cm received (ListenEvent.recv (Recv.failed err) :: evs)).received =
      received ++ [Recv.failed err] ∧
    cc.afterLoop (receiveLoop cm received (ListenEvent.recv (Recv.failed err) :: evs)).fin
      false pickStop =
      [ClientAction.fireOnNotReady (cc.onNotReadyFuncs.take 1), ClientAction.pollConn,
        ClientAction.restart] ∧
    (receiveLoop cm received (ListenEvent.stop :: evs)).fin = LoopEnd.stopped ∧
    ClientAction.restart ∉
      cc.afterLoop (receiveLoop cm received (ListenEvent.stop :: evs)).fin false pickStop := by
  have hfire : (cc.fireOnNotReady false).1 = cc.onNotReadyFuncs.take 1 :=
    (fireLoop_first false cc.onNotReadyFuncs).1
  refine ⟨rfl, ?_, ?_, ?_, rfl, rfl, ?_, rfl, ?_⟩
  · rw [receiveLoop_eofs]
  · rw [receiveLoop_eofs]
  · rw [receiveLoop_eofs]; rfl
  · show [ClientAction.fireOnNotReady (cc.fireOnNotReady false).1, ClientAction.pollConn,
      ClientAction.restart] = _
    rw [hfire]
  · show ClientAction.restart ∉ cc.afterLoop LoopEnd.stopped false pickStop
    cases pickStop <;> simp [cmdClient.afterLoop]

theorem find_saved_conn (cm : ConnManager) (tag : Tag) (key : String)
    (infoData : List (String × String)) (value : Option Nat) (visit : List Tag)
    (hmem : tag ∈ visit)
    (hother : ∀ t conn, t ≠ tag → GoMap.load cm.conns t = some conn → conn.Key ≠ key) :
    (List.filterMap (GoMap.load (GoMap.store cm.conns tag (Conn.mk key infoData value)))
      visit).find? (fun conn => decide (conn.Key = key)) =
      some (Conn.mk key infoData value) := by
  cases hf : (List.filterMap (GoMap.load (GoMap.store cm.conns tag
      (Conn.mk key infoData value))) visit).find? (fun conn => decide (conn.Key = key)) with
  | none =>
    have h1 := List.find?_eq_none.mp hf (Conn.mk key infoData value)
      (List.mem_filterMap.mpr ⟨tag, hmem, GoMap.load_store_self _ _ _⟩)
    simp at h1
  | some c =>
    have hc1 : c.Key = key := by simpa using List.find?_some hf
    obtain ⟨t, _, ht⟩ := List.mem_filterMap.mp (List.mem_of_find?_eq_some hf)
    by_cases htag : t = tag
    · rw [htag, GoMap.load_store_self] at ht
      rw [← Option.some.inj ht]
    · rw [GoMap.load_store_ne _ _ htag] at ht
      exact absurd hc1 (hother t c htag ht)

/-- C27 as stated fails: the register package of a client holds no metadata,
its Args is the nil map, and after the registration `GetConnInfo` of the
identity returns the empty metadata. -/
theorem register_carries_no_metadata :
    (exampleClient.genRegisterCmd "u1").Args = [] ∧
    (exampleBegunServer.handleRegisterIfNeed (some 1) (exampleClient.genRegisterCmd "u1") 10
      [1] []).saveErr = none ∧
    (exampleBegunServer.handleRegisterIfNeed (some 1) (exampleClient.genRegisterCmd "u1") 10
      [1] []).cs.connManager.GetConnInfo [1] "agent" = Except.ok [] := by
  decide

/-- C27, amended: the package built by `genRegisterCmd` has Name "register",
Caller the name of the client and no Args: it carries the identity and no
metadata. The server passes `recv.Caller`, `recv.Args` and the stream to
`SaveConn`; for a context with a tag, and when no connection with another tag
is registered under the identity, `GetConnValue` of the identity then returns
the stream and `GetConnInfo` returns the empty metadata, and the response
handed to `respCmd` has the success code. -/
theorem register_carries_identity (cc : cmdClient) (uuid : String) (cs : cmdServer)
    (tag : Tag) (stream : Nat) (visit lookups : List Tag) (sends : List (Option String))
    (hlookups : lookups.Perm (GoMap.keys (cs.handleRegisterIfNeed (some tag)
      (cc.genRegisterCmd uuid) stream visit sends).cs.connManager.conns))
    (hother : ∀ t conn, t ≠ tag → GoMap.load cs.connManager.conns t = some conn →
      conn.Key ≠ cc.cmdManager.Name) :
    (cc.genRegisterCmd uuid).UUID = uuid ∧
    (cc.genRegisterCmd uuid).Name = "register" ∧
    (cc.genRegisterCmd uuid).Caller = cc.cmdManager.Name ∧
    (cc.genRegisterCmd uuid).Args = [] ∧
    (cs.handleRegisterIfNeed (some tag) (cc.genRegisterCmd uuid) stream visit
      sends).cs.connManager =
      (cs.connManager.SaveConn (some tag) (cc.genRegisterCmd uuid).Caller
        (cc.genRegisterCmd uuid).Args (some stream)).1 ∧
    (cs.handleRegisterIfNeed (some tag) (cc.genRegisterCmd uuid) stream visit
      sends).saveErr = none ∧
    (cs.handleRegisterIfNeed (some tag) (cc.genRegisterCmd uuid) stream visit
      sends).cs.connManager.GetConnValue lookups cc.cmdManager.Name = Except.ok (some stream) ∧
    (cs.handleRegisterIfNeed (some tag) (cc.genRegisterCmd uuid) stream visit
      sends).cs.connManager.GetConnInfo lookups cc.cmdManager.Name = Except.ok [] ∧
    (cs.handleRegisterIfNeed (some tag) (cc.genRegisterCmd uuid) stream visit
      sends).resp = some (registerResp (cc.genRegisterCmd uuid) none) ∧
    (registerResp (cc.genRegisterCmd uuid) none).RespCode = uint32 SuccessCode := by
  have hcs : (cs.handleRegisterIfNeed (some tag) (cc.genRegisterCmd uuid) stream visit
      sends).cs.connManager =
      ConnManager.mk (GoMap.store cs.connManager.conns tag
        (Conn.mk cc.cmdManager.Name [] (some stream)))
        cs.connManager.onReadyFuncs cs.connManager.onNotReadyFuncs := by
    simp [cmdServer.handleRegisterIfNeed, cmdClient.genRegisterCmd, ConnManager.SaveConn,
      getConnTagFromContext]
  rw [hcs] at hlookups ⊢
  have hmem : tag ∈ lookups :=
    hlookups.symm.subset (GoMap.mem_keys_store cs.connManager.conns tag _)
  have hfind := find_saved_conn cs.connManager tag cc.cmdManager.Name [] (some stream)
    lookups hmem hother
  refine ⟨rfl, rfl, rfl, rfl, rfl, ?_, ?_, ?_, ?_, rfl⟩
  · simp [cmdServer.handleRegisterIfNeed, cmdClient.genRegisterCmd, ConnManager.SaveConn,
      getConnTagFromContext]
  · simp only [ConnManager.GetConnValue, ConnManager.range, hfind]
  · simp only [ConnManager.GetConnInfo, ConnManager.range, hfind]
  · simp [cmdServer.handleRegisterIfNeed, cmdClient.genRegisterCmd, ConnManager.SaveConn,
      getConnTagFromContext]

/-- Witness of C27, amended: the example client registers on the connection
tagged `1` that has begun. -/
theorem register_carries_identity_witness :
    (exampleClient.genRegisterCmd "u1").Name = "register" ∧
    (exampleBegunServer.handleRegisterIfNeed (some 1) (exampleClient.genRegisterCmd "u1") 10
      [1] []).cs.connManager.GetConnValue [1] exampleClient.cmdManager.Name =
      Except.ok (some 10) ∧
    (exampleBegunServer.handleRegisterIfNeed (some 1) (exampleClient.genRegisterCmd "u1") 10
      [1] []).cs.connManager.GetConnInfo [1] exampleClient.cmdManager.Name = Except.ok [] :=
  have h := register_carries_identity exampleClient "u1" exampleBegunServer 1 10 [1] [1] []
    (by decide)
    (by
      intro t conn ht hload
      by_cases h1 : 1 = t
      · exact absurd h1.symm ht
      · simp [exampleBegunServer, GoMap.load, h1] at hload)
  ⟨h.2.1, h.2.2.2.2.2.2.1, h.2.2.2.2.2.2.2.1⟩

/-! ## Durations -/

theorem unit_value (d k : Int) (hk : 0 < k) :
    ((d.tdiv k : Int) : ℚ) + ((d.tmod k : Int) : ℚ) / (k : ℚ) = (d : ℚ) / (k : ℚ) := by
  have hk0 : (k : ℚ) ≠ 0 := by exact_mod_cast hk.ne.symm
  have h := Int.tdiv_add_tmod d k
  have h2 : (d : ℚ) = (k : ℚ) * ((d.tdiv k : Int) : ℚ) + ((d.tmod k : Int) : ℚ) := by
    exact_mod_cast h.symm
  field_simp
  rw [h2]; ring

theorem toInt_div (d : Int) (k : Nat) (hd : 0 ≤ d) :
    toInt ((d : ℚ) / (k : ℚ)) = d / (k : Int) := by
  have h0 : (0 : ℚ) ≤ (d : ℚ) / (k : ℚ) := by positivity
  simp only [toInt, h0, if_true]
  exact Rat.floor_intCast_div_natCast d k

theorem toInt_Mod (n : Int) (k m : Nat) (hn : 0 ≤ n) (hk : 0 < k) (hm : 0 < m) :
    toInt (Mod ((n : ℚ) / (k : ℚ)) (m : ℚ)) =
      n / (k : Int) - (m : Int) * (n / ((k * m : Nat) : Int)) := by
  have hq : toInt ((n : ℚ) / (k : ℚ) / (m : ℚ)) = n / ((k * m : Nat) : Int) := by
    rw [div_div, ← Nat.cast_mul]
    exact toInt_div n (k * m) hn
  have hk0 : (0 : ℚ) < (k : ℚ) := by exact_mod_cast hk
  have hm0 : (0 : ℚ) < (m : ℚ) := by exact_mod_cast hm
  have hx : (0 : ℚ) ≤ (n : ℚ) / (k : ℚ) / (m : ℚ) := by positivity
  have hfl : ((n / ((k * m : Nat) : Int) : Int) : ℚ) ≤ (n : ℚ) / (k : ℚ) / (m : ℚ) := by
    rw [← hq]
    simp only [toInt, hx, if_true]
    exact Int.floor_le _
  have hnn : (0 : ℚ) ≤
      (n : ℚ) / (k : ℚ) - (m : ℚ) * ((n / ((k * m : Nat) : Int) : Int) : ℚ) := by
    have := mul_le_mul_of_nonneg_left hfl hm0.le
    have h2 : (m : ℚ) * ((n : ℚ) / (k : ℚ) / (m : ℚ)) = (n : ℚ) / (k : ℚ) := by
      field_simp
      ring
    rw [h2] at this
    linarith
  unfold Mod
  rw [hq]
  simp only [toInt, hnn, if_true]
  have h3 : (n : ℚ) / (k : ℚ) - (m : ℚ) * ((n / ((k * m : Nat) : Int) : Int) : ℚ) =
      (n : ℚ) / (k : ℚ) - (((m : Int) * (n / ((k * m : Nat) : Int)) : Int) : ℚ) := by
    push_cast; ring
  rw [h3, Int.floor_sub_int, Rat.floor_intCast_div_natCast]

theorem Hours_value (d : Int) : Hours d = (d : ℚ) / ((3600000000000 : Nat) : ℚ) := by
  have h := unit_value d Hour (by decide)
  have hc : ((Hour : Int) : ℚ) = 60 * 60 * 1000000000 := by
    simp [Hour, Minute, Second]; norm_num
  rw [hc] at h
  unfold Hours
  rw [h]; norm_num

theorem Minutes_value (d : Int) : Minutes d = (d : ℚ) / ((60000000000 : Nat) : ℚ) := by
  have h := unit_value d Minute (by decide)
  have hc : ((Minute : Int) : ℚ) = 60 * 1000000000 := by
    simp [Minute, Second]; norm_num
  rw [hc] at h
  unfold Minutes
  rw [h]; norm_num

theorem Seconds_value (d : Int) : Seconds d = (d : ℚ) / ((1000000000 : Nat) : ℚ) := by
  have h := unit_value d Second (by decide)
  have hc : ((Second : Int) : ℚ) = 1000000000 := by simp [Second]
  rw [hc] at h
  unfold Seconds
  rw [h]; norm_num

theorem Sub_nonneg (start end_ : Time) (h : start.After end_ = false) :
    0 ≤ end_.Sub start := by
  have h1 : ¬ end_.ns < start.ns := by simpa [Time.After] using h
  unfold Time.Sub
  split
  · decide
  · split
    · have : minDuration = -9223372036854775808 := rfl
      omega
    · omega

/-- The value of `Duration` for a start that is not after the end, in terms of
the duration `end.Sub(start)` in nanoseconds. -/
theorem Duration_value (start end_ : Time) (h : start.After end_ = false) :
    Duration start end_ =
      ((end_.Sub start) / 86400000000000, (end_.Sub start) / 3600000000000 % 24,
        (end_.Sub start) / 60000000000 % 60, (end_.Sub start) / 1000000000 % 60) := by
  have hn := Sub_nonneg start end_ h
  have h1 : toInt (Hours (end_.Sub start) / 24) = (end_.Sub start) / 86400000000000 := by
    rw [Hours_value, div_div]
    have : (((3600000000000 : Nat) : ℚ) * 24) = ((86400000000000 : Nat) : ℚ) := by norm_num
    rw [this]
    exact toInt_div _ _ hn
  have h2 : toInt (Mod (Hours (end_.Sub start)) 24) =
      (end_.Sub start) / 3600000000000 % 24 := by
    have := toInt_Mod (end_.Sub start) 3600000000000 24 hn (by decide) (by decide)
    rw [Hours_value]
    simp only [Nat.cast_ofNat] at this ⊢
    rw [this]
    omega
  have h3 : toInt (Mod (Minutes (end_.Sub start)) 60) =
      (end_.Sub start) / 60000000000 % 60 := by
    have := toInt_Mod (end_.Sub start) 60000000000 60 hn (by decide) (by decide)
    rw [Minutes_value]
    simp only [Nat.cast_ofNat] at this ⊢
    rw [this]
    omega
  have h4 : toInt (Mod (Seconds (end_.Sub start)) 60) =
      (end_.Sub start) / 1000000000 % 60 := by
    have := toInt_Mod (end_.Sub start) 1000000000 60 hn (by decide) (by decide)
    rw [Seconds_value]
    simp only [Nat.cast_ofNat] at this ⊢
    rw [this]
    omega
  simp only [Duration, h, h1, h2, h3, h4]
  rfl

theorem Duration_after (start end_ : Time) (h : start.After end_ = true) :
    Duration start end_ = (0, 0, 0, 0) := by
  simp only [Duration, h, if_true]

/-- C23 as stated fails: for a start at the zero instant and an end 10^10 whole
seconds later, start is not after end, and `Duration` returns the split of the
largest duration, (106751, 23, 47, 16), where the claim gives
(115740, 17, 46, 40). -/
theorem Duration_saturates :
    (Time.mk 0).After (Time.mk (10000000000 * 1000000000)) = false ∧
    (Time.mk (10000000000 * 1000000000)).ns - (Time.mk 0).ns = 10000000000 * 1000000000 ∧
    Duration (Time.mk 0) (Time.mk (10000000000 * 1000000000)) = (106751, 23, 47, 16) ∧
    ((10000000000 : Int) / 86400, (10000000000 : Int) / 3600 % 24,
      (10000000000 : Int) / 60 % 60, (10000000000 : Int) % 60) = (115740, 17, 46, 40) := by
  refine ⟨by decide, by decide, ?_, by decide⟩
  rw [Duration_value _ _ (by decide)]
  decide

/-- C23, amended: for every start and end with start not after end and a
difference of d whole seconds that a `time.Duration` can hold (d at most
9223372036), `Duration` returns (d div 86400, (d div 3600) mod 24,
(d div 60) mod 60, d mod 60): the hours are below 24, the minutes and seconds
below 60, and the parts add up to d. For a larger difference it returns the
split of the largest duration, (106751, 23, 47, 16). For start after end it
returns (0, 0, 0, 0). -/
theorem Duration_decomposition (start end_ : Time) (d : Int)
    (hd : end_.ns - start.ns = d * 1000000000) :
    (0 ≤ d → d ≤ 9223372036 →
      Duration start end_ = (d / 86400, d / 3600 % 24, d / 60 % 60, d % 60) ∧
      0 ≤ (Duration start end_).1 ∧
      0 ≤ (Duration start end_).2.1 ∧ (Duration start end_).2.1 < 24 ∧
      0 ≤ (Duration start end_).2.2.1 ∧ (Duration start end_).2.2.1 < 60 ∧
      0 ≤ (Duration start end_).2.2.2 ∧ (Duration start end_).2.2.2 < 60 ∧
      (Duration start end_).1 * 86400 + (Duration start end_).2.1 * 3600 +
        (Duration start end_).2.2.1 * 60 + (Duration start end_).2.2.2 = d) ∧
    (9223372036 < d → Duration start end_ = (106751, 23, 47, 16)) ∧
    (d < 0 → Duration start end_ = (0, 0, 0, 0)) := by
  refine ⟨?_, ?_, ?_⟩
  · intro h0 hmax
    have hafter : start.After end_ = false := by
      simp only [Time.After, decide_eq_false_iff_not]
      omega
    have hsub : end_.Sub start = d * 1000000000 := by
      have h1 : maxDuration = 9223372036854775807 := rfl
      have h2 : minDuration = -9223372036854775808 := rfl
      unfold Time.Sub
      rw [hd, h1, h2]
      split
      · omega
      · split
        · omega
        · rfl
    have hval : Duration start end_ = (d / 86400, d / 3600 % 24, d / 60 % 60, d % 60) := by
      rw [Duration_value _ _ hafter, hsub]
      refine Prod.ext ?_ (Prod.ext ?_ (Prod.ext ?_ ?_))
      · show d * 1000000000 / 86400000000000 = d / 86400
        omega
      · show d * 1000000000 / 3600000000000 % 24 = d / 3600 % 24
        omega
      · show d * 1000000000 / 60000000000 % 60 = d / 60 % 60
        omega
      · show d * 1000000000 / 1000000000 % 60 = d % 60
        omega
    rw [hval]
    refine ⟨rfl, ?_⟩
    simp only
    omega
  · intro hbig
    have hafter : start.After end_ = false := by
      simp only [Time.After, decide_eq_false_iff_not]
      omega
    have hsub : end_.Sub start = 9223372036854775807 := by
      have h1 : maxDuration = 9223372036854775807 := rfl
      unfold Time.Sub
      rw [hd, h1]
      split
      · rfl
      · omega
    rw [Duration_value _ _ hafter, hsub]
    decide
  · intro hneg
    apply Duration_after
    simp only [Time.After, decide_eq_true_eq]
    omega

/-- Witness of C23, amended: the third case of `TestDuration`, a start at
2020-04-10 12:50:00 and an end at 2020-04-13 08:10:00, which is 242400 seconds
later; an end 10^10 seconds after the start; and the last case of
`TestDuration`, an end 82800 seconds before the start. -/
theorem Duration_decomposition_witness :
    Duration (Time.mk 0) (Time.mk (242400 * 1000000000)) = (2, 19, 20, 0) ∧
    Duration (Time.mk 0) (Time.mk (10000000000 * 1000000000)) = (106751, 23, 47, 16) ∧
    Duration (Time.mk (82800 * 1000000000)) (Time.mk 0) = (0, 0, 0, 0) :=
  ⟨((Duration_decomposition (Time.mk 0) (Time.mk (242400 * 1000000000)) 242400
      (by decide)).1 (by decide) (by decide)).1,
    (Duration_decomposition (Time.mk 0) (Time.mk (10000000000 * 1000000000)) 10000000000
      (by decide)).2.1 (by decide),
    (Duration_decomposition (Time.mk (82800 * 1000000000)) (Time.mk 0) (-82800)
      (by decide)).2.2 (by decide)⟩

/-- C24, at the failing inputs: for a start after the end, of which the last
case of `TestDuration` is one (a start 23 hours after the end), `Duration`
returns (0, 0, 0, 0) and `Elapsed` returns "0秒", not the empty string that
the test expects: with hours = 0 the test `seconds >= 0` holds and the seconds
are appended. With a nil start `Elapsed` returns the empty string. -/
theorem Elapsed_start_after_end (now end_ : Time) (k : Nat) (e : Option Time) :
    Elapsed now (some (Time.mk (82800 * 1000000000))) (some (Time.mk 0)) = "0秒" ∧
    Duration (Time.mk (end_.ns + k + 1)) end_ = (0, 0, 0, 0) ∧
    Elapsed now (some (Time.mk (end_.ns + k + 1))) (some end_) = "0秒" ∧
    Elapsed now none e = "" := by
  have hd : Duration (Time.mk (end_.ns + k + 1)) end_ = (0, 0, 0, 0) := by
    apply Duration_after
    simp only [Time.After, decide_eq_true_eq]
    omega
  have h0 : Duration (Time.mk (82800 * 1000000000)) (Time.mk 0) = (0, 0, 0, 0) :=
    Duration_after _ _ (by decide)
  refine ⟨?_, hd, ?_, rfl⟩
  · simp only [Elapsed, Option.getD_some, h0]
    decide
  · simp only [Elapsed, Option.getD_some, hd]
    decide

/-! ## Resources -/

theorem ParseFloat_value (s : String) (m : Nat) (h : readFloat s = some (false, m, 0))
    (hm : m < 1000000) : ParseFloat s = Except.ok (GoFloat.num m) := by
  have h1 : ¬ ((2 : ℚ) ^ 1024 - 2 ^ 970 ≤ (m : ℚ)) := by
    have h2 : (m : ℚ) < 1000000 := by exact_mod_cast hm
    have h3 : (1000000 : ℚ) ≤ 2 ^ 1024 - 2 ^ 970 := by norm_num
    linarith
  simp only [ParseFloat, h, zpow_zero, mul_one, h1, if_false, Bool.false_eq_true]

theorem div_zero_not_num (x : GoFloat) (q : ℚ) : x.div (GoFloat.num 0) ≠ GoFloat.num q := by
  cases x with
  | num a =>
    simp only [GoFloat.div, if_true]
    split_ifs <;> simp
  | posInf => simp [GoFloat.div]
  | negInf => simp [GoFloat.div]
  | nan => simp [GoFloat.div]

/-- C22, at the failing inputs: for cpu the value "500m" yields 500, not 0.5
cores, because the divisor 1000 set for the suffix `m` is overwritten by 1 in
the next statement; for gpu the divisor keeps its initial value 0, so "2"
yields the positive infinity, "0" yields NaN, and no value yields a number.
The memory case and the cpu case without suffix return the value in the
documented unit, and the four error cases return an error. -/
theorem ParseResource_units :
    ParseResource "500m" ResourceCPU = Except.ok (GoFloat.num 500) ∧
    ParseResource "2" ResourceGPU = Except.ok GoFloat.posInf ∧
    ParseResource "0" ResourceGPU = Except.ok GoFloat.nan ∧
    (∀ res q, ParseResource res ResourceGPU ≠ Except.ok (GoFloat.num q)) ∧
    ParseResource "2" ResourceCPU = Except.ok (GoFloat.num 2) ∧
    ParseResource "512Mi" ResourceMemory = Except.ok (GoFloat.num (1 / 2)) ∧
    ParseResource "512MiB" ResourceMemory = Except.ok (GoFloat.num (1 / 2)) ∧
    ParseResource "2Gi" ResourceMemory = Except.ok (GoFloat.num 2) ∧
    ParseResource " 2GiB" ResourceMemory = Except.ok (GoFloat.num 2) ∧
    ParseResource " " ResourceCPU = Except.error "value is nil" ∧
    ParseResource "x" ResourceCPU = Except.error "value format invalid, eg. 1000m or 1" ∧
    ParseResource "512" ResourceMemory =
      Except.error "value \"512\" unit not present, use Mi(B), Gi(B)" ∧
    ParseResource "1" "disk" = Except.error "unknown resource type 1" := by
  have p500 := ParseFloat_value "500" 500 (by decide) (by decide)
  have p2 := ParseFloat_value "2" 2 (by decide) (by decide)
  have p0 := ParseFloat_value "0" 0 (by decide) (by decide)
  have p512 := ParseFloat_value "512" 512 (by decide) (by decide)
  have t1 : TrimSpace "500m" = "500m" := by decide
  have t2 : TrimSpace "2" = "2" := by decide
  have t3 : TrimSpace "0" = "0" := by decide
  have t4 : TrimSpace "512Mi" = "512Mi" := by decide
  have t5 : TrimSpace " 2GiB" = "2GiB" := by decide
  have t6 : TrimSpace " " = "" := by decide
  have t7 : TrimSpace "512" = "512" := by decide
  have t8 : TrimSpace "1" = "1" := by decide
  have t9 : TrimSpace "512MiB" = "512MiB" := by decide
  have t10 : TrimSpace "2Gi" = "2Gi" := by decide
  have t11 : TrimSpace "x" = "x" := by decide
  have m1 : memoryUnit "512Mi" 0 = ("512", 1024) := by decide
  have m2 : memoryUnit "2GiB" 0 = ("2", 1) := by decide
  have m3 : memoryUnit "512" 0 = ("512", 0) := by decide
  have m4 : memoryUnit "512MiB" 0 = ("512", 1024) := by decide
  have m5 : memoryUnit "2Gi" 0 = ("2", 1) := by decide
  have g1 : ¬ (ResourceGPU = ResourceCPU) := by decide
  have g2 : ¬ (ResourceGPU = ResourceMemory) := by decide
  have g3 : ¬ (ResourceMemory = ResourceCPU) := by decide
  refine ⟨?_, ?_, ?_, ?_, ?_, ?_, ?_, ?_, ?_, ?_, ?_, ?_, ?_⟩
  · have h2 : HasSuffix "500m" "m" = true := by decide
    have h3 : TrimSuffix "500m" "m" = "500" := by decide
    have h4 : ¬ ("500m" = "") := by decide
    simp only [ParseResource, t1, h2, h3, h4, if_true, if_false, p500, GoFloat.div]
    norm_num
  · have h4 : ¬ ("2" = "") := by decide
    simp only [ParseResource, t2, h4, g1, g2, if_true, if_false, p2, GoFloat.div]
    norm_num
  · have h4 : ¬ ("0" = "") := by decide
    simp only [ParseResource, t3, h4, g1, g2, if_true, if_false, p0, GoFloat.div]
    norm_num
  · intro res q
    unfold ParseResource
    simp only [g1, g2, if_false, if_true]
    split_ifs
    · simp
    · cases hp : ParseFloat (TrimSpace res) with
      | error e => simp
      | ok x =>
        simp only [ne_eq, Except.ok.injEq]
        exact div_zero_not_num x q
  · have h2 : HasSuffix "2" "m" = false := by decide
    have h4 : ¬ ("2" = "") := by decide
    simp only [ParseResource, t2, h2, h4, if_true, if_false, p2, GoFloat.div,
      Bool.false_eq_true]
    norm_num
  · have h4 : ¬ ("512Mi" = "") := by decide
    simp only [ParseResource, t4, h4, g3, m1, if_true, if_false, p512, GoFloat.div]
    norm_num
  · have h4 : ¬ ("512MiB" = "") := by decide
    simp only [ParseResource, t9, h4, g3, m4, if_true, if_false, p512, GoFloat.div]
    norm_num
  · have h4 : ¬ ("2Gi" = "") := by decide
    simp only [ParseResource, t10, h4, g3, m5, if_true, if_false, p2, GoFloat.div]
    norm_num
  · have h4 : ¬ ("2GiB" = "") := by decide
    simp only [ParseResource, t5, h4, g3, m2, if_true, if_false, p2, GoFloat.div]
    norm_num
  · simp only [ParseResource, t6, if_true]
  · have h2 : HasSuffix "x" "m" = false := by decide
    have h4 : ¬ ("x" = "") := by decide
    have h5 : readFloat "x" = none := by decide
    simp only [ParseResource, t11, h2, h4, if_true, if_false, ParseFloat, h5,
      Bool.false_eq_true]
  · have h4 : ¬ ("512" = "") := by decide
    simp only [ParseResource, t7, h4, g3, m3, if_true, if_false]
    rfl
  · have h4 : ¬ ("1" = "") := by decide
    have h5 : ¬ ("disk" = ResourceCPU) := by decide
    have h6 : ¬ ("disk" = ResourceMemory) := by decide
    have h7 : ¬ ("disk" = ResourceGPU) := by decide
    simp only [ParseResource, t8, h4, h5, h6, h7, if_true, if_false]
    rfl

/-! ## Addresses -/

theorem digitsValue_ge (cs : List Char) (n : Nat) : n ≤ digitsValue n cs := by
  induction cs generalizing n with
  | nil => exact Nat.le_refl _
  | cons c cs ih =>
    have := ih (n * 10 + (c.toNat - 48))
    simp only [digitsValue, List.foldl_cons] at this ⊢
    omega

theorem dtoiLoop_digits (ds rest : List Char) (n i : Nat)
    (hds : ∀ c ∈ ds, c.isDigit = true) (hval : digitsValue n ds < big) :
    dtoiLoop n i (ds ++ rest) = dtoiLoop (digitsValue n ds) (i + ds.length) rest := by
  induction ds generalizing n i with
  | nil => rfl
  | cons c cs ih =>
    have hc : c.isDigit = true := hds c (List.mem_cons_self _ _)
    have hge := digitsValue_ge cs (n * 10 + (c.toNat - 48))
    have hval2 : digitsValue (n * 10 + (c.toNat - 48)) cs < big := hval
    have hlt : ¬ big ≤ n * 10 + (c.toNat - 48) := by omega
    simp only [List.cons_append, dtoiLoop, hc, if_true, hlt, if_false, List.append_eq]
    rw [ih _ _ (fun x hx => hds x (List.mem_cons_of_mem _ hx)) hval2]
    simp only [List.length_cons]
    have : i + 1 + cs.length = i + (cs.length + 1) := by omega
    rw [this]
    rfl

theorem octet_repr (n : Nat) (h : n ≤ 255) :
    (∀ c ∈ (toString n).data, c.isDigit = true) ∧ digitsValue 0 (toString n).data = n ∧
    (toString n).data ≠ [] ∧
    (1 < (toString n).data.length → (toString n).data.head? ≠ some '0') := by
  interval_cases n <;> decide

theorem dtoi_octet (n : Nat) (h : n ≤ 255) (rest : List Char)
    (hrest : ∀ c r, rest = c :: r → c.isDigit = false) :
    dtoi ((toString n).data ++ rest) = (n, (toString n).data.length, true) := by
  obtain ⟨h1, h2, h3, _⟩ := octet_repr n h
  unfold dtoi
  rw [dtoiLoop_digits _ _ _ _ h1 (by rw [h2]; unfold big; omega), h2, Nat.zero_add]
  have hlen : (toString n).data.length ≠ 0 := fun h0 => h3 (List.length_eq_zero.mp h0)
  cases rest with
  | nil => simp only [dtoiLoop, hlen, if_false]
  | cons c r => simp only [dtoiLoop, hrest c r rfl, hlen, if_false, Bool.false_eq_true]

theorem parseIPv4_step (strict : Bool) (i k n : Nat) (h : n ≤ 255) (rest : List Char)
    (p : List Nat) (hrest : ∀ c r, rest = c :: r → c.isDigit = false) :
    parseIPv4Loop strict (i + 1) ('.' :: ((toString n).data ++ rest)) p (k + 1) =
      parseIPv4Loop strict (i + 2) rest (p ++ [n]) k := by
  obtain ⟨_, _, h3, h4⟩ := octet_repr n h
  have hd := dtoi_octet n h rest hrest
  have hne : ('.' :: ((toString n).data ++ rest)) ≠ [] := List.cons_ne_nil _ _
  have hhead : ¬ (strict = true ∧ 1 < (toString n).data.length ∧
      ((toString n).data ++ rest).head? = some '0') := by
    rintro ⟨_, h5, h6⟩
    rw [List.head?_append_of_ne_nil _ h3] at h6
    exact h4 h5 h6
  have h255 : ¬ 255 < n := by omega
  rw [parseIPv4Loop]
  simp only [hne, if_false, Nat.succ_pos, if_true, hd, h255, hhead, or_self,
    List.drop_left, Bool.true_eq_false]

theorem parseIPv4_first (strict : Bool) (k n : Nat) (h : n ≤ 255) (rest : List Char)
    (hrest : ∀ c r, rest = c :: r → c.isDigit = false) :
    parseIPv4Loop strict 0 ((toString n).data ++ rest) [] (k + 1) =
      parseIPv4Loop strict 1 rest [n] k := by
  obtain ⟨_, _, h3, h4⟩ := octet_repr n h
  have hd := dtoi_octet n h rest hrest
  have hne : ((toString n).data ++ rest) ≠ [] := by
    intro h0
    exact h3 (List.append_eq_nil.mp h0).1
  have hhead : ¬ (strict = true ∧ 1 < (toString n).data.length ∧
      ((toString n).data ++ rest).head? = some '0') := by
    rintro ⟨_, h5, h6⟩
    rw [List.head?_append_of_ne_nil _ h3] at h6
    exact h4 h5 h6
  have h255 : ¬ 255 < n := by omega
  simp only [parseIPv4Loop, hne, if_false, Nat.lt_irrefl, hd, h255, hhead, or_self,
    List.drop_left, Bool.true_eq_false]
  rfl

theorem dotted_data (a b c d : Nat) :
    (dotted a b c d).data =
      (toString a).data ++ ('.' :: ((toString b).data ++ ('.' :: ((toString c).data ++
        ('.' :: ((toString d).data ++ [])))))) := by
  simp [dotted, String.data_append]

theorem parseIPv4_dotted (strict : Bool) (a b c d : Nat) (ha : a ≤ 255) (hb : b ≤ 255)
    (hc : c ≤ 255) (hd : d ≤ 255) :
    parseIPv4 strict (dotted a b c d) = some [a, b, c, d] := by
  unfold parseIPv4
  rw [dotted_data, parseIPv4_first strict 3 a ha _ (by intro c r h; cases h; rfl),
    parseIPv4_step strict 0 2 b hb _ _ (by intro c r h; cases h; rfl),
    parseIPv4_step strict 1 1 c hc _ _ (by intro c r h; cases h; rfl),
    parseIPv4_step strict 2 0 d hd _ _ (by intro c r h; cases h)]
  rfl

theorem find_of_no_colon (cs : List Char) (h : ':' ∉ cs) :
    cs.find? (fun c => c = '.' ∨ c = ':') = if '.' ∈ cs then some '.' else none := by
  induction cs with
  | nil => rfl
  | cons c cs ih =>
    have hc : c ≠ ':' := fun h0 => h (h0 ▸ List.mem_cons_self _ _)
    have hcs : ':' ∉ cs := fun h0 => h (List.mem_cons_of_mem _ h0)
    by_cases hdot : c = '.'
    · subst hdot
      simp
    · have hdot2 : ¬ '.' = c := fun h0 => hdot h0.symm
      simp only [List.find?_cons, hdot, hc, or_self, decide_False, ih hcs, List.mem_cons, hdot2,
        false_or]

theorem IsIPv4_iff (strict : Bool) (parseIPv6 : String → Option (List Nat)) (s : String) :
    IsIPv4 strict parseIPv6 s = true ↔
      ':' ∉ s.data ∧ '.' ∈ s.data ∧ (parseIPv4 strict s).isSome = true := by
  by_cases hcolon : ':' ∈ s.data
  · simp [IsIPv4, hcolon]
  · have hp : ParseIP strict parseIPv6 s =
        if '.' ∈ s.data then parseIPv4 strict s else none := by
      unfold ParseIP
      rw [find_of_no_colon _ hcolon]
      by_cases hdot : '.' ∈ s.data <;> simp [hdot]
    by_cases hdot : '.' ∈ s.data
    · simp [IsIPv4, hp, hdot, hcolon]
    · simp [IsIPv4, hp, hdot, hcolon]

theorem IsIPv4_colon (strict : Bool) (parseIPv6 : String → Option (List Nat)) (s : String)
    (h : ':' ∈ s.data) : IsIPv4 strict parseIPv6 s = false := by
  simp [IsIPv4, h]

theorem octet_no_colon (n : Nat) (h : n ≤ 255) : ':' ∉ (toString n).data := by
  intro hmem
  have := (octet_repr n h).1 ':' hmem
  exact absurd this (by decide)

/-- C25: `IsIPv4(s)` is true exactly when `net.ParseIP(s)` is not nil and `s`
holds no `:`, that is when `s` holds no `:`, holds a `.` and is read by
`parseIPv4`. It is false for every string with a `:`, so for the MAC-style
strings and the IPv6 literals, and for the empty string; it is true for the
dotted-decimal text `a.b.c.d` of any four octets from 0 to 255. This holds
whatever the reader of IPv6 literals returns, and whether or not the library
refuses leading zeros. -/
theorem IsIPv4_spec (strict : Bool) (parseIPv6 : String → Option (List Nat)) (s : String)
    (a b c d : Nat) (ha : a ≤ 255) (hb : b ≤ 255) (hc : c ≤ 255) (hd : d ≤ 255) :
    (IsIPv4 strict parseIPv6 s = true ↔
      (ParseIP strict parseIPv6 s).isSome = true ∧ ':' ∉ s.data) ∧
    (IsIPv4 strict parseIPv6 s = true ↔
      ':' ∉ s.data ∧ '.' ∈ s.data ∧ (parseIPv4 strict s).isSome = true) ∧
    (':' ∈ s.data → IsIPv4 strict parseIPv6 s = false) ∧
    IsIPv4 strict parseIPv6 (dotted a b c d) = true ∧
    IsIPv4 strict parseIPv6 "" = false ∧
    IsIPv4 strict parseIPv6 "b2:00:ac:d8:90:00" = false ∧
    IsIPv4 strict parseIPv6 "b::1" = false := by
  refine ⟨by simp [IsIPv4], IsIPv4_iff strict parseIPv6 s, IsIPv4_colon strict parseIPv6 s,
    ?_, ?_, IsIPv4_colon _ _ _ (by decide), IsIPv4_colon _ _ _ (by decide)⟩
  · rw [IsIPv4_iff]
    refine ⟨?_, ?_, ?_⟩
    · rw [dotted_data]
      have ha2 := octet_no_colon a ha
      have hb2 := octet_no_colon b hb
      have hc2 := octet_no_colon c hc
      have hd2 := octet_no_colon d hd
      simp [ha2, hb2, hc2, hd2]
    · rw [dotted_data]
      simp
    · rw [parseIPv4_dotted strict a b c d ha hb hc hd]
      rfl
  · cases h : IsIPv4 strict parseIPv6 "" with
    | false => rfl
    | true =>
      have := ((IsIPv4_iff strict parseIPv6 "").mp h).2.1
      exact absurd this (by decide)

/-- Witness of C25: the address and the IPv6 literal of `TestIsIPv4`. -/
theorem IsIPv4_spec_witness :
    dotted 172 16 244 106 = "172.16.244.106" ∧ ':' ∈ "b::1".data ∧
    IsIPv4 true (fun _ => none) (dotted 172 16 244 106) = true ∧
    IsIPv4 true (fun _ => none) "b::1" = false :=
  ⟨by decide, by decide,
    (IsIPv4_spec true (fun _ => none) "b::1" 172 16 244 106 (by decide) (by decide)
      (by decide) (by decide)).2.2.2.1,
    (IsIPv4_spec true (fun _ => none) "b::1" 172 16 244 106 (by decide) (by decide)
      (by decide) (by decide)).2.2.1 (by decide)⟩

end ProKm
